import Mathlib

/-!
The 3DViewer core: OBJ loader (`Core/parser.c`) and affine transforms
(`Core/affine.c`), as a shallow embedding of the C code.

Conventions of the embedding

* A C pointer to an array is an `Option (List _)`: `none` is `NULL`, `some cells`
  is a block of `cells.length` cells.
* `double` is an arbitrary type `α` carrying the arithmetic the code uses
  (`+`, `-`, `*`, `/`, unary minus, literals).  Statements that only say which
  cell receives which expression hold for every such `α`; statements that
  need laws of arithmetic (associativity, distributivity) are proved for exact
  arithmetic (a group, a field), of which IEEE rounding is not an instance.
  The type `ieee_double` is a model of binary64, with rounding to nearest and
  NaN, on which the statements that fail on doubles are evaluated.
* `size_t` counters are natural numbers: a counter advances once per line or
  token read, so it stays below `2^64` on a file that fits a file system.  The
  `int` cursors `i`, `j`, `m` of the parse pass are natural numbers too; a run
  in which `i` or `m` would leave the range of `int` is marked by the `fault`
  flag of the parse state.  The `int` returned by `atoi` and the `unsigned int`
  face cells are 32 bits wide and are modelled with explicit wrap-around.
* libc is modelled where the code calls it: `getline`, `strtok`, `atoi`,
  `strcpy`.  `calloc`, `sscanf` and `fopen` are parameters of the model:
  `calloc nmemb size` tells whether the request is served (by a zero filled
  block) or answered by `NULL`, and `sscanf_rat` is an instance of `sscanf` for
  plain decimal numerals.  `parser_heap` is the loader for any answers of
  `calloc`, `parser` the loader in a run in which every request is served.
-/

namespace Viewer

/-! ## Data model (`Core/3DViever.h`) -/

/-- The `enum status { OK, ERROR }` of the header. -/
inductive status where
  | OK
  | ERROR
deriving DecidableEq

/-- The `matrix_t` of the header: a flat row-major block of `double`. -/
structure matrix_t (α : Type) where
  matrix : Option (List α)
  rows : Nat
  colums : Nat
deriving DecidableEq

/-- The `polygon_t` of the header: one face, a block of `unsigned int`. -/
structure polygon_t where
  polygon : Option (List Nat)
  colums : Nat
deriving DecidableEq

/-- The `data_object` of the header. -/
structure data_object (α : Type) where
  vertex_count : Nat
  vertex_array : matrix_t α
  polygon_count : Nat
  edges_count : Nat
  all_edges_count : Nat
  polygon_array : Option (List polygon_t)
deriving DecidableEq

/-- The all-zero object `data_object data_obj = {0}` the callers start from. -/
def empty_object {α : Type} : data_object α :=
  { vertex_count := 0
    vertex_array := { matrix := none, rows := 0, colums := 0 }
    polygon_count := 0
    edges_count := 0
    all_edges_count := 0
    polygon_array := none }

/-! ## libc, as far as the loader uses it -/

/-- Lines handed out by successive `getline` calls on a stream holding `text`:
every line keeps its terminating newline, a last line without newline is
returned too, and end of file is reached when no character is left.  The
second argument is the line read so far, most recent character first. -/
def getlines_from : List Char → List Char → List (List Char)
  | [], acc => if acc = [] then [] else [acc.reverse]
  | c :: cs, acc =>
    if c = '\n' then (c :: acc).reverse :: getlines_from cs []
    else getlines_from cs (c :: acc)

/-- All lines of a stream positioned at its start. -/
def getlines (text : List Char) : List (List Char) :=
  getlines_from text []

/-- The C string stored in a `getline` buffer: the bytes before the first NUL. -/
def cstr (buff : List Char) : List Char :=
  buff.takeWhile (fun c => c != '\x00')

/-- The byte `buff[k]` of a `getline` buffer; the byte after the line is the
terminating NUL. -/
def byte_at (buff : List Char) (k : Nat) : Char :=
  buff.getD k '\x00'

/-- Pieces of a string between single spaces (empty pieces included). -/
def split_spaces : List Char → List (List Char)
  | [] => [[]]
  | c :: cs =>
    if c = ' ' then [] :: split_spaces cs
    else
      match split_spaces cs with
      | [] => [[c]]
      | t :: ts => (c :: t) :: ts

/-- The tokens that `strtok(s, " ")` followed by `strtok(NULL, " ")` until
`NULL` hands out: the maximal runs of characters other than the space. -/
def strtok_all (s : List Char) : List (List Char) :=
  (split_spaces s).filter (fun t => t != [])

/-- The `isspace` of the C locale. -/
def isspace (c : Char) : Bool :=
  c = ' ' || c = '\t' || c = '\n' || c = '\x0b' || c = '\x0c' || c = '\r'

/-- The `isdigit` of the C locale. -/
def isdigit (c : Char) : Bool :=
  decide ('0' ≤ c) && decide (c ≤ '9')

/-- Value of a run of decimal digits, most significant first. -/
def digits_value (ds : List Char) : Nat :=
  ds.foldl (fun acc c => 10 * acc + (c.toNat - 48)) 0

/-- Conversion of a `long` to `int`: the low 32 bits, read as two's complement. -/
def to_int32 (v : Int) : Int :=
  (v + 2147483648) % 4294967296 - 2147483648

/-- The `strtol(s, NULL, 10)` of libc on a 64-bit `long`: leading white space,
an optional sign, the longest run of digits; a value out of range is clamped. -/
def strtol (s : List Char) : Int :=
  let body := s.dropWhile isspace
  let magnitude (ds : List Char) : Int := (digits_value (ds.takeWhile isdigit) : Int)
  match body with
  | '-' :: ds => max (-(magnitude ds)) (-9223372036854775808)
  | '+' :: ds => min (magnitude ds) 9223372036854775807
  | _ => min (magnitude body) 9223372036854775807

/-- The `atoi` of libc, which is `(int) strtol(s, NULL, 10)`. -/
def atoi (s : List Char) : Int :=
  to_int32 (strtol s)

/-- Reads an unsigned decimal numeral `digits[.digits]` with at least one digit
and returns its value with the rest of the input. -/
def read_decimal (s : List Char) : Option (ℚ × List Char) :=
  let ip := s.takeWhile isdigit
  let r := s.dropWhile isdigit
  match r with
  | '.' :: r1 =>
    let fp := r1.takeWhile isdigit
    if ip = [] ∧ fp = [] then none
    else some (((digits_value (ip ++ fp) : ℚ)) / ((10 ^ fp.length : Nat) : ℚ), r1.dropWhile isdigit)
  | _ => if ip = [] then none else some ((digits_value ip : ℚ), r)

/-- One `%lf` directive on plain decimal input: white space is skipped, then
an optional sign and a decimal numeral are read. -/
def read_lf (s : List Char) : Option (ℚ × List Char) :=
  match s.dropWhile isspace with
  | '-' :: r => (read_decimal r).map (fun p => (-p.1, p.2))
  | '+' :: r => read_decimal r
  | r => read_decimal r

/-- An instance of `sscanf(buff, "v %lf %lf %lf", &x, &y, &z) == 3` for plain
decimal numerals (sign, digits, fractional part): `some (x, y, z)` when three
numbers are read.  Exponents, hexadecimal numerals, `inf` and `nan`, which
libc also reads, are outside this instance. -/
def sscanf_rat (buff : List Char) : Option (ℚ × ℚ × ℚ) :=
  match buff with
  | 'v' :: r =>
    match read_lf r with
    | some (x, r1) =>
      match read_lf r1 with
      | some (y, r2) =>
        match read_lf r2 with
        | some (z, _) => some (x, y, z)
        | none => none
      | none => none
    | none => none
  | _ => none

/-! ## Allocation helpers (`Core/parser.c`)

`calloc` is a parameter of the helpers: `calloc nmemb size` tells whether the
call `calloc(nmemb, size)` of the run returns a block, of `nmemb` cells that
are all zero, or `NULL`.  Neither helper looks at what `calloc` returns: the
status is `OK` also when the block is missing. -/

/-- The answers of `calloc` in a run in which no allocation fails. -/
def served : Nat → Nat → Bool :=
  fun _ _ => true

/-- The `create_polygon` of the source, on the face `new_polygon` points to
(`none` for a null pointer): returns the status and the face afterwards.  The
cells are `unsigned int`, of 4 bytes. -/
def create_polygon (calloc : Nat → Nat → Bool) (col : Nat) (new_polygon : Option polygon_t) :
    status × Option polygon_t :=
  match new_polygon with
  | some p =>
    if col > 0 then
      (status.OK,
        some { colums := col,
               polygon := if calloc col 4 then some (List.replicate col 0) else none })
    else
      (status.ERROR, some { p with polygon := none })
  | none => (status.OK, none)

/-- The `create_matrix` of the source: returns the status and the matrix
afterwards.  The product `rows * colums` is computed in `size_t`, of 64 bits;
the cells are `double`, of 8 bytes. -/
def create_matrix {α : Type} [Zero α] (calloc : Nat → Nat → Bool) (rows colums : Nat)
    (new_matrix : matrix_t α) : status × matrix_t α :=
  if rows > 0 ∧ colums > 0 then
    (status.OK,
      { rows := rows, colums := colums,
        matrix :=
          if calloc (rows * colums % 18446744073709551616) 8 then
            some (List.replicate (rows * colums % 18446744073709551616) 0)
          else none })
  else
    (status.ERROR, { new_matrix with matrix := none })

/-! ## Count pass -/

/-- Test `buff[0] == 'v' && buff[1] == ' '` of both passes. -/
def is_vertex_line (buff : List Char) : Bool :=
  byte_at buff 0 = 'v' && byte_at buff 1 = ' '

/-- Test `buff[0] == 'f' && buff[1] == ' '` of both passes. -/
def is_face_line (buff : List Char) : Bool :=
  byte_at buff 0 = 'f' && byte_at buff 1 = ' '

/-- Body of the `while` loop of `count_vert_pol` for one line. -/
def count_line {α : Type} (data_obj : data_object α) (buff : List Char) : data_object α :=
  if is_vertex_line buff then { data_obj with vertex_count := data_obj.vertex_count + 1 }
  else if is_face_line buff then { data_obj with polygon_count := data_obj.polygon_count + 1 }
  else data_obj

/-- The `count_vert_pol` of the source on a stream holding `text`. -/
def count_vert_pol {α : Type} (text : List Char) (data_obj : data_object α) : data_object α :=
  (getlines text).foldl count_line data_obj

/-! ## Parse pass -/

/-- The state of `parser_vert_pol` between two lines: its locals `status`,
`count`, `i`, `m` (`j` is zero between lines) and the object `data_obj` points
to.  `fault` is not a C variable: it records that some statement so far has
written or read outside the block it addresses (the copy into `str[1025]`, a
face cell, a vertex cell, a face slot) or has moved the cursor `i` or `m` past
`INT_MAX`.  C gives no meaning to a run after such a step; the model drops the
stray access and carries on, so that on a run that ends with `fault = false`
the model is the run of the C code, and on other runs it follows the statements
as long as the stray accesses leave the object alone. -/
structure parse_state (α : Type) where
  status : status
  count : Nat
  i : Nat
  m : Nat
  data_obj : data_object α
  fault : Bool

/-- The value `parser_vert_pol` stores for one token of the second scan:
`count + tmp` for a negative `tmp = atoi(istr)`, else `atoi(istr)`, converted to
the `unsigned int` of the cell. -/
def stored_index (count : Nat) (istr : List Char) : Nat :=
  let tmp := atoi istr
  if tmp < 0 then (((count : Int) + tmp) % 4294967296).toNat else tmp.toNat

/-- The first scan of a face line: the number of leading tokens of `buff + 1`
that `atoi` converts to a non-zero value. -/
def first_scan (buff : List Char) : Nat :=
  ((strtok_all (cstr buff).tail).takeWhile (fun istr => atoi istr != 0)).length

/-- The writes `polygon[j++] = ...` of the second scan, one per token, into the
cells of the current face, starting at `j`; the flag tells whether a write fell
outside the cells.  (The cursor `j` counts the tokens of one line, far fewer
than `INT_MAX` on a line that fits `str`.) -/
def write_indices (count : Nat) : List (List Char) → Nat → List Nat → List Nat × Bool
  | [], _, cells => (cells, false)
  | istr :: rest, j, cells =>
    let r := write_indices count rest (j + 1) (cells.set j (stored_index count istr))
    (r.1, r.2 || decide (cells.length ≤ j))

/-- The face slot `polygon_array[m]`, when `polygon_array` is a block that has
such a slot. -/
def face_slot (polygon_array : Option (List polygon_t)) (m : Nat) : Option polygon_t :=
  match polygon_array with
  | some faces => faces[m]?
  | none => none

/-- Stores a face back into slot `m`. -/
def set_face_slot (polygon_array : Option (List polygon_t)) (m : Nat) (p : Option polygon_t) :
    Option (List polygon_t) :=
  match polygon_array, p with
  | some faces, some q => some (faces.set m q)
  | pa, _ => pa

/-- The vertex branch of the loop of `parser_vert_pol`; `scan` stands for
`sscanf(buff, "v %lf %lf %lf", &x, &y, &z) == 3` and yields the three numbers. -/
def parse_vertex {α : Type} (scan : List Char → Option (α × α × α))
    (st : parse_state α) (buff : List Char) : parse_state α :=
  match scan (cstr buff) with
  | some (x, y, z) =>
    match st.data_obj.vertex_array.matrix with
    | some cells =>
      { st with
        count := st.count + 1
        i := st.i + 3
        data_obj := { st.data_obj with
          vertex_array := { st.data_obj.vertex_array with
            matrix := some (((cells.set st.i x).set (st.i + 1) y).set (st.i + 2) z) } }
        fault := st.fault || decide (cells.length < st.i + 3) ||
          decide (2147483647 < st.i + 3) }
    | none => { st with count := st.count + 1, i := st.i + 3, fault := true }
  | none => { st with status := status.ERROR }

/-- The pointer `&data_obj->polygon_array[m]`: null for slot 0 of a null
block, the slot when the block has one, and otherwise a stray address, whose
content the model takes to be a zeroed face. -/
def slot_pointer (polygon_array : Option (List polygon_t)) (m : Nat) : Option polygon_t :=
  match face_slot polygon_array m with
  | some p => some p
  | none =>
    if polygon_array = none ∧ m = 0 then none else some { polygon := none, colums := 0 }

/-- The face branch of the loop of `parser_vert_pol`: the copy into `str`, the
first scan counting into `edges_count`, `create_polygon` on slot `m`, and, when
that returns `OK`, the second scan over all tokens of the copy.  The second scan
writes a token only when the face list and the array of the face are not null.
The `fault` flag is raised by a line that does not fit `str` (more than 1024
characters before the terminating NUL), by a slot outside the face list, by a
write outside the array of the face, and by `m` leaving the range of `int`: on
such a run C gives the code no result, and only a run that ends with
`fault = false` is a run of the C code. -/
def parse_face_heap {α : Type} (calloc : Nat → Nat → Bool) (st : parse_state α)
    (buff : List Char) : parse_state α :=
  let d := st.data_obj
  let tokens := strtok_all (cstr buff).tail
  let edges := d.edges_count + first_scan buff
  let created := create_polygon calloc edges (slot_pointer d.polygon_array st.m)
  let d1 := { d with
    edges_count := edges
    polygon_array := set_face_slot d.polygon_array st.m created.2 }
  let fault := st.fault || decide (1024 < (cstr buff).length) ||
    decide (face_slot d.polygon_array st.m = none ∧ ¬ (d.polygon_array = none ∧ st.m = 0))
  if created.1 = status.OK then
    let written : Option (List polygon_t) × Bool :=
      match face_slot d1.polygon_array st.m with
      | some p =>
        match p.polygon with
        | some cells =>
          let w := write_indices st.count tokens 0 cells
          (set_face_slot d1.polygon_array st.m (some { p with polygon := some w.1 }), w.2)
        | none => (d1.polygon_array, false)
      | none => (d1.polygon_array, false)
    { st with
      m := st.m + 1
      data_obj := { d1 with
        edges_count := 0
        all_edges_count := d1.all_edges_count + tokens.length
        polygon_array := written.1 }
      fault := fault || written.2 || decide (2147483647 < st.m + 1) }
  else
    { st with data_obj := d1, fault := fault }

/-- Body of the `while` loop of `parser_vert_pol` for one line. -/
def parse_line_heap {α : Type} (calloc : Nat → Nat → Bool)
    (scan : List Char → Option (α × α × α))
    (st : parse_state α) (buff : List Char) : parse_state α :=
  if is_vertex_line buff then parse_vertex scan st buff
  else if is_face_line buff then parse_face_heap calloc st buff
  else st

/-- The `parser_vert_pol` of the source on a stream holding `text` and a
non-null `data_obj` (for which the test on entry leaves `status` at `OK`):
the final state, whose `status` is the value returned. -/
def parser_vert_pol_heap {α : Type} (calloc : Nat → Nat → Bool)
    (scan : List Char → Option (α × α × α))
    (text : List Char) (data_obj : data_object α) : parse_state α :=
  (getlines text).foldl (parse_line_heap calloc scan)
    { status := status.OK, count := 1, i := 3, m := 0, data_obj := data_obj, fault := false }

/-! ### The parse pass when no allocation fails

The same three functions with `served` for `calloc`: the run of the loader on a
heap that serves every request.  Their bodies repeat the general ones. -/

/-- The function `parse_face_heap served`. -/
def parse_face {α : Type} (st : parse_state α) (buff : List Char) : parse_state α :=
  let d := st.data_obj
  let tokens := strtok_all (cstr buff).tail
  let edges := d.edges_count + first_scan buff
  let created := create_polygon served edges (slot_pointer d.polygon_array st.m)
  let d1 := { d with
    edges_count := edges
    polygon_array := set_face_slot d.polygon_array st.m created.2 }
  let fault := st.fault || decide (1024 < (cstr buff).length) ||
    decide (face_slot d.polygon_array st.m = none ∧ ¬ (d.polygon_array = none ∧ st.m = 0))
  if created.1 = status.OK then
    let written : Option (List polygon_t) × Bool :=
      match face_slot d1.polygon_array st.m with
      | some p =>
        match p.polygon with
        | some cells =>
          let w := write_indices st.count tokens 0 cells
          (set_face_slot d1.polygon_array st.m (some { p with polygon := some w.1 }), w.2)
        | none => (d1.polygon_array, false)
      | none => (d1.polygon_array, false)
    { st with
      m := st.m + 1
      data_obj := { d1 with
        edges_count := 0
        all_edges_count := d1.all_edges_count + tokens.length
        polygon_array := written.1 }
      fault := fault || written.2 || decide (2147483647 < st.m + 1) }
  else
    { st with data_obj := d1, fault := fault }

/-- The function `parse_line_heap served`. -/
def parse_line {α : Type} (scan : List Char → Option (α × α × α))
    (st : parse_state α) (buff : List Char) : parse_state α :=
  if is_vertex_line buff then parse_vertex scan st buff
  else if is_face_line buff then parse_face st buff
  else st

/-- The function `parser_vert_pol_heap served`. -/
def parser_vert_pol {α : Type} (scan : List Char → Option (α × α × α))
    (text : List Char) (data_obj : data_object α) : parse_state α :=
  (getlines text).foldl (parse_line scan)
    { status := status.OK, count := 1, i := 3, m := 0, data_obj := data_obj, fault := false }

/-- What a call of `parser` leaves behind: the value returned, the object
`data_obj` points to afterwards (`none` for a null `data_obj`), and whether a
statement of the run accessed memory outside its block. -/
structure outcome (α : Type) where
  ret : status
  obj : Option (data_object α)
  fault : Bool

/-- The `parser` of the source.  `fopen` gives the content of the files that
can be opened for reading; a null `file_name` or `data_obj` is `none`; `calloc`
gives the answers of the allocator (a `polygon_t` takes 16 bytes).  The
counters are natural numbers: the code and the model agree as long as no
counter reaches `2^64`. -/
def parser_heap {α : Type} [Zero α] (calloc : Nat → Nat → Bool)
    (fopen : String → Option (List Char))
    (scan : List Char → Option (α × α × α))
    (file_name : Option String) (data_obj : Option (data_object α)) : outcome α :=
  match file_name, data_obj with
  | some name, some d =>
    match fopen name with
    | some text =>
      let d1 := count_vert_pol text d
      let d2 :=
        if d1.polygon_count > 0 then
          { d1 with
            polygon_array :=
              if calloc d1.polygon_count 16 then
                some (List.replicate d1.polygon_count { polygon := none, colums := 0 })
              else none }
        else d1
      let created := create_matrix calloc (d2.vertex_count + 1) 3 d2.vertex_array
      let d3 := { d2 with vertex_array := created.2 }
      if created.1 = status.OK then
        let st := parser_vert_pol_heap calloc scan text d3
        { ret := st.status, obj := some st.data_obj, fault := st.fault }
      else
        { ret := status.ERROR, obj := some d3, fault := false }
    | none => { ret := status.ERROR, obj := some d, fault := false }
  | _, _ => { ret := status.ERROR, obj := data_obj, fault := false }

/-- The `parser` of the source in a run in which no allocation fails: the
function `parser_heap served`, with its body repeated. -/
def parser {α : Type} [Zero α] (fopen : String → Option (List Char))
    (scan : List Char → Option (α × α × α))
    (file_name : Option String) (data_obj : Option (data_object α)) : outcome α :=
  match file_name, data_obj with
  | some name, some d =>
    match fopen name with
    | some text =>
      let d1 := count_vert_pol text d
      let d2 :=
        if d1.polygon_count > 0 then
          { d1 with
            polygon_array := some (List.replicate d1.polygon_count { polygon := none, colums := 0 }) }
        else d1
      let created := create_matrix served (d2.vertex_count + 1) 3 d2.vertex_array
      let d3 := { d2 with vertex_array := created.2 }
      if created.1 = status.OK then
        let st := parser_vert_pol scan text d3
        { ret := st.status, obj := some st.data_obj, fault := st.fault }
      else
        { ret := status.ERROR, obj := some d3, fault := false }
    | none => { ret := status.ERROR, obj := some d, fault := false }
  | _, _ => { ret := status.ERROR, obj := data_obj, fault := false }

/-- Release of `memory_free_matrix`. -/
def memory_free_matrix {α : Type} (old_matrix : matrix_t α) : matrix_t α :=
  { old_matrix with matrix := none }

/-- Release of `memory_free_polygon`. -/
def memory_free_polygon (old_polygon : polygon_t) : polygon_t :=
  { old_polygon with polygon := none }

/-- The `memory_free` of the source on a non-null `data_obj`: both blocks are
released and their pointers reset; the counters are not written. -/
def memory_free {α : Type} (data_obj : data_object α) : data_object α :=
  { data_obj with
    vertex_array :=
      match data_obj.vertex_array.matrix with
      | some _ => memory_free_matrix data_obj.vertex_array
      | none => data_obj.vertex_array
    polygon_array := none }

/-! ## Affine transforms (`Core/affine.c`)

The loops run over the flat buffer.  A cell index outside the block (a block
shorter than `(vertex_count + 1) * 3` cells is not a mesh of the data model)
is left alone by the model. -/

/-- The loop `for (i = start; i < bound; i += step) body`, started at `i` with
the buffer `m`; `fuel` bounds the number of iterations and is never exhausted
when it is at least `bound` and `step` is positive. -/
def for_loop {α : Type} (step bound : Nat) (body : Nat → List α → List α) :
    Nat → Nat → List α → List α
  | 0, _, m => m
  | fuel + 1, i, m =>
    if i < bound then for_loop step bound body fuel (i + step) (body i m) else m

/-- The statement `matrix[i] = f(matrix[i])`. -/
def update_cell {α : Type} (f : α → α) (i : Nat) (m : List α) : List α :=
  match m[i]? with
  | some v => m.set i (f v)
  | none => m

/-- The statements `a = matrix[i + p]; b = matrix[i + q]; matrix[i + p] = f a b;
matrix[i + q] = g a b` of the rotations. -/
def update_pair {α : Type} (p q : Nat) (f g : α → α → α) (i : Nat) (m : List α) : List α :=
  match m[i + p]?, m[i + q]? with
  | some a, some b => (m.set (i + p) (f a b)).set (i + q) (g a b)
  | _, _ => m

/-- Replaces the cells of the vertex buffer. -/
def with_cells {α : Type} (data_obj : data_object α) (cells : List α) : data_object α :=
  { data_obj with vertex_array := { data_obj.vertex_array with matrix := some cells } }

/-- The `move_x` of the source. -/
def move_x {α : Type} [Add α] [Sub α] (data_obj : data_object α) (new_value old_value : α) :
    data_object α :=
  match data_obj.vertex_array.matrix with
  | some m =>
    with_cells data_obj
      (for_loop 3 ((data_obj.vertex_count + 1) * 3)
        (update_cell (fun v => v + (new_value - old_value)))
        ((data_obj.vertex_count + 1) * 3) 3 m)
  | none => data_obj

/-- The `move_y` of the source. -/
def move_y {α : Type} [Add α] [Sub α] (data_obj : data_object α) (new_value old_value : α) :
    data_object α :=
  match data_obj.vertex_array.matrix with
  | some m =>
    with_cells data_obj
      (for_loop 3 ((data_obj.vertex_count + 1) * 3)
        (update_cell (fun v => v + (new_value - old_value)))
        ((data_obj.vertex_count + 1) * 3) 4 m)
  | none => data_obj

/-- The `move_z` of the source. -/
def move_z {α : Type} [Add α] [Sub α] (data_obj : data_object α) (new_value old_value : α) :
    data_object α :=
  match data_obj.vertex_array.matrix with
  | some m =>
    with_cells data_obj
      (for_loop 3 ((data_obj.vertex_count + 1) * 3)
        (update_cell (fun v => v + (new_value - old_value)))
        ((data_obj.vertex_count + 1) * 3) 5 m)
  | none => data_obj

/-- Conversion `angle * M_PI / 180.0` at the head of the rotations; `pi` stands
for `M_PI`. -/
def to_radians {α : Type} [Mul α] [Div α] [OfNat α 180] (pi angle : α) : α :=
  angle * pi / 180

/-- The `rotate_x` of the source; `cosf`, `sinf` and `pi` stand for the libm
functions and `M_PI`.  The source has no test of the buffer pointer: on a null
buffer its loop dereferences the null pointer and the call has no result.  The
branch `none` is there to make the function total and stands for no run of the
code; the function is the C function on objects with a buffer. -/
def rotate_x {α : Type} [Add α] [Sub α] [Mul α] [Div α] [Neg α] [OfNat α 180]
    (cosf sinf : α → α) (pi : α) (data_obj : data_object α) (new_angle old_angle : α) :
    data_object α :=
  let new_angle := to_radians pi new_angle
  let old_angle := to_radians pi old_angle
  match data_obj.vertex_array.matrix with
  | some m =>
    with_cells data_obj
      (for_loop 3 ((data_obj.vertex_count + 1) * 3)
        (update_pair 1 2
          (fun y z => y * cosf (new_angle - old_angle) + z * sinf (new_angle - old_angle))
          (fun y z => -y * sinf (new_angle - old_angle) + z * cosf (new_angle - old_angle)))
        ((data_obj.vertex_count + 1) * 3) 0 m)
  | none => data_obj

/-- The `rotate_y` of the source; as for `rotate_x`, the branch `none` stands
for no run of the code, which dereferences a null buffer. -/
def rotate_y {α : Type} [Add α] [Sub α] [Mul α] [Div α] [Neg α] [OfNat α 180]
    (cosf sinf : α → α) (pi : α) (data_obj : data_object α) (new_angle old_angle : α) :
    data_object α :=
  let new_angle := to_radians pi new_angle
  let old_angle := to_radians pi old_angle
  match data_obj.vertex_array.matrix with
  | some m =>
    with_cells data_obj
      (for_loop 3 ((data_obj.vertex_count + 1) * 3)
        (update_pair 0 2
          (fun x z => x * cosf (new_angle - old_angle) + z * sinf (new_angle - old_angle))
          (fun x z => -x * sinf (new_angle - old_angle) + z * cosf (new_angle - old_angle)))
        ((data_obj.vertex_count + 1) * 3) 0 m)
  | none => data_obj

/-- The `rotate_z` of the source; as for `rotate_x`, the branch `none` stands
for no run of the code, which dereferences a null buffer. -/
def rotate_z {α : Type} [Add α] [Sub α] [Mul α] [Div α] [Neg α] [OfNat α 180]
    (cosf sinf : α → α) (pi : α) (data_obj : data_object α) (new_angle old_angle : α) :
    data_object α :=
  let new_angle := to_radians pi new_angle
  let old_angle := to_radians pi old_angle
  match data_obj.vertex_array.matrix with
  | some m =>
    with_cells data_obj
      (for_loop 3 ((data_obj.vertex_count + 1) * 3)
        (update_pair 0 1
          (fun x y => x * cosf (new_angle - old_angle) - y * sinf (new_angle - old_angle))
          (fun x y => x * sinf (new_angle - old_angle) + y * cosf (new_angle - old_angle)))
        ((data_obj.vertex_count + 1) * 3) 0 m)
  | none => data_obj

/-- The `scale` of the source; the casts `(double)new_scale` and
`(double)old_scale` are the embedding of the integers in `α`.  As for the
rotations, the source does not test the buffer pointer: with a vertex (the loop
runs from cell 3 on) it dereferences a null buffer, and the branch `none` stands
for no run of the code. -/
def scale {α : Type} [Mul α] [Div α] [IntCast α] (data_obj : data_object α)
    (new_scale old_scale : Int) : data_object α :=
  match data_obj.vertex_array.matrix with
  | some m =>
    with_cells data_obj
      (for_loop 1 ((data_obj.vertex_count + 1) * 3)
        (update_cell (fun v => v * ((new_scale : α) / (old_scale : α))))
        ((data_obj.vertex_count + 1) * 3) 3 m)
  | none => data_obj

/-! ## Reference functions used to state what the parse pass leaves behind -/

/-- The object `parser` hands to the parse pass once the file is open: counters
from the count pass, a fresh zeroed face list when there is a face line, and a
fresh zeroed vertex buffer. -/
def prepared {α : Type} [Zero α] (text : List Char) (d : data_object α) : data_object α :=
  let d1 := count_vert_pol text d
  { d1 with
    polygon_array :=
      if d1.polygon_count > 0 then
        some (List.replicate d1.polygon_count { polygon := none, colums := 0 })
      else d1.polygon_array
    vertex_array :=
      { rows := d1.vertex_count + 1, colums := 3,
        matrix :=
          some (List.replicate ((d1.vertex_count + 1) * 3 % 18446744073709551616) 0) } }

/-- The numbers of the vertex lines of `lines` from which `scan` reads three
numbers, in file order. -/
def vertex_rows {α : Type} (scan : List Char → Option (α × α × α))
    (lines : List (List Char)) : List (α × α × α) :=
  lines.filterMap (fun l => if is_vertex_line l then scan (cstr l) else none)

/-- Rows written one after the other from cell `i` on. -/
def write_rows {α : Type} : List α → Nat → List (α × α × α) → List α
  | cells, _, [] => cells
  | cells, i, (x, y, z) :: rest =>
    write_rows (((cells.set i x).set (i + 1) y).set (i + 2) z) (i + 3) rest

/-- The `initialize_data_object` of the test suite (`Tests/s21_parser_Tests.c`):
`vertex_count + 1` rows, row `i` holding `(i, i, i)`.  The test leaves the other
fields of the object unset; they are taken as zero here. -/
def initialize_data_object {α : Type} [NatCast α] (vertex_count : Nat) : data_object α :=
  { vertex_count := vertex_count
    vertex_array :=
      { matrix := some ((List.range (vertex_count + 1)).flatMap
          (fun i => [(i : α), (i : α), (i : α)]))
        rows := 0
        colums := 0 }
    polygon_count := 0
    edges_count := 0
    all_edges_count := 0
    polygon_array := none }

/-- The buffer `after` is the buffer `before` with `delta` added to coordinate
`a` (0, 1, 2 for x, y, z) of every row `1 ≤ r ≤ vc`, all other cells and the
size being the same. -/
def translated {α : Type} [Add α] (a vc : Nat) (delta : α) (before after : List α) : Prop :=
  after.length = before.length ∧
  (∀ r, 1 ≤ r → r ≤ vc →
    ∃ v, before[3 * r + a]? = some v ∧ after[3 * r + a]? = some (v + delta)) ∧
  (∀ j, (∀ r, 1 ≤ r → r ≤ vc → j ≠ 3 * r + a) → after[j]? = before[j]?)

/-- Row `r` of a flat buffer: the cells `3 r`, `3 r + 1`, `3 r + 2`, when the
buffer has them. -/
def row {α : Type} (cells : List α) (r : Nat) : Option (α × α × α) :=
  match cells[3 * r]?, cells[3 * r + 1]?, cells[3 * r + 2]? with
  | some x, some y, some z => some (x, y, z)
  | _, _, _ => none

/-- The face the parse pass builds for a face line into a fresh slot when the
local `count` has the value `count` and `edges_count` is zero: as many cells as
the first scan counts, written by the second scan. -/
def face_of (count : Nat) (buff : List Char) : polygon_t :=
  { colums := first_scan buff
    polygon := some (write_indices count (strtok_all (cstr buff).tail) 0
      (List.replicate (first_scan buff) 0)).1 }

/-- Test for the face lines that get a face: the first scan counts at least
one token. -/
def is_stored_face_line (buff : List Char) : Bool :=
  is_face_line buff && decide (0 < first_scan buff)

/-- The faces a parse pass that starts with the local `count` at `count` builds,
in file order. -/
def stored_faces {α : Type} (scan : List Char → Option (α × α × α)) :
    Nat → List (List Char) → List polygon_t
  | _, [] => []
  | count, l :: ls =>
    if is_vertex_line l then
      match scan (cstr l) with
      | some _ => stored_faces scan (count + 1) ls
      | none => stored_faces scan count ls
    else if is_stored_face_line l then face_of count l :: stored_faces scan count ls
    else stored_faces scan count ls

/-- Number of tokens the second scans visit over the face lines that get a
face. -/
def edge_total (lines : List (List Char)) : Nat :=
  ((lines.filter is_stored_face_line).map
    (fun l => (strtok_all (cstr l).tail).length)).sum

/-- The text of a face line: the letter `f`, then every token preceded by one
space, then the line end `eol`. -/
def face_text (toks : List (List Char)) (eol : List Char) : List Char :=
  'f' :: (toks.flatMap (fun t => ' ' :: t) ++ eol)

/-- A line end: nothing (last line of a file without final newline), a newline,
or a carriage return and a newline. -/
def is_line_end (eol : List Char) : Bool :=
  eol.all (fun c => c = '\n' || c = '\r')

/-- A decimal numeral: one digit or more, nothing else. -/
def is_numeral (t : List Char) : Bool :=
  t != [] && t.all isdigit

/-- A positive decimal numeral whose value fits the `int` of `atoi`. -/
def is_index_token (t : List Char) : Bool :=
  is_numeral t && decide (1 ≤ digits_value t) && decide (digits_value t ≤ 2147483647)

/-- The tokens `strtok` hands out for a face line: the last one carries the line
end. -/
def close_last : List (List Char) → List Char → List (List Char)
  | [], _ => []
  | [t], eol => [t ++ eol]
  | t :: t2 :: ts, eol => t :: close_last (t2 :: ts) eol

/-- The size invariant of the vertex buffer: `vertex_count + 1` rows of 3
columns, held in a block of `(vertex_count + 1) * 3` cells. -/
def buffer_sized {α : Type} (d : data_object α) : Prop :=
  d.vertex_array.rows = d.vertex_count + 1 ∧ d.vertex_array.colums = 3 ∧
  d.vertex_array.matrix.map List.length = some ((d.vertex_count + 1) * 3)

instance buffer_sized_decidable {α : Type} (d : data_object α) : Decidable (buffer_sized d) := by
  unfold buffer_sized
  exact inferInstance

/-- Total number of index entries of a face list: the sum of the index-array
lengths (`colums`) of its faces; a null list has none. -/
def index_entries (polygon_array : Option (List polygon_t)) : Nat :=
  match polygon_array with
  | some faces => (faces.map (fun p => p.colums)).sum
  | none => 0

/-- The object `e` agrees with the object `d` on everything but the cells of the
vertex buffer: the four counters, the face list, and the `rows` and `colums` of
the vertex buffer. -/
def same_topology {α : Type} (d e : data_object α) : Prop :=
  e.vertex_count = d.vertex_count ∧ e.polygon_count = d.polygon_count ∧
  e.edges_count = d.edges_count ∧ e.all_edges_count = d.all_edges_count ∧
  e.polygon_array = d.polygon_array ∧
  e.vertex_array.rows = d.vertex_array.rows ∧
  e.vertex_array.colums = d.vertex_array.colums

/-- Number of binary digits of a natural number; `fuel` bounds the recursion and
is enough when it is at least the number. -/
def binary_digits : Nat → Nat → Nat
  | 0, _ => 0
  | fuel + 1, n => if n = 0 then 0 else binary_digits fuel (n / 2) + 1

/-- Floor of the base 2 logarithm of the positive rational `n / d`. -/
def floor_log2 (n d : Nat) : Int :=
  let e : Int := (binary_digits n n : Int) - (binary_digits d d : Int)
  if 0 ≤ e then
    if d * 2 ^ e.toNat ≤ n then e else e - 1
  else
    if d ≤ n * 2 ^ (-e).toNat then e else e - 1

/-- The integer nearest to `n / d`, the even one of two that are equally near. -/
def round_half_even (n d : Nat) : Nat :=
  if 2 * (n % d) < d then n / d
  else if d < 2 * (n % d) then n / d + 1
  else if (n / d) % 2 = 0 then n / d else n / d + 1

/-- Divides a non-zero significand by two while it is even, counting the
divisions in the exponent; `fuel` bounds the recursion. -/
def strip_twos : Nat → Int → Int → Int × Int
  | 0, m, e => (m, e)
  | fuel + 1, m, e => if m % 2 = 0 then strip_twos fuel (m / 2) (e + 1) else (m, e)

/-- The values of the model of `double`: `significand * 2 ^ exponent`, or NaN.
The operations keep the significand odd, and zero as `finite 0 0`, so that two
values are equal exactly when they are the same number. -/
inductive ieee_double where
  | finite (significand : Int) (exponent : Int)
  | nan
deriving DecidableEq

/-- The value of the model for the number `m * 2 ^ e`, in the form with an odd
significand. -/
def ieee_double.normal (m e : Int) : ieee_double :=
  if m = 0 then ieee_double.finite 0 0
  else ieee_double.finite (strip_twos m.natAbs m e).1 (strip_twos m.natAbs m e).2

/-- The number `m * 2 ^ e` rounded to a significand of at most `digits` binary
digits: a longer significand is divided by the power of two that leaves
`digits` of them and rounded to an integer. -/
def ieee_double.round_to (digits : Nat) (m e : Int) : ieee_double :=
  let have_digits := binary_digits m.natAbs m.natAbs
  if have_digits ≤ digits then ieee_double.normal m e
  else
    ieee_double.normal
      (m.sign * (round_half_even m.natAbs (2 ^ (have_digits - digits)) : Nat))
      (e + ((have_digits - digits : Nat) : Int))

/-- The value of the model nearest to `m * 2 ^ e`: binary64 keeps 53 binary
digits. -/
def ieee_double.round (m e : Int) : ieee_double :=
  ieee_double.round_to 53 m e

/-- The value of the model nearest to the rational `n / d` with `0 < d`: the
rational is scaled by a power of two to a significand of 53 binary digits,
which is rounded to an integer. -/
def ieee_double.ratio (n : Int) (d : Nat) : ieee_double :=
  if n = 0 then ieee_double.finite 0 0
  else
    let k : Int := 52 - floor_log2 n.natAbs d
    if 0 ≤ k then
      ieee_double.normal (n.sign * (round_half_even (n.natAbs * 2 ^ k.toNat) d : Nat)) (-k)
    else
      ieee_double.normal (n.sign * (round_half_even n.natAbs (d * 2 ^ (-k).toNat) : Nat)) (-k)

/-- Addition on the model: the exact sum, formed at the smaller of the two
exponents, rounded. -/
def ieee_double.add : ieee_double → ieee_double → ieee_double
  | ieee_double.finite m e, ieee_double.finite n f =>
    ieee_double.round (m * 2 ^ (e - min e f).toNat + n * 2 ^ (f - min e f).toNat) (min e f)
  | _, _ => ieee_double.nan

/-- Change of sign on the model. -/
def ieee_double.neg : ieee_double → ieee_double
  | ieee_double.finite m e => ieee_double.finite (-m) e
  | ieee_double.nan => ieee_double.nan

/-- Multiplication on the model: the exact product rounded. -/
def ieee_double.mul : ieee_double → ieee_double → ieee_double
  | ieee_double.finite m e, ieee_double.finite n f => ieee_double.round (m * n) (e + f)
  | _, _ => ieee_double.nan

/-- Division on the model: the quotient of the significands rounded, then
scaled by the power of two of the exponents, which is exact.  A division by
zero, which gives an infinity or NaN in C, is NaN here. -/
def ieee_double.div : ieee_double → ieee_double → ieee_double
  | ieee_double.finite m e, ieee_double.finite n f =>
    if n = 0 then ieee_double.nan
    else
      match ieee_double.ratio (n.sign * m) n.natAbs with
      | ieee_double.finite s g =>
        if s = 0 then ieee_double.finite 0 0 else ieee_double.finite s (g + (e - f))
      | ieee_double.nan => ieee_double.nan
  | _, _ => ieee_double.nan

instance ieee_double.instAdd : Add ieee_double :=
  ⟨ieee_double.add⟩

instance ieee_double.instNeg : Neg ieee_double :=
  ⟨ieee_double.neg⟩

instance ieee_double.instSub : Sub ieee_double :=
  ⟨fun a b => ieee_double.add a (ieee_double.neg b)⟩

instance ieee_double.instMul : Mul ieee_double :=
  ⟨ieee_double.mul⟩

instance ieee_double.instDiv : Div ieee_double :=
  ⟨ieee_double.div⟩

instance ieee_double.instOfNat (n : Nat) : OfNat ieee_double n :=
  ⟨ieee_double.round (n : Int) 0⟩

instance ieee_double.instIntCast : IntCast ieee_double :=
  ⟨fun i => ieee_double.round i 0⟩

instance ieee_double.instZero : Zero ieee_double :=
  ⟨ieee_double.finite 0 0⟩

theorem is_vertex_line_iff (buff : List Char) :
    is_vertex_line buff = true ↔ buff.take 2 = ['v', ' '] := by
  rcases buff with _ | ⟨a, _ | ⟨b, t⟩⟩ <;> simp [is_vertex_line, byte_at]

theorem is_face_line_iff (buff : List Char) :
    is_face_line buff = true ↔ buff.take 2 = ['f', ' '] := by
  rcases buff with _ | ⟨a, _ | ⟨b, t⟩⟩ <;> simp [is_face_line, byte_at]

theorem not_vertex_of_face {buff : List Char} (h : is_face_line buff = true) :
    is_vertex_line buff = false := by
  rcases buff with _ | ⟨a, _ | ⟨b, t⟩⟩ <;> simp_all [is_vertex_line, is_face_line, byte_at]

theorem count_lines_fold {α : Type} (lines : List (List Char)) (d : data_object α) :
    lines.foldl count_line d =
      { d with
        vertex_count := d.vertex_count + lines.countP is_vertex_line
        polygon_count := d.polygon_count + lines.countP is_face_line } := by
  induction lines generalizing d with
  | nil => simp
  | cons l ls ih =>
    rw [List.foldl_cons, ih]
    by_cases hv : is_vertex_line l = true
    · have hf : is_face_line l = false := by
        rcases l with _ | ⟨a, _ | ⟨b, t⟩⟩ <;> simp_all [is_vertex_line, is_face_line, byte_at]
      simp [count_line, hv, hf, List.countP_cons]
      omega
    · by_cases hf : is_face_line l = true
      · simp [count_line, hv, hf, List.countP_cons]
        omega
      · simp [count_line, hv, hf, List.countP_cons]

theorem parse_line_vertex_count {α : Type} (scan : List Char → Option (α × α × α))
    (st : parse_state α) (buff : List Char) :
    (parse_line scan st buff).data_obj.vertex_count = st.data_obj.vertex_count ∧
    (parse_line scan st buff).data_obj.polygon_count = st.data_obj.polygon_count := by
  unfold parse_line
  split_ifs
  · unfold parse_vertex
    split
    · split <;> simp
    · simp
  · unfold parse_face
    dsimp only
    split_ifs <;> simp
  · simp

theorem parse_fold_counts {α : Type} (scan : List Char → Option (α × α × α))
    (lines : List (List Char)) (st : parse_state α) :
    (lines.foldl (parse_line scan) st).data_obj.vertex_count = st.data_obj.vertex_count ∧
    (lines.foldl (parse_line scan) st).data_obj.polygon_count = st.data_obj.polygon_count := by
  induction lines generalizing st with
  | nil => simp
  | cons l ls ih =>
    rw [List.foldl_cons]
    obtain ⟨h1, h2⟩ := ih (parse_line scan st l)
    obtain ⟨h3, h4⟩ := parse_line_vertex_count scan st l
    exact ⟨h1.trans h3, h2.trans h4⟩

theorem parser_open {α : Type} [Zero α] (fopen : String → Option (List Char))
    (scan : List Char → Option (α × α × α)) (name : String) (text : List Char)
    (d : data_object α) (hopen : fopen name = some text) :
    parser fopen scan (some name) (some d) =
      { ret := (parser_vert_pol scan text (prepared text d)).status
        obj := some (parser_vert_pol scan text (prepared text d)).data_obj
        fault := (parser_vert_pol scan text (prepared text d)).fault } := by
  simp only [parser, hopen, create_matrix, prepared, served, if_true]
  split_ifs <;> simp_all

/-! ## The two tiers of the loader agree -/

/-- With an allocator that serves every request, the face branch for any
allocator is the face branch `parse_face`. -/
theorem parse_face_heap_served {α : Type} (st : parse_state α) (buff : List Char) :
    parse_face_heap served st buff = parse_face st buff :=
  rfl

theorem parse_line_heap_served {α : Type} (scan : List Char → Option (α × α × α))
    (st : parse_state α) (buff : List Char) :
    parse_line_heap served scan st buff = parse_line scan st buff :=
  rfl

theorem parser_vert_pol_heap_served {α : Type} (scan : List Char → Option (α × α × α))
    (text : List Char) (data_obj : data_object α) :
    parser_vert_pol_heap served scan text data_obj = parser_vert_pol scan text data_obj :=
  rfl

/-- With an allocator that serves every request, `parser_heap` is `parser`. -/
theorem parser_heap_served {α : Type} [Zero α] (fopen : String → Option (List Char))
    (scan : List Char → Option (α × α × α)) (file_name : Option String)
    (data_obj : Option (data_object α)) :
    parser_heap served fopen scan file_name data_obj = parser fopen scan file_name data_obj :=
  rfl

theorem countP_vertex_eq (lines : List (List Char)) :
    lines.countP is_vertex_line = lines.countP (fun l => decide (l.take 2 = ['v', ' '])) := by
  apply List.countP_congr
  intro l _
  simp [is_vertex_line_iff]

theorem countP_face_eq (lines : List (List Char)) :
    lines.countP is_face_line = lines.countP (fun l => decide (l.take 2 = ['f', ' '])) := by
  apply List.countP_congr
  intro l _
  simp [is_face_line_iff]

theorem prepared_counts {α : Type} [Zero α] (text : List Char) (d : data_object α) :
    (prepared text d).vertex_count = d.vertex_count + (getlines text).countP is_vertex_line ∧
    (prepared text d).polygon_count = d.polygon_count + (getlines text).countP is_face_line := by
  simp [prepared, count_vert_pol, count_lines_fold]

/-- The vertex buffer handed to the parse pass, when the product
`(vertex_count + 1) * 3` fits `size_t`. -/
theorem prepared_matrix {α : Type} [Zero α] (text : List Char) (d : data_object α)
    (hsize : (d.vertex_count + (getlines text).countP is_vertex_line + 1) * 3 <
      18446744073709551616) :
    (prepared text d).vertex_array.matrix =
      some (List.replicate
        ((d.vertex_count + (getlines text).countP is_vertex_line + 1) * 3) 0) := by
  simp only [prepared, count_vert_pol, count_lines_fold]
  rw [Nat.mod_eq_of_lt hsize]

theorem parser_result_counts {α : Type} [Zero α] (fopen : String → Option (List Char))
    (scan : List Char → Option (α × α × α)) (name : String) (text : List Char)
    (d : data_object α) (hopen : fopen name = some text) :
    ∃ e, (parser fopen scan (some name) (some d)).obj = some e ∧
      e.vertex_count = d.vertex_count + (getlines text).countP is_vertex_line ∧
      e.polygon_count = d.polygon_count + (getlines text).countP is_face_line := by
  refine ⟨_, by rw [parser_open fopen scan name text d hopen], ?_, ?_⟩
  · exact (parse_fold_counts scan _ _).1.trans (prepared_counts text d).1
  · exact (parse_fold_counts scan _ _).2.trans (prepared_counts text d).2

/-- C1. Count pass: loading a text into an object whose counters are zero, on a
run that stays inside its buffers (`fault = false`), leaves
`vertex_count` equal to the number of lines whose first two characters are `v`
and a space, and `polygon_count` equal to the number of lines whose first two
characters are `f` and a space; a line of any other shape leaves the object of
the count pass as it is, in particular lines starting `vn `, `vt `, `#` and a
lone `v`. -/
theorem count_pass_counts {α : Type} [Zero α] (fopen : String → Option (List Char))
    (scan : List Char → Option (α × α × α)) (name : String) (text : List Char)
    (d : data_object α) (hopen : fopen name = some text)
    (hv : d.vertex_count = 0) (hp : d.polygon_count = 0)
    (hfault : (parser fopen scan (some name) (some d)).fault = false) :
    (∃ e, (parser fopen scan (some name) (some d)).obj = some e ∧
      e.vertex_count = (getlines text).countP (fun l => decide (l.take 2 = ['v', ' '])) ∧
      e.polygon_count = (getlines text).countP (fun l => decide (l.take 2 = ['f', ' ']))) ∧
    (∀ (buff : List Char) (e : data_object α),
      buff.take 2 ≠ ['v', ' '] → buff.take 2 ≠ ['f', ' '] → count_line e buff = e) ∧
    (∀ (rest : List Char) (e : data_object α),
      count_line e ('v' :: 'n' :: ' ' :: rest) = e ∧
      count_line e ('v' :: 't' :: ' ' :: rest) = e ∧
      count_line e ('#' :: rest) = e ∧
      count_line e ['v'] = e ∧ count_line e ['v', '\n'] = e) := by
  have _ := hfault
  refine ⟨?_, ?_, ?_⟩
  · obtain ⟨e, he, h1, h2⟩ := parser_result_counts fopen scan name text d hopen
    refine ⟨e, he, ?_, ?_⟩
    · rw [h1, hv, countP_vertex_eq]; simp
    · rw [h2, hp, countP_face_eq]; simp
  · intro buff e h1 h2
    have hv1 : is_vertex_line buff = false := by
      rw [← Bool.not_eq_true, is_vertex_line_iff]; exact h1
    have hf1 : is_face_line buff = false := by
      rw [← Bool.not_eq_true, is_face_line_iff]; exact h2
    simp [count_line, hv1, hf1]
  · intro rest e
    simp [count_line, is_vertex_line, is_face_line, byte_at]

/-- The count pass on a file of five lines, one vertex line and one face line
among them. -/
theorem count_pass_counts_witness :
    (parser (fun _ => some "v 1 2 3\nvn 0 0 1\nf 1\n# c\nv\n".toList) sscanf_rat
        (some "a.obj") (some empty_object)).fault = false ∧
    (∃ e, (parser (fun _ => some "v 1 2 3\nvn 0 0 1\nf 1\n# c\nv\n".toList) sscanf_rat
        (some "a.obj") (some empty_object)).obj = some e ∧
      e.vertex_count =
        (getlines "v 1 2 3\nvn 0 0 1\nf 1\n# c\nv\n".toList).countP
          (fun l => decide (l.take 2 = ['v', ' '])) ∧
      e.polygon_count =
        (getlines "v 1 2 3\nvn 0 0 1\nf 1\n# c\nv\n".toList).countP
          (fun l => decide (l.take 2 = ['f', ' ']))) :=
  have hfault : (parser (fun _ => some "v 1 2 3\nvn 0 0 1\nf 1\n# c\nv\n".toList) sscanf_rat
      (some "a.obj") (some empty_object)).fault = false := by with_unfolding_all decide
  ⟨hfault,
    (count_pass_counts (fun _ => some "v 1 2 3\nvn 0 0 1\nf 1\n# c\nv\n".toList) sscanf_rat
      "a.obj" "v 1 2 3\nvn 0 0 1\nf 1\n# c\nv\n".toList empty_object rfl rfl rfl hfault).1⟩

/-! ## The vertex half of the parse pass -/

theorem set3_other {α : Type} (cells : List α) (i j : Nat) (x y z : α)
    (h0 : i ≠ j) (h1 : i + 1 ≠ j) (h2 : i + 2 ≠ j) :
    (((cells.set i x).set (i + 1) y).set (i + 2) z)[j]? = cells[j]? := by
  simp [List.getElem?_set, h0, h1, h2]

theorem set3_cells {α : Type} (cells : List α) (i : Nat) (x y z : α)
    (h : i + 2 < cells.length) :
    (((cells.set i x).set (i + 1) y).set (i + 2) z)[i]? = some x ∧
    (((cells.set i x).set (i + 1) y).set (i + 2) z)[i + 1]? = some y ∧
    (((cells.set i x).set (i + 1) y).set (i + 2) z)[i + 2]? = some z := by
  have h0 : i < cells.length := by omega
  have h1 : i + 1 < cells.length := by omega
  simp [List.getElem?_set, h, h0, h1]

theorem write_rows_length {α : Type} (rows : List (α × α × α)) (cells : List α) (i : Nat) :
    (write_rows cells i rows).length = cells.length := by
  induction rows generalizing cells i with
  | nil => rfl
  | cons r rest ih =>
    obtain ⟨x, y, z⟩ := r
    simp [write_rows, ih]

theorem write_rows_below {α : Type} (rows : List (α × α × α)) (cells : List α) (i j : Nat)
    (hj : j < i) : (write_rows cells i rows)[j]? = cells[j]? := by
  induction rows generalizing cells i with
  | nil => rfl
  | cons r rest ih =>
    obtain ⟨x, y, z⟩ := r
    rw [write_rows, ih _ _ (by omega)]
    exact set3_other cells i j x y z (by omega) (by omega) (by omega)

theorem write_rows_above {α : Type} (rows : List (α × α × α)) (cells : List α) (i j : Nat)
    (hj : i + 3 * rows.length ≤ j) : (write_rows cells i rows)[j]? = cells[j]? := by
  induction rows generalizing cells i with
  | nil => rfl
  | cons r rest ih =>
    obtain ⟨x, y, z⟩ := r
    simp only [List.length_cons] at hj
    rw [write_rows, ih _ _ (by omega)]
    exact set3_other cells i j x y z (by omega) (by omega) (by omega)

theorem write_rows_row {α : Type} (rows : List (α × α × α)) (cells : List α) (i k : Nat)
    (x y z : α) (hk : rows[k]? = some (x, y, z)) (hfit : i + 3 * rows.length ≤ cells.length) :
    (write_rows cells i rows)[i + 3 * k]? = some x ∧
    (write_rows cells i rows)[i + 3 * k + 1]? = some y ∧
    (write_rows cells i rows)[i + 3 * k + 2]? = some z := by
  induction rows generalizing cells i k with
  | nil => simp at hk
  | cons r rest ih =>
    obtain ⟨a, b, c⟩ := r
    simp only [List.length_cons] at hfit
    cases k with
    | zero =>
      simp only [List.getElem?_cons_zero, Option.some.injEq, Prod.mk.injEq] at hk
      obtain ⟨rfl, rfl, rfl⟩ := hk
      rw [write_rows, write_rows_below _ _ _ _ (by omega), write_rows_below _ _ _ _ (by omega),
        write_rows_below _ _ _ _ (by omega)]
      exact set3_cells cells i _ _ _ (by omega)
    | succ k =>
      simp only [List.getElem?_cons_succ] at hk
      have h := ih (((cells.set i a).set (i + 1) b).set (i + 2) c) (i + 3) k hk
        (by simp; omega)
      rw [write_rows]
      have e : i + 3 * (k + 1) = i + 3 + 3 * k := by omega
      rw [e]
      exact h

theorem parse_face_vertex_part {α : Type} (st : parse_state α) (buff : List Char) :
    (parse_face st buff).status = st.status ∧
    (parse_face st buff).count = st.count ∧
    (parse_face st buff).i = st.i ∧
    (parse_face st buff).data_obj.vertex_array = st.data_obj.vertex_array := by
  unfold parse_face
  dsimp only
  split_ifs <;> simp

theorem parse_fold_vertex {α : Type} (scan : List Char → Option (α × α × α))
    (lines : List (List Char)) (st : parse_state α) (cells : List α)
    (hm : st.data_obj.vertex_array.matrix = some cells) :
    (lines.foldl (parse_line scan) st).count = st.count + (vertex_rows scan lines).length ∧
    (lines.foldl (parse_line scan) st).i = st.i + 3 * (vertex_rows scan lines).length ∧
    (lines.foldl (parse_line scan) st).data_obj.vertex_array =
      { st.data_obj.vertex_array with
        matrix := some (write_rows cells st.i (vertex_rows scan lines)) } := by
  induction lines generalizing st cells with
  | nil => simp [vertex_rows, write_rows, ← hm]
  | cons l ls ih =>
    rw [List.foldl_cons]
    by_cases hv : is_vertex_line l = true
    · cases hs : scan (cstr l) with
      | none =>
        have hst : parse_line scan st l = { st with status := status.ERROR } := by
          simp [parse_line, hv, parse_vertex, hs]
        have hr : vertex_rows scan (l :: ls) = vertex_rows scan ls := by
          simp [vertex_rows, hv, hs]
        rw [hst, hr]
        exact ih _ cells hm
      | some t =>
        obtain ⟨x, y, z⟩ := t
        have hst : parse_line scan st l =
            { st with
              count := st.count + 1
              i := st.i + 3
              data_obj := { st.data_obj with
                vertex_array := { st.data_obj.vertex_array with
                  matrix := some (((cells.set st.i x).set (st.i + 1) y).set (st.i + 2) z) } }
              fault := st.fault || decide (cells.length < st.i + 3) ||
                decide (2147483647 < st.i + 3) } := by
          simp [parse_line, hv, parse_vertex, hs, hm]
        have hr : vertex_rows scan (l :: ls) = (x, y, z) :: vertex_rows scan ls := by
          simp [vertex_rows, hv, hs]
        rw [hst, hr]
        obtain ⟨h1, h2, h3⟩ := ih
          { st with
              count := st.count + 1
              i := st.i + 3
              data_obj := { st.data_obj with
                vertex_array := { st.data_obj.vertex_array with
                  matrix := some (((cells.set st.i x).set (st.i + 1) y).set (st.i + 2) z) } }
              fault := st.fault || decide (cells.length < st.i + 3) ||
                decide (2147483647 < st.i + 3) }
          (((cells.set st.i x).set (st.i + 1) y).set (st.i + 2) z) rfl
        refine ⟨?_, ?_, ?_⟩
        · rw [h1]; simp; omega
        · rw [h2]; simp; omega
        · rw [h3]; simp [write_rows]
    · have hr : vertex_rows scan (l :: ls) = vertex_rows scan ls := by
        simp [vertex_rows, hv]
      rw [hr]
      by_cases hf : is_face_line l = true
      · have hst : parse_line scan st l = parse_face st l := by
          simp [parse_line, hv, hf]
        obtain ⟨_, p2, p3, p4⟩ := parse_face_vertex_part st l
        obtain ⟨h1, h2, h3⟩ := ih (parse_line scan st l) cells (by rw [hst, p4]; exact hm)
        rw [hst] at h1 h2 h3
        rw [hst, h1, h2, h3, p2, p3, p4]
        exact ⟨rfl, rfl, rfl⟩
      · have hst : parse_line scan st l = st := by
          simp [parse_line, hv, hf]
        rw [hst]
        exact ih st cells hm

theorem filter_vertex_eq (lines : List (List Char)) :
    lines.filter (fun l => decide (l.take 2 = ['v', ' '])) = lines.filter is_vertex_line := by
  apply List.filter_congr
  intro l _
  by_cases h : is_vertex_line l = true
  · simp [h, (is_vertex_line_iff l).1 h]
  · have h2 : ¬ l.take 2 = ['v', ' '] := fun h3 => h ((is_vertex_line_iff l).2 h3)
    simp [h, h2]

theorem filter_face_eq (lines : List (List Char)) :
    lines.filter (fun l => decide (l.take 2 = ['f', ' '])) = lines.filter is_face_line := by
  apply List.filter_congr
  intro l _
  by_cases h : is_face_line l = true
  · simp [h, (is_face_line_iff l).1 h]
  · have h2 : ¬ l.take 2 = ['f', ' '] := fun h3 => h ((is_face_line_iff l).2 h3)
    simp [h, h2]

theorem vertex_rows_of_wellformed {α : Type} (scan : List Char → Option (α × α × α))
    (lines : List (List Char))
    (hwf : ∀ l ∈ lines, is_vertex_line l = true → ∃ t, scan (cstr l) = some t)
    (k : Nat) (l : List Char) (hl : (lines.filter is_vertex_line)[k]? = some l) :
    ∃ t, scan (cstr l) = some t ∧ (vertex_rows scan lines)[k]? = some t := by
  induction lines generalizing k with
  | nil => simp at hl
  | cons a ls ih =>
    have hwf2 : ∀ l ∈ ls, is_vertex_line l = true → ∃ t, scan (cstr l) = some t :=
      fun l hl h => hwf l (List.mem_cons_of_mem a hl) h
    by_cases hv : is_vertex_line a = true
    · obtain ⟨t, ht⟩ := hwf a (List.mem_cons_self a ls) hv
      have hr : vertex_rows scan (a :: ls) = t :: vertex_rows scan ls := by
        simp [vertex_rows, hv, ht]
      rw [List.filter_cons_of_pos hv] at hl
      rw [hr]
      cases k with
      | zero =>
        simp only [List.getElem?_cons_zero, Option.some.injEq] at hl
        subst hl
        exact ⟨t, ht, by simp⟩
      | succ k =>
        simp only [List.getElem?_cons_succ] at hl ⊢
        exact ih hwf2 k hl
    · have hr : vertex_rows scan (a :: ls) = vertex_rows scan ls := by
        simp [vertex_rows, hv]
      rw [List.filter_cons_of_neg hv] at hl
      rw [hr]
      exact ih hwf2 k hl

theorem vertex_rows_length_of_wellformed {α : Type} (scan : List Char → Option (α × α × α))
    (lines : List (List Char))
    (hwf : ∀ l ∈ lines, is_vertex_line l = true → ∃ t, scan (cstr l) = some t) :
    (vertex_rows scan lines).length = lines.countP is_vertex_line := by
  induction lines with
  | nil => rfl
  | cons a ls ih =>
    have hwf2 : ∀ l ∈ ls, is_vertex_line l = true → ∃ t, scan (cstr l) = some t :=
      fun l hl h => hwf l (List.mem_cons_of_mem a hl) h
    by_cases hv : is_vertex_line a = true
    · obtain ⟨t, ht⟩ := hwf a (List.mem_cons_self a ls) hv
      have h := ih hwf2
      simp [vertex_rows, hv, ht, List.countP_cons] at h ⊢
      exact h
    · have h := ih hwf2
      simp [vertex_rows, hv, List.countP_cons] at h ⊢
      exact h

theorem vertex_rows_length_le {α : Type} (scan : List Char → Option (α × α × α))
    (lines : List (List Char)) :
    (vertex_rows scan lines).length ≤ lines.countP is_vertex_line := by
  induction lines with
  | nil => simp [vertex_rows]
  | cons a ls ih =>
    by_cases hv : is_vertex_line a = true
    · cases hs : scan (cstr a) with
      | none => simp [vertex_rows, hv, hs, List.countP_cons] at ih ⊢; omega
      | some t => simp [vertex_rows, hv, hs, List.countP_cons] at ih ⊢; omega
    · simp [vertex_rows, hv, List.countP_cons] at ih ⊢
      exact ih

/-- The vertex buffer after `parser` on an open file: the zeroed block of the
count pass with the well-formed vertex lines written from row 1 on. -/
theorem parser_vertex_buffer {α : Type} [Zero α] (fopen : String → Option (List Char))
    (scan : List Char → Option (α × α × α)) (name : String) (text : List Char)
    (d : data_object α) (hopen : fopen name = some text)
    (hsize : (d.vertex_count + (getlines text).countP is_vertex_line + 1) * 3 <
      18446744073709551616) :
    ∃ e, (parser fopen scan (some name) (some d)).obj = some e ∧
      e.vertex_count = d.vertex_count + (getlines text).countP is_vertex_line ∧
      e.vertex_array =
        { rows := e.vertex_count + 1
          colums := 3
          matrix := some (write_rows (List.replicate ((e.vertex_count + 1) * 3) 0) 3
            (vertex_rows scan (getlines text))) } := by
  have hc := (parse_fold_counts scan (getlines text)
    { status := status.OK, count := 1, i := 3, m := 0, data_obj := prepared text d,
      fault := false }).1
  have hp := (prepared_counts text d).1
  obtain ⟨_, _, h3⟩ := parse_fold_vertex scan (getlines text)
    { status := status.OK, count := 1, i := 3, m := 0, data_obj := prepared text d,
      fault := false }
    (List.replicate ((d.vertex_count + (getlines text).countP is_vertex_line + 1) * 3) 0)
    (prepared_matrix text d hsize)
  refine ⟨_, by rw [parser_open fopen scan name text d hopen], ?_, ?_⟩
  · exact hc.trans hp
  · unfold parser_vert_pol
    rw [h3, hc, hp]
    simp [prepared, count_vert_pol, count_lines_fold]

/-- C2. Vertex placement: when `scan` reads three numbers from every vertex
line of the file, the run stays inside its buffers (`fault = false`) and the
size of the vertex buffer fits `size_t`, `parser` on the all-zero object leaves
in buffer row `k`
(cells `3k`, `3k+1`, `3k+2`) the three numbers of the `k`-th vertex line in file
order, for every `1 ≤ k ≤ vertex_count`, whatever other lines stand between
them; and the file `v 1.0 2.0 3.0`, `f 1` gives `vertex_count = 1` and row 1
equal to `(1, 2, 3)`. -/
theorem vertex_placement {α : Type} [Zero α] (fopen : String → Option (List Char))
    (scan : List Char → Option (α × α × α)) (name : String) (text : List Char)
    (hopen : fopen name = some text)
    (hwf : ∀ l ∈ getlines text, l.take 2 = ['v', ' '] → ∃ t, scan (cstr l) = some t)
    (hfault : (parser fopen scan (some name) (some empty_object)).fault = false)
    (hsize : ((getlines text).countP is_vertex_line + 1) * 3 < 18446744073709551616) :
    (∃ e cells, (parser fopen scan (some name) (some empty_object)).obj = some e ∧
      e.vertex_array.matrix = some cells ∧
      e.vertex_count =
        ((getlines text).filter (fun l => decide (l.take 2 = ['v', ' ']))).length ∧
      ∀ k, 1 ≤ k → k ≤ e.vertex_count → ∃ l x y z,
        ((getlines text).filter (fun l => decide (l.take 2 = ['v', ' '])))[k - 1]? = some l ∧
        scan (cstr l) = some (x, y, z) ∧
        cells[3 * k]? = some x ∧ cells[3 * k + 1]? = some y ∧ cells[3 * k + 2]? = some z) ∧
    (∃ e, (parser (fun _ => some "v 1.0 2.0 3.0\nf 1\n".toList) sscanf_rat
        (some "a.obj") (some empty_object)).obj = some e ∧
      e.vertex_count = 1 ∧ e.vertex_array.matrix = some [0, 0, 0, 1, 2, 3]) := by
  have _ := hfault
  refine ⟨?_, ⟨_, rfl, by with_unfolding_all decide, by with_unfolding_all decide⟩⟩
  have hwf1 : ∀ l ∈ getlines text, is_vertex_line l = true → ∃ t, scan (cstr l) = some t :=
    fun l hl h => hwf l hl ((is_vertex_line_iff l).1 h)
  obtain ⟨e, he, hcount, harr⟩ :=
    parser_vertex_buffer fopen scan name text empty_object hopen
      (by simp only [empty_object]; omega)
  have hlen := vertex_rows_length_of_wellformed scan (getlines text) hwf1
  have hcount1 : e.vertex_count = (getlines text).countP is_vertex_line := by
    rw [hcount]; simp [empty_object]
  refine ⟨e, _, he, by rw [harr], ?_, ?_⟩
  · rw [filter_vertex_eq, hcount1, List.countP_eq_length_filter]
  · intro k hk1 hk2
    rw [filter_vertex_eq]
    have hk3 : k - 1 < ((getlines text).filter is_vertex_line).length := by
      rw [← List.countP_eq_length_filter, ← hcount1]; omega
    obtain ⟨t, hscan, hrow⟩ := vertex_rows_of_wellformed scan (getlines text) hwf1 (k - 1)
      _ (List.getElem?_eq_getElem hk3)
    obtain ⟨x, y, z⟩ := t
    have hfit : 3 + 3 * (vertex_rows scan (getlines text)).length ≤
        (List.replicate ((e.vertex_count + 1) * 3) (0 : α)).length := by
      rw [hlen, List.length_replicate, hcount1]; omega
    obtain ⟨r1, r2, r3⟩ := write_rows_row (vertex_rows scan (getlines text))
      (List.replicate ((e.vertex_count + 1) * 3) 0) 3 (k - 1) x y z hrow hfit
    have e3 : 3 + 3 * (k - 1) = 3 * k := by omega
    rw [e3] at r1 r2 r3
    exact ⟨_, x, y, z, List.getElem?_eq_getElem hk3, hscan, r1, r2, r3⟩

/-- Vertex placement on a file with one vertex line and one face line. -/
theorem vertex_placement_witness :
    (∀ l ∈ getlines "v 1.5 -2 0.25\nf 1\n".toList, l.take 2 = ['v', ' '] →
      ∃ t, sscanf_rat (cstr l) = some t) ∧
    (parser (fun _ => some "v 1.5 -2 0.25\nf 1\n".toList) sscanf_rat
        (some "a.obj") (some empty_object)).fault = false ∧
    ∃ e cells, (parser (fun _ => some "v 1.5 -2 0.25\nf 1\n".toList) sscanf_rat
        (some "a.obj") (some empty_object)).obj = some e ∧
      e.vertex_array.matrix = some cells ∧
      e.vertex_count =
        ((getlines "v 1.5 -2 0.25\nf 1\n".toList).filter
          (fun l => decide (l.take 2 = ['v', ' ']))).length ∧
      ∀ k, 1 ≤ k → k ≤ e.vertex_count → ∃ l x y z,
        ((getlines "v 1.5 -2 0.25\nf 1\n".toList).filter
          (fun l => decide (l.take 2 = ['v', ' '])))[k - 1]? = some l ∧
        sscanf_rat (cstr l) = some (x, y, z) ∧
        cells[3 * k]? = some x ∧ cells[3 * k + 1]? = some y ∧ cells[3 * k + 2]? = some z :=
  have h : ∀ l ∈ getlines "v 1.5 -2 0.25\nf 1\n".toList, l.take 2 = ['v', ' '] →
      ∃ t, sscanf_rat (cstr l) = some t := by
    intro l hl _
    have hlines : getlines "v 1.5 -2 0.25\nf 1\n".toList =
        ["v 1.5 -2 0.25\n".toList, "f 1\n".toList] := by decide
    rw [hlines] at hl
    simp only [List.mem_cons, List.mem_singleton, List.not_mem_nil, or_false] at hl
    rcases hl with rfl | rfl
    · exact Option.isSome_iff_exists.1 (by with_unfolding_all decide)
    · simp_all
  have hfault : (parser (fun _ => some "v 1.5 -2 0.25\nf 1\n".toList) sscanf_rat
      (some "a.obj") (some empty_object)).fault = false := by with_unfolding_all decide
  ⟨h, hfault, (vertex_placement (fun _ => some "v 1.5 -2 0.25\nf 1\n".toList) sscanf_rat
    "a.obj" _ rfl h hfault (by decide)).1⟩

/-! ## The face half of the parse pass -/

theorem write_indices_length (count : Nat) (toks : List (List Char)) (j : Nat)
    (cells : List Nat) : (write_indices count toks j cells).1.length = cells.length := by
  induction toks generalizing j cells with
  | nil => rfl
  | cons t ts ih => simp [write_indices, ih]

theorem write_indices_get (count : Nat) (toks : List (List Char)) (j p : Nat)
    (cells : List Nat) :
    (write_indices count toks j cells).1[p]? =
      if j ≤ p ∧ p < j + toks.length ∧ p < cells.length then
        (toks[p - j]?).map (stored_index count)
      else cells[p]? := by
  induction toks generalizing j cells with
  | nil =>
    have hno : ¬ (j ≤ p ∧ p < j + ([] : List (List Char)).length ∧ p < cells.length) := by
      simp only [List.length_nil]; omega
    simp only [write_indices, if_neg hno]
  | cons t ts ih =>
    simp only [write_indices, List.length_cons]
    rw [ih, List.length_set, List.getElem?_set]
    by_cases hp : p = j
    · subst hp
      by_cases hl : p < cells.length
      · have h1 : ¬ (p + 1 ≤ p ∧ p < p + 1 + ts.length ∧ p < cells.length) := by omega
        have h2 : p ≤ p ∧ p < p + (ts.length + 1) ∧ p < cells.length := by omega
        simp [h1, h2, hl]
      · have h1 : ¬ (p + 1 ≤ p ∧ p < p + 1 + ts.length ∧ p < cells.length) := by omega
        have h2 : ¬ (p ≤ p ∧ p < p + (ts.length + 1) ∧ p < cells.length) := by omega
        simp [h1, h2, hl]
        omega
    · have hjp : ¬ (j = p) := fun e => hp e.symm
      by_cases hc : j ≤ p ∧ p < j + (ts.length + 1) ∧ p < cells.length
      · have h1 : j + 1 ≤ p ∧ p < j + 1 + ts.length ∧ p < cells.length := by omega
        have e : p - j = (p - (j + 1)) + 1 := by omega
        simp only [if_pos h1, if_pos hc]
        rw [e, List.getElem?_cons_succ]
      · have h1 : ¬ (j + 1 ≤ p ∧ p < j + 1 + ts.length ∧ p < cells.length) := by omega
        simp only [if_neg h1, if_neg hc, if_neg hjp]

theorem write_indices_fresh (count : Nat) (toks : List (List Char)) :
    (write_indices count toks 0 (List.replicate toks.length 0)).1 =
      toks.map (stored_index count) := by
  apply List.ext_getElem?
  intro p
  rw [write_indices_get]
  by_cases hp : p < toks.length
  · have h : 0 ≤ p ∧ p < 0 + toks.length ∧ p < (List.replicate toks.length 0).length := by
      simp; omega
    rw [if_pos h]
    simp
  · have h : ¬ (0 ≤ p ∧ p < 0 + toks.length ∧ p < (List.replicate toks.length 0).length) := by
      simp; omega
    rw [if_neg h]
    rw [List.getElem?_eq_none (by simp; omega), List.getElem?_eq_none (by simp; omega)]

theorem parse_face_stored {α : Type} (st : parse_state α) (buff : List Char)
    (faces : List polygon_t) (hm : st.data_obj.polygon_array = some faces)
    (hedges : st.data_obj.edges_count = 0)
    (hslot : faces[st.m]? = some { polygon := none, colums := 0 })
    (hpos : 0 < first_scan buff) :
    (parse_face st buff).m = st.m + 1 ∧
    (parse_face st buff).data_obj.edges_count = 0 ∧
    (parse_face st buff).data_obj.all_edges_count =
      st.data_obj.all_edges_count + (strtok_all (cstr buff).tail).length ∧
    (parse_face st buff).data_obj.polygon_array =
      some (faces.set st.m (face_of st.count buff)) := by
  have hlt : st.m < faces.length := by
    by_contra hge
    rw [List.getElem?_eq_none (by omega)] at hslot
    exact Option.noConfusion hslot
  have hpos2 : first_scan buff > 0 := hpos
  simp [parse_face, hm, hedges, face_slot, slot_pointer, hslot, create_polygon, served, set_face_slot,
    hpos2, face_of, hlt]

theorem parse_face_skipped {α : Type} (st : parse_state α) (buff : List Char)
    (faces : List polygon_t) (hm : st.data_obj.polygon_array = some faces)
    (hedges : st.data_obj.edges_count = 0)
    (hslot : faces[st.m]? = some { polygon := none, colums := 0 })
    (hzero : first_scan buff = 0) :
    (parse_face st buff).m = st.m ∧
    (parse_face st buff).data_obj.edges_count = 0 ∧
    (parse_face st buff).data_obj.all_edges_count = st.data_obj.all_edges_count ∧
    (parse_face st buff).data_obj.polygon_array =
      some (faces.set st.m { polygon := none, colums := 0 }) := by
  simp [parse_face, hm, hedges, face_slot, slot_pointer, hslot, create_polygon, served, set_face_slot,
    hzero]

theorem parse_vertex_face_part {α : Type} (scan : List Char → Option (α × α × α))
    (st : parse_state α) (buff : List Char) :
    (parse_vertex scan st buff).m = st.m ∧
    (parse_vertex scan st buff).data_obj.edges_count = st.data_obj.edges_count ∧
    (parse_vertex scan st buff).data_obj.all_edges_count = st.data_obj.all_edges_count ∧
    (parse_vertex scan st buff).data_obj.polygon_array = st.data_obj.polygon_array ∧
    (parse_vertex scan st buff).count =
      match scan (cstr buff) with
      | some _ => st.count + 1
      | none => st.count := by
  unfold parse_vertex
  cases scan (cstr buff) with
  | none => simp
  | some t =>
    obtain ⟨x, y, z⟩ := t
    cases st.data_obj.vertex_array.matrix <;> simp

theorem parse_fold_faces {α : Type} (scan : List Char → Option (α × α × α))
    (lines : List (List Char)) (st : parse_state α) (faces : List polygon_t)
    (hm : st.data_obj.polygon_array = some faces)
    (hedges : st.data_obj.edges_count = 0)
    (hfresh : ∀ k, st.m ≤ k → k < faces.length →
      faces[k]? = some { polygon := none, colums := 0 })
    (hroom : st.m + lines.countP is_face_line ≤ faces.length) :
    ∃ faces2, (lines.foldl (parse_line scan) st).data_obj.polygon_array = some faces2 ∧
      faces2.length = faces.length ∧
      (lines.foldl (parse_line scan) st).m =
        st.m + (stored_faces scan st.count lines).length ∧
      (lines.foldl (parse_line scan) st).data_obj.edges_count = 0 ∧
      (lines.foldl (parse_line scan) st).data_obj.all_edges_count =
        st.data_obj.all_edges_count + edge_total lines ∧
      (∀ k, k < st.m → faces2[k]? = faces[k]?) ∧
      (∀ k p, (stored_faces scan st.count lines)[k]? = some p → faces2[st.m + k]? = some p) ∧
      (∀ k, st.m + (stored_faces scan st.count lines).length ≤ k →
        faces2[k]? = faces[k]?) := by
  induction lines generalizing st faces with
  | nil =>
    exact ⟨faces, hm, rfl, by simp [stored_faces], hedges, by simp [edge_total],
      fun _ _ => rfl, by simp [stored_faces], fun _ _ => rfl⟩
  | cons l ls ih =>
    rw [List.foldl_cons]
    by_cases hv : is_vertex_line l = true
    · have hf : is_face_line l = false := by
        cases h : is_face_line l
        · rfl
        · rw [not_vertex_of_face h] at hv; exact Bool.noConfusion hv
      have hst : parse_line scan st l = parse_vertex scan st l := by
        simp [parse_line, hv]
      obtain ⟨p1, p2, p3, p4, p5⟩ := parse_vertex_face_part scan st l
      have hroom2 : (parse_line scan st l).m + ls.countP is_face_line ≤ faces.length := by
        rw [hst, p1]
        simpa [List.countP_cons, hf] using hroom
      obtain ⟨faces2, h1, h2, h3, h4, h5, h6, h7, h8⟩ := ih (parse_line scan st l) faces
        (by rw [hst, p4]; exact hm) (by rw [hst, p2]; exact hedges)
        (by rw [hst, p1]; exact hfresh) hroom2
      have hstored : stored_faces scan st.count (l :: ls) =
          stored_faces scan (parse_line scan st l).count ls := by
        rw [hst, p5]
        cases hs : scan (cstr l) <;> simp [stored_faces, hv, hs]
      have htotal : edge_total (l :: ls) = edge_total ls := by
        simp [edge_total, is_stored_face_line, hf]
      rw [hstored, htotal]
      rw [hst, p1] at h3 h6 h7 h8
      rw [hst, p3] at h5
      rw [hst] at h1 h4
      rw [hst]
      exact ⟨faces2, h1, h2, h3, h4, h5, h6, h7, h8⟩
    · by_cases hf : is_face_line l = true
      · have hst : parse_line scan st l = parse_face st l := by
          simp [parse_line, hv, hf]
        have hcnt : (parse_face st l).count = st.count := (parse_face_vertex_part st l).2.1
        have hlt : st.m < faces.length := by
          have : 0 < (l :: ls).countP is_face_line := by
            simp [List.countP_cons, hf]
          omega
        have hroom1 : st.m + 1 + ls.countP is_face_line ≤ faces.length := by
          have : (l :: ls).countP is_face_line = ls.countP is_face_line + 1 := by
            simp [List.countP_cons, hf]
          omega
        have hslot := hfresh st.m (Nat.le_refl _) hlt
        by_cases hpos : 0 < first_scan l
        · obtain ⟨q1, q2, q3, q4⟩ := parse_face_stored st l faces hm hedges hslot hpos
          obtain ⟨faces2, h1, h2, h3, h4, h5, h6, h7, h8⟩ := ih (parse_line scan st l)
            (faces.set st.m (face_of st.count l))
            (by rw [hst, q4]) (by rw [hst, q2])
            (by
              intro k hk1 hk2
              rw [hst, q1] at hk1
              rw [List.length_set] at hk2
              rw [List.getElem?_set, if_neg (by omega)]
              exact hfresh k (by omega) hk2)
            (by rw [hst, q1, List.length_set]; exact hroom1)
          have hsf : is_stored_face_line l = true := by
            simp [is_stored_face_line, hf, hpos]
          have hstored : stored_faces scan st.count (l :: ls) =
              face_of st.count l :: stored_faces scan st.count ls := by
            simp [stored_faces, hv, hsf]
          have htotal : edge_total (l :: ls) =
              (strtok_all (cstr l).tail).length + edge_total ls := by
            simp [edge_total, hsf]
          rw [hst] at h1 h3 h4 h5 h6 h7 h8
          rw [hcnt] at h3 h7 h8
          rw [q1] at h3 h6 h7 h8
          rw [q3] at h5
          rw [List.length_set] at h2
          rw [hst, hstored, htotal]
          refine ⟨faces2, h1, h2, ?_, h4, ?_, ?_, ?_, ?_⟩
          · rw [h3]; simp; omega
          · rw [h5]; omega
          · intro k hk
            rw [h6 k (by omega), List.getElem?_set, if_neg (by omega)]
          · intro k p hp
            cases k with
            | zero =>
              simp only [List.getElem?_cons_zero, Option.some.injEq] at hp
              subst hp
              rw [Nat.add_zero, h6 st.m (by omega), List.getElem?_set, if_pos rfl, if_pos hlt]
            | succ k =>
              simp only [List.getElem?_cons_succ] at hp
              have := h7 k p hp
              have e : st.m + (k + 1) = st.m + 1 + k := by omega
              rw [e]; exact this
          · intro k hk
            simp only [List.length_cons] at hk
            rw [h8 k (by omega), List.getElem?_set, if_neg (by omega)]
        · have hzero : first_scan l = 0 := by omega
          obtain ⟨q1, q2, q3, q4⟩ := parse_face_skipped st l faces hm hedges hslot hzero
          obtain ⟨faces2, h1, h2, h3, h4, h5, h6, h7, h8⟩ := ih (parse_line scan st l)
            (faces.set st.m { polygon := none, colums := 0 })
            (by rw [hst, q4]) (by rw [hst, q2])
            (by
              intro k hk1 hk2
              rw [hst, q1] at hk1
              rw [List.length_set] at hk2
              rw [List.getElem?_set]
              split_ifs
              · rfl
              · exact hfresh k hk1 hk2)
            (by rw [hst, q1, List.length_set]; omega)
          have hsf : is_stored_face_line l = false := by
            simp [is_stored_face_line, hf, hzero]
          have hstored : stored_faces scan st.count (l :: ls) =
              stored_faces scan st.count ls := by
            simp [stored_faces, hv, hsf]
          have htotal : edge_total (l :: ls) = edge_total ls := by
            simp [edge_total, hsf]
          rw [hst] at h1 h3 h4 h5 h6 h7 h8
          rw [hcnt] at h3 h7 h8
          rw [q1] at h3 h6 h7 h8
          rw [q3] at h5
          rw [List.length_set] at h2
          rw [hst, hstored, htotal]
          refine ⟨faces2, h1, h2, h3, h4, h5, ?_, h7, ?_⟩
          · intro k hk
            rw [h6 k hk, List.getElem?_set, if_neg (by omega)]
          · intro k hk
            rw [h8 k hk, List.getElem?_set]
            split_ifs with e1
            · subst e1; exact hslot.symm
            · rfl
      · have hst : parse_line scan st l = st := by
          simp [parse_line, hv, hf]
        have hstored : stored_faces scan st.count (l :: ls) =
            stored_faces scan st.count ls := by
          simp [stored_faces, hv, is_stored_face_line, hf]
        have htotal : edge_total (l :: ls) = edge_total ls := by
          simp [edge_total, is_stored_face_line, hf]
        rw [hst, hstored, htotal]
        exact ih st faces hm hedges hfresh (by simpa [List.countP_cons, hf] using hroom)

/-! ## Tokens of a face line -/

theorem isdigit_not_special {c : Char} (h : isdigit c = true) :
    c ≠ ' ' ∧ c ≠ '\x00' ∧ c ≠ '-' ∧ c ≠ '+' ∧ isspace c = false := by
  simp only [isdigit, Bool.and_eq_true, decide_eq_true_eq] at h
  obtain ⟨h1, h2⟩ := h
  have h3 : 48 ≤ c.val.toNat := h1
  refine ⟨?_, ?_, ?_, ?_, ?_⟩
  · rintro rfl; revert h3; decide
  · rintro rfl; revert h3; decide
  · rintro rfl; revert h3; decide
  · rintro rfl; revert h3; decide
  · simp only [isspace, Bool.or_eq_false_iff, decide_eq_false_iff_not]
    refine ⟨⟨⟨⟨⟨?_, ?_⟩, ?_⟩, ?_⟩, ?_⟩, ?_⟩ <;> (rintro rfl; revert h3; decide)

theorem line_end_chars {eol : List Char} (h : is_line_end eol = true) :
    ∀ c ∈ eol, c ≠ ' ' ∧ c ≠ '\x00' ∧ isdigit c = false := by
  intro c hc
  simp only [is_line_end, List.all_eq_true, Bool.or_eq_true, decide_eq_true_eq] at h
  rcases h c hc with rfl | rfl <;> decide

theorem takeWhile_digits_append (ds rest : List Char) (hds : ds.all isdigit = true)
    (hrest : ∀ c, rest.head? = some c → isdigit c = false) :
    (ds ++ rest).takeWhile isdigit = ds := by
  induction ds with
  | nil =>
    cases rest with
    | nil => rfl
    | cons c cs => simp [List.takeWhile, hrest c rfl]
  | cons d ds ih =>
    simp only [List.all_cons, Bool.and_eq_true] at hds
    simp [List.takeWhile, hds.1, ih hds.2]

theorem strtol_numeral (ds rest : List Char) (hne : ds ≠ []) (hds : ds.all isdigit = true)
    (hrest : ∀ c, rest.head? = some c → isdigit c = false) :
    strtol (ds ++ rest) = min (digits_value ds : Int) 9223372036854775807 := by
  obtain ⟨d, ds2, rfl⟩ := List.exists_cons_of_ne_nil hne
  have hd : isdigit d = true := by
    simp only [List.all_cons, Bool.and_eq_true] at hds; exact hds.1
  obtain ⟨_, _, h3, h4, h5⟩ := isdigit_not_special hd
  have htw := takeWhile_digits_append (d :: ds2) rest hds hrest
  have hbody : (d :: ds2 ++ rest).dropWhile isspace = d :: (ds2 ++ rest) := by
    simp [List.dropWhile, h5]
  unfold strtol
  simp only [hbody]
  split
  · rename_i heq; simp at heq; exact absurd heq.1 h3
  · rename_i heq; simp at heq; exact absurd heq.1 h4
  · have e : d :: (ds2 ++ rest) = d :: ds2 ++ rest := rfl
    rw [e, htw]

theorem strtol_negative (ds rest : List Char) (hds : ds.all isdigit = true)
    (hrest : ∀ c, rest.head? = some c → isdigit c = false) :
    strtol ('-' :: (ds ++ rest)) = max (-(digits_value ds : Int)) (-9223372036854775808) := by
  have htw := takeWhile_digits_append ds rest hds hrest
  have hbody : ('-' :: (ds ++ rest)).dropWhile isspace = '-' :: (ds ++ rest) := by
    simp [List.dropWhile, isspace]
  unfold strtol
  simp only [hbody, htw]

theorem atoi_index_token (t rest : List Char) (ht : is_index_token t = true)
    (hrest : ∀ c, rest.head? = some c → isdigit c = false) :
    atoi (t ++ rest) = (digits_value t : Int) := by
  simp only [is_index_token, is_numeral, Bool.and_eq_true, decide_eq_true_eq, bne_iff_ne,
    ne_eq] at ht
  obtain ⟨⟨⟨hne, hds⟩, h1⟩, h2⟩ := ht
  unfold atoi
  rw [strtol_numeral t rest hne hds hrest]
  unfold to_int32
  omega

theorem atoi_negative_token (ds rest : List Char) (hds : ds.all isdigit = true)
    (hrest : ∀ c, rest.head? = some c → isdigit c = false)
    (hk : digits_value ds ≤ 2147483648) :
    atoi ('-' :: (ds ++ rest)) = -(digits_value ds : Int) := by
  unfold atoi
  rw [strtol_negative ds rest hds hrest]
  unfold to_int32
  omega

theorem split_spaces_ne_nil (s : List Char) : split_spaces s ≠ [] := by
  cases s with
  | nil => simp [split_spaces]
  | cons c cs =>
    unfold split_spaces
    split_ifs
    · simp
    · split <;> simp

theorem split_spaces_append (t rest : List Char) (ht : ∀ c ∈ t, c ≠ ' ') :
    ∃ h tl, split_spaces rest = h :: tl ∧ split_spaces (t ++ rest) = (t ++ h) :: tl := by
  induction t with
  | nil =>
    obtain ⟨h, tl, e⟩ := List.exists_cons_of_ne_nil (split_spaces_ne_nil rest)
    exact ⟨h, tl, e, by simpa using e⟩
  | cons c cs ih =>
    obtain ⟨h, tl, e1, e2⟩ := ih (fun c hc => ht c (List.mem_cons_of_mem _ hc))
    refine ⟨h, tl, e1, ?_⟩
    have hc : c ≠ ' ' := ht c (List.mem_cons_self _ _)
    simp [split_spaces, hc, e2]

theorem split_spaces_no_space (s : List Char) (hs : ∀ c ∈ s, c ≠ ' ') :
    split_spaces s = [s] := by
  obtain ⟨h, tl, e1, e2⟩ := split_spaces_append s [] hs
  simp only [split_spaces, List.cons.injEq] at e1
  obtain ⟨rfl, rfl⟩ := e1
  simpa using e2

theorem split_spaces_face_tokens (toks : List (List Char)) (eol : List Char)
    (htoks : ∀ t ∈ toks, ∀ c ∈ t, c ≠ ' ') (heol : ∀ c ∈ eol, c ≠ ' ') :
    split_spaces (toks.flatMap (fun t => ' ' :: t) ++ eol) =
      match toks with
      | [] => [eol]
      | _ :: _ => [] :: close_last toks eol := by
  induction toks with
  | nil => simpa using split_spaces_no_space eol heol
  | cons t ts ih =>
    have ih2 := ih (fun t ht => htoks t (List.mem_cons_of_mem _ ht))
    obtain ⟨h, tl, e1, e2⟩ := split_spaces_append t (ts.flatMap (fun t => ' ' :: t) ++ eol)
      (htoks t (List.mem_cons_self _ _))
    have e3 : (t :: ts).flatMap (fun t => ' ' :: t) ++ eol =
        ' ' :: (t ++ (ts.flatMap (fun t => ' ' :: t) ++ eol)) := by
      simp [List.flatMap_cons]
    rw [e3]
    simp only [split_spaces, if_true, e2]
    cases ts with
    | nil =>
      simp only [List.flatMap_nil, List.nil_append] at e1 ih2
      rw [ih2] at e1
      simp only [List.cons.injEq] at e1
      obtain ⟨rfl, rfl⟩ := e1
      rfl
    | cons t2 ts2 =>
      rw [ih2] at e1
      simp only [List.cons.injEq] at e1
      obtain ⟨rfl, rfl⟩ := e1
      simp [close_last]

theorem close_last_length (toks : List (List Char)) (eol : List Char) :
    (close_last toks eol).length = toks.length := by
  induction toks with
  | nil => rfl
  | cons t ts ih =>
    cases ts with
    | nil => rfl
    | cons t2 ts2 => simp only [close_last, List.length_cons] at ih ⊢; omega

theorem close_last_map {β : Type} (F G : List Char → β) (toks : List (List Char))
    (eol : List Char) (h : ∀ t ∈ toks, F t = G t ∧ F (t ++ eol) = G t) :
    (close_last toks eol).map F = toks.map G := by
  induction toks with
  | nil => rfl
  | cons t ts ih =>
    have ih2 := ih (fun t ht => h t (List.mem_cons_of_mem _ ht))
    have ht := h t (List.mem_cons_self _ _)
    cases ts with
    | nil => simp [close_last, ht.2]
    | cons t2 ts2 => simp only [close_last, List.map_cons, ht.1] at ih2 ⊢; rw [ih2]

theorem close_last_forall (P : List Char → Prop) (toks : List (List Char))
    (eol : List Char) (h : ∀ t ∈ toks, P t ∧ P (t ++ eol)) :
    ∀ u ∈ close_last toks eol, P u := by
  induction toks with
  | nil => simp [close_last]
  | cons t ts ih =>
    have ih2 := ih (fun t ht => h t (List.mem_cons_of_mem _ ht))
    have ht := h t (List.mem_cons_self _ _)
    cases ts with
    | nil => simp [close_last, ht.2]
    | cons t2 ts2 =>
      intro u hu
      simp only [close_last, List.mem_cons] at hu ih2
      rcases hu with rfl | hu
      · exact ht.1
      · exact ih2 u (by simpa [close_last] using hu)

theorem index_token_parts {t : List Char} (ht : is_index_token t = true) :
    t ≠ [] ∧ t.all isdigit = true ∧ 1 ≤ digits_value t ∧ digits_value t ≤ 2147483647 := by
  simp only [is_index_token, is_numeral, Bool.and_eq_true, decide_eq_true_eq, bne_iff_ne,
    ne_eq] at ht
  exact ⟨ht.1.1.1, ht.1.1.2, ht.1.2, ht.2⟩

theorem index_token_chars {t : List Char} (ht : is_index_token t = true) :
    ∀ c ∈ t, c ≠ ' ' ∧ c ≠ '\x00' := by
  intro c hc
  have hd := (index_token_parts ht).2.1
  rw [List.all_eq_true] at hd
  obtain ⟨h1, h2, _⟩ := isdigit_not_special (hd c hc)
  exact ⟨h1, h2⟩

theorem line_end_head {eol : List Char} (h : is_line_end eol = true) :
    ∀ c, eol.head? = some c → isdigit c = false := by
  intro c hc
  cases eol with
  | nil => simp at hc
  | cons a as =>
    simp only [List.head?_cons, Option.some.injEq] at hc
    subst hc
    exact (line_end_chars h a (List.mem_cons_self _ _)).2.2

theorem cstr_face_text (toks : List (List Char)) (eol : List Char)
    (htoks : ∀ t ∈ toks, is_index_token t = true) (heol : is_line_end eol = true) :
    cstr (face_text toks eol) = face_text toks eol := by
  unfold cstr
  rw [List.takeWhile_eq_self_iff]
  intro c hc
  simp only [face_text, List.mem_cons, List.mem_append, List.mem_flatMap] at hc
  have hne : c ≠ '\x00' := by
    rcases hc with rfl | ⟨t, ht, rfl | hct⟩ | hce
    · decide
    · decide
    · exact (index_token_chars (htoks t ht) c hct).2
    · exact (line_end_chars heol c hce).2.1
  simpa using hne

theorem face_text_is_face_line (toks : List (List Char)) (eol : List Char)
    (heol : is_line_end eol = true) :
    is_face_line (face_text toks eol) = true ↔ toks ≠ [] := by
  cases toks with
  | nil =>
    cases eol with
    | nil => simp [face_text, is_face_line, byte_at]
    | cons a as =>
      have := (line_end_chars heol a (List.mem_cons_self _ _)).1
      simp [face_text, is_face_line, byte_at, this]
  | cons t ts => simp [face_text, is_face_line, byte_at]

theorem face_text_tokens (toks : List (List Char)) (eol : List Char)
    (hne : toks ≠ []) (htoks : ∀ t ∈ toks, is_index_token t = true)
    (heol : is_line_end eol = true) :
    strtok_all (cstr (face_text toks eol)).tail = close_last toks eol := by
  rw [cstr_face_text toks eol htoks heol]
  have hsp := split_spaces_face_tokens toks eol
    (fun t ht c hc => (index_token_chars (htoks t ht) c hc).1)
    (fun c hc => (line_end_chars heol c hc).1)
  obtain ⟨t, ts, rfl⟩ := List.exists_cons_of_ne_nil hne
  simp only [face_text, List.tail_cons, strtok_all, hsp]
  rw [List.filter_cons_of_neg (by simp)]
  rw [List.filter_eq_self]
  apply close_last_forall (fun u => (u != []) = true) (t :: ts) eol
  intro u hu
  have h1 := (index_token_parts (htoks u hu)).1
  simp [h1]

theorem stored_index_index_token (count : Nat) (t rest : List Char)
    (ht : is_index_token t = true)
    (hrest : ∀ c, rest.head? = some c → isdigit c = false) :
    stored_index count (t ++ rest) = digits_value t := by
  unfold stored_index
  simp only [atoi_index_token t rest ht hrest]
  rw [if_neg (by omega)]
  simp

theorem first_scan_face_text (toks : List (List Char)) (eol : List Char)
    (hne : toks ≠ []) (htoks : ∀ t ∈ toks, is_index_token t = true)
    (heol : is_line_end eol = true) :
    first_scan (face_text toks eol) = toks.length := by
  unfold first_scan
  rw [face_text_tokens toks eol hne htoks heol, ← close_last_length toks eol]
  congr 1
  rw [List.takeWhile_eq_self_iff]
  apply close_last_forall (fun u => (atoi u != 0) = true) toks eol
  intro t ht
  have hp := index_token_parts (htoks t ht)
  have h1 := atoi_index_token t [] (htoks t ht) (by simp)
  have h2 := atoi_index_token t eol (htoks t ht) (line_end_head heol)
  rw [List.append_nil] at h1
  simp only [bne_iff_ne, ne_eq, h1, h2]
  omega

theorem face_of_face_text (count : Nat) (toks : List (List Char)) (eol : List Char)
    (hne : toks ≠ []) (htoks : ∀ t ∈ toks, is_index_token t = true)
    (heol : is_line_end eol = true) :
    face_of count (face_text toks eol) =
      { polygon := some (toks.map digits_value), colums := toks.length } := by
  unfold face_of
  rw [first_scan_face_text toks eol hne htoks heol,
    face_text_tokens toks eol hne htoks heol]
  have hw := write_indices_fresh count (close_last toks eol)
  rw [close_last_length] at hw
  rw [hw]
  have hmap := close_last_map (stored_index count) digits_value toks eol (by
    intro t ht
    have h1 := stored_index_index_token count t [] (htoks t ht) (by simp)
    rw [List.append_nil] at h1
    exact ⟨h1, stored_index_index_token count t eol (htoks t ht) (line_end_head heol)⟩)
  rw [hmap]

theorem prepared_faces {α : Type} [Zero α] (text : List Char) :
    (prepared text (empty_object : data_object α)).edges_count = 0 ∧
    (prepared text (empty_object : data_object α)).all_edges_count = 0 ∧
    (0 < (getlines text).countP is_face_line →
      (prepared text (empty_object : data_object α)).polygon_array =
        some (List.replicate ((getlines text).countP is_face_line)
          { polygon := none, colums := 0 })) := by
  refine ⟨?_, ?_, ?_⟩
  · simp [prepared, count_vert_pol, count_lines_fold, empty_object]
  · simp [prepared, count_vert_pol, count_lines_fold, empty_object]
  · intro h
    have h2 : (getlines text).countP is_face_line > 0 := h
    simp [prepared, count_vert_pol, count_lines_fold, empty_object, h2]

/-- The face list after `parser` on the all-zero object, for a file with at
least one face line: as many slots as face lines, the stored faces first, in
file order, the remaining slots empty. -/
theorem parser_face_list {α : Type} [Zero α] (fopen : String → Option (List Char))
    (scan : List Char → Option (α × α × α)) (name : String) (text : List Char)
    (hopen : fopen name = some text)
    (hface : 0 < (getlines text).countP is_face_line) :
    ∃ e faces, (parser fopen scan (some name) (some empty_object)).obj = some e ∧
      e.polygon_array = some faces ∧
      faces.length = (getlines text).countP is_face_line ∧
      e.polygon_count = (getlines text).countP is_face_line ∧
      e.edges_count = 0 ∧
      e.all_edges_count = edge_total (getlines text) ∧
      (∀ (k : Nat) (p : polygon_t),
        (stored_faces scan 1 (getlines text))[k]? = some p → faces[k]? = some p) ∧
      (∀ k : Nat, (stored_faces scan 1 (getlines text)).length ≤ k →
        k < (getlines text).countP is_face_line →
        faces[k]? = some { polygon := none, colums := 0 }) := by
  obtain ⟨p1, p2, p3⟩ := prepared_faces (α := α) text
  obtain ⟨faces2, h1, h2, _, h4, h5, _, h7, h8⟩ := parse_fold_faces scan (getlines text)
    { status := status.OK, count := 1, i := 3, m := 0,
      data_obj := prepared text (empty_object : data_object α), fault := false }
    (List.replicate ((getlines text).countP is_face_line) { polygon := none, colums := 0 })
    (p3 hface) p1
    (by
      intro k _ hk
      rw [List.length_replicate] at hk
      simp [List.getElem?_replicate, hk])
    (by simp)
  rw [List.length_replicate] at h2
  have hc := (parse_fold_counts scan (getlines text)
    { status := status.OK, count := 1, i := 3, m := 0,
      data_obj := prepared text (empty_object : data_object α), fault := false }).2
  refine ⟨(parser_vert_pol scan text (prepared text (empty_object : data_object α))).data_obj,
    faces2, by rw [parser_open fopen scan name text _ hopen], h1, h2, ?_, h4, ?_, ?_, ?_⟩
  · unfold parser_vert_pol
    rw [hc, (prepared_counts text _).2]
    simp [empty_object]
  · unfold parser_vert_pol
    rw [h5, p2]
    simp
  · intro k p hk
    have := h7 k p hk
    simpa using this
  · intro k hk1 hk2
    rw [h8 k (by simpa using hk1)]
    simp [List.getElem?_replicate, hk2]

theorem stored_faces_of_wellformed {α : Type} (scan : List Char → Option (α × α × α))
    (lines : List (List Char))
    (hwf : ∀ l ∈ lines, is_face_line l = true → ∃ toks eol, l = face_text toks eol ∧
      (∀ t ∈ toks, is_index_token t = true) ∧ is_line_end eol = true)
    (count j : Nat) (toks : List (List Char)) (eol : List Char)
    (hj : (lines.filter is_face_line)[j]? = some (face_text toks eol))
    (htoks : ∀ t ∈ toks, is_index_token t = true) (heol : is_line_end eol = true) :
    (stored_faces scan count lines)[j]? =
      some { polygon := some (toks.map digits_value), colums := toks.length } := by
  induction lines generalizing count j with
  | nil => simp at hj
  | cons a ls ih =>
    have hwf2 : ∀ l ∈ ls, is_face_line l = true → ∃ toks eol, l = face_text toks eol ∧
        (∀ t ∈ toks, is_index_token t = true) ∧ is_line_end eol = true :=
      fun l hl h => hwf l (List.mem_cons_of_mem a hl) h
    by_cases hf : is_face_line a = true
    · have hv : is_vertex_line a = false := not_vertex_of_face hf
      obtain ⟨ta, ea, rfl, hta, hea⟩ := hwf a (List.mem_cons_self a ls) hf
      have hne : ta ≠ [] := (face_text_is_face_line ta ea hea).1 hf
      have hpos : 0 < first_scan (face_text ta ea) := by
        rw [first_scan_face_text ta ea hne hta hea]
        exact List.length_pos.2 hne
      have hsf : is_stored_face_line (face_text ta ea) = true := by
        simp [is_stored_face_line, hf, hpos]
      rw [List.filter_cons_of_pos hf] at hj
      have hstored : stored_faces scan count (face_text ta ea :: ls) =
          face_of count (face_text ta ea) :: stored_faces scan count ls := by
        simp [stored_faces, hv, hsf]
      rw [hstored]
      cases j with
      | zero =>
        simp only [List.getElem?_cons_zero, Option.some.injEq] at hj ⊢
        rw [hj] at hf
        have hne2 : toks ≠ [] := (face_text_is_face_line toks eol heol).1 hf
        rw [hj]
        exact face_of_face_text count toks eol hne2 htoks heol
      | succ j =>
        simp only [List.getElem?_cons_succ] at hj ⊢
        exact ih hwf2 count j hj
    · rw [List.filter_cons_of_neg hf] at hj
      have hsf : is_stored_face_line a = false := by
        simp [is_stored_face_line, hf]
      by_cases hv : is_vertex_line a = true
      · cases hs : scan (cstr a) with
        | none =>
          have hstored : stored_faces scan count (a :: ls) = stored_faces scan count ls := by
            simp [stored_faces, hv, hs]
          rw [hstored]
          exact ih hwf2 count j hj
        | some t =>
          have hstored : stored_faces scan count (a :: ls) =
              stored_faces scan (count + 1) ls := by
            simp [stored_faces, hv, hs]
          rw [hstored]
          exact ih hwf2 (count + 1) j hj
      · have hstored : stored_faces scan count (a :: ls) = stored_faces scan count ls := by
          simp [stored_faces, hv, hsf]
        rw [hstored]
        exact ih hwf2 count j hj

/-- C3 (amended). Face contents: when every face line of the file is the letter
`f` followed by positive decimal numerals of value at most 2147483647, each
preceded by one space, and the run stays inside its buffers (`fault = false`:
no face line is longer than the 1024 characters that fit `str`), `parser` on
the all-zero object counts the face lines in
`polygon_count` and stores the `j`-th face line (from 0, in file order) in face
slot `j`, with `colums` equal to the number of its tokens and the index list
equal to the values of the tokens in the same order; and the file
`v 1.0 2.0 3.0`, `f 1` gives `polygon_count = 1` and the single face `[1]`. -/
theorem face_contents {α : Type} [Zero α] (fopen : String → Option (List Char))
    (scan : List Char → Option (α × α × α)) (name : String) (text : List Char)
    (hopen : fopen name = some text)
    (hwf : ∀ l ∈ getlines text, l.take 2 = ['f', ' '] →
      ∃ toks eol, l = face_text toks eol ∧
        (∀ t ∈ toks, is_index_token t = true) ∧ is_line_end eol = true)
    (hfault : (parser fopen scan (some name) (some empty_object)).fault = false) :
    (∃ e, (parser fopen scan (some name) (some empty_object)).obj = some e ∧
      e.polygon_count =
        ((getlines text).filter (fun l => decide (l.take 2 = ['f', ' ']))).length ∧
      ∀ (j : Nat) (toks : List (List Char)) (eol : List Char),
        ((getlines text).filter (fun l => decide (l.take 2 = ['f', ' '])))[j]? =
          some (face_text toks eol) →
        (∀ t ∈ toks, is_index_token t = true) → is_line_end eol = true →
        face_slot e.polygon_array j =
          some { polygon := some (toks.map digits_value), colums := toks.length }) ∧
    (∃ e, (parser (fun _ => some "v 1.0 2.0 3.0\nf 1\n".toList) sscanf_rat
        (some "a.obj") (some empty_object)).obj = some e ∧
      e.polygon_count = 1 ∧
      e.polygon_array = some [{ polygon := some [1], colums := 1 }]) := by
  have _ := hfault
  refine ⟨?_, ⟨_, rfl, by with_unfolding_all decide, by with_unfolding_all decide⟩⟩
  have hwf1 : ∀ l ∈ getlines text, is_face_line l = true →
      ∃ toks eol, l = face_text toks eol ∧
        (∀ t ∈ toks, is_index_token t = true) ∧ is_line_end eol = true :=
    fun l hl h => hwf l hl ((is_face_line_iff l).1 h)
  obtain ⟨e, he, _, hpc⟩ := parser_result_counts fopen scan name text empty_object hopen
  refine ⟨e, he, ?_, ?_⟩
  · rw [hpc, filter_face_eq, List.countP_eq_length_filter]
    simp [empty_object]
  · intro j toks eol hj htoks heol
    rw [filter_face_eq] at hj
    have hface : 0 < (getlines text).countP is_face_line := by
      rw [List.countP_eq_length_filter]
      by_contra h0
      have : (getlines text).filter is_face_line = [] := List.length_eq_zero.1 (by omega)
      rw [this] at hj
      simp at hj
    obtain ⟨e2, faces, he2, hpa, _, _, _, _, hst, _⟩ :=
      parser_face_list fopen scan name text hopen hface
    rw [he] at he2
    simp only [Option.some.injEq] at he2
    subst he2
    have hs := stored_faces_of_wellformed scan (getlines text) hwf1 1 j toks eol hj htoks heol
    rw [hpa]
    exact hst j _ hs

/-- Face contents on a file with two face lines, one token with leading zeros
among them. -/
theorem face_contents_witness :
    (∀ l ∈ getlines "v 0 0 0\nf 1 22 3\nf 007 1\n".toList, l.take 2 = ['f', ' '] →
      ∃ toks eol, l = face_text toks eol ∧
        (∀ t ∈ toks, is_index_token t = true) ∧ is_line_end eol = true) ∧
    (parser (fun _ => some "v 0 0 0\nf 1 22 3\nf 007 1\n".toList) sscanf_rat
        (some "a.obj") (some empty_object)).fault = false ∧
    ∃ e, (parser (fun _ => some "v 0 0 0\nf 1 22 3\nf 007 1\n".toList) sscanf_rat
        (some "a.obj") (some empty_object)).obj = some e ∧
      e.polygon_count =
        ((getlines "v 0 0 0\nf 1 22 3\nf 007 1\n".toList).filter
          (fun l => decide (l.take 2 = ['f', ' ']))).length ∧
      ∀ (j : Nat) (toks : List (List Char)) (eol : List Char),
        ((getlines "v 0 0 0\nf 1 22 3\nf 007 1\n".toList).filter
          (fun l => decide (l.take 2 = ['f', ' '])))[j]? = some (face_text toks eol) →
        (∀ t ∈ toks, is_index_token t = true) → is_line_end eol = true →
        face_slot e.polygon_array j =
          some { polygon := some (toks.map digits_value), colums := toks.length } :=
  have h : ∀ l ∈ getlines "v 0 0 0\nf 1 22 3\nf 007 1\n".toList, l.take 2 = ['f', ' '] →
      ∃ toks eol, l = face_text toks eol ∧
        (∀ t ∈ toks, is_index_token t = true) ∧ is_line_end eol = true := by
    intro l hl hf
    have hlines : getlines "v 0 0 0\nf 1 22 3\nf 007 1\n".toList =
        ["v 0 0 0\n".toList, "f 1 22 3\n".toList, "f 007 1\n".toList] := by decide
    rw [hlines] at hl
    simp only [List.mem_cons, List.mem_singleton, List.not_mem_nil, or_false] at hl
    rcases hl with rfl | rfl | rfl
    · exact absurd hf (by decide)
    · exact ⟨["1".toList, "22".toList, "3".toList], ['\n'], by decide, by decide, by decide⟩
    · exact ⟨["007".toList, "1".toList], ['\n'], by decide, by decide, by decide⟩
  have hfault : (parser (fun _ => some "v 0 0 0\nf 1 22 3\nf 007 1\n".toList) sscanf_rat
      (some "a.obj") (some empty_object)).fault = false := by with_unfolding_all decide
  ⟨h, hfault, (face_contents (fun _ => some "v 0 0 0\nf 1 22 3\nf 007 1\n".toList)
    sscanf_rat "a.obj" _ rfl h hfault).1⟩

/-- C3 as stated fails for tokens beyond the range of `int`: the single face
line `f 2147483648` consists of one positive decimal numeral, of value
2147483648, and is stored as the face `[2147483649]`; the face line
`f 4294967296` gets no face at all. -/
theorem face_contents_counterexample :
    getlines "f 2147483648\n".toList = [face_text ["2147483648".toList] ['\n']] ∧
    is_numeral "2147483648".toList = true ∧
    digits_value "2147483648".toList = 2147483648 ∧
    (parser (fun _ => some "f 2147483648\n".toList) sscanf_rat (some "a.obj")
        (some empty_object)).obj.map (fun e => face_slot e.polygon_array 0) =
      some (some { polygon := some [2147483649], colums := 1 }) ∧
    getlines "f 4294967296\n".toList = [face_text ["4294967296".toList] ['\n']] ∧
    is_numeral "4294967296".toList = true ∧
    digits_value "4294967296".toList = 4294967296 ∧
    (parser (fun _ => some "f 4294967296\n".toList) sscanf_rat (some "a.obj")
        (some empty_object)).obj.map (fun e => face_slot e.polygon_array 0) =
      some (some { polygon := none, colums := 0 }) := by
  refine ⟨by decide, by decide, by decide, by decide, by decide, by decide, by decide,
    by decide⟩

/-! ## Negative face indices -/

theorem vertex_rows_append {α : Type} (scan : List Char → Option (α × α × α))
    (a b : List (List Char)) :
    vertex_rows scan (a ++ b) = vertex_rows scan a ++ vertex_rows scan b := by
  simp [vertex_rows, List.filterMap_append]

theorem vertex_rows_length {α : Type} (scan : List Char → Option (α × α × α))
    (lines : List (List Char)) :
    (vertex_rows scan lines).length =
      lines.countP (fun b => decide (b.take 2 = ['v', ' ']) && (scan (cstr b)).isSome) := by
  induction lines with
  | nil => rfl
  | cons a ls ih =>
    by_cases hv : is_vertex_line a = true
    · have hv2 : a.take 2 = ['v', ' '] := (is_vertex_line_iff a).1 hv
      cases hs : scan (cstr a) with
      | none => simp [vertex_rows, hv, hs, List.countP_cons] at ih ⊢; exact ih
      | some t => simp [vertex_rows, hv, hs, hv2, List.countP_cons] at ih ⊢; exact ih
    · have hv2 : ¬ a.take 2 = ['v', ' '] := fun h => hv ((is_vertex_line_iff a).2 h)
      simp [vertex_rows, hv, hv2, List.countP_cons] at ih ⊢
      exact ih

theorem stored_faces_append {α : Type} (scan : List Char → Option (α × α × α))
    (a b : List (List Char)) (count : Nat) :
    stored_faces scan count (a ++ b) =
      stored_faces scan count a ++
        stored_faces scan (count + (vertex_rows scan a).length) b := by
  induction a generalizing count with
  | nil => simp [stored_faces, vertex_rows]
  | cons l ls ih =>
    rw [List.cons_append]
    by_cases hv : is_vertex_line l = true
    · cases hs : scan (cstr l) with
      | none =>
        have e1 : ∀ r, stored_faces scan count (l :: r) = stored_faces scan count r := by
          intro r; simp [stored_faces, hv, hs]
        have e2 : vertex_rows scan (l :: ls) = vertex_rows scan ls := by
          simp [vertex_rows, hv, hs]
        rw [e1, e1, e2, ih]
      | some t =>
        have e1 : ∀ r, stored_faces scan count (l :: r) = stored_faces scan (count + 1) r := by
          intro r; simp [stored_faces, hv, hs]
        have e2 : vertex_rows scan (l :: ls) = t :: vertex_rows scan ls := by
          simp [vertex_rows, hv, hs]
        rw [e1, e1, e2, ih, List.length_cons]
        have e3 : count + 1 + (vertex_rows scan ls).length =
            count + ((vertex_rows scan ls).length + 1) := by omega
        rw [e3]
    · have e2 : vertex_rows scan (l :: ls) = vertex_rows scan ls := by
        simp [vertex_rows, hv]
      by_cases hsf : is_stored_face_line l = true
      · have e1 : ∀ r, stored_faces scan count (l :: r) =
            face_of count l :: stored_faces scan count r := by
          intro r; simp [stored_faces, hv, hsf]
        rw [e1, e1, e2, ih, List.cons_append]
      · have e1 : ∀ r, stored_faces scan count (l :: r) = stored_faces scan count r := by
          intro r; simp [stored_faces, hv, hsf]
        rw [e1, e1, e2, ih]

theorem stored_faces_length {α : Type} (scan : List Char → Option (α × α × α))
    (lines : List (List Char)) (count : Nat) :
    (stored_faces scan count lines).length = lines.countP is_stored_face_line := by
  induction lines generalizing count with
  | nil => rfl
  | cons l ls ih =>
    by_cases hv : is_vertex_line l = true
    · have hsf : is_stored_face_line l = false := by
        cases h : is_face_line l
        · simp [is_stored_face_line, h]
        · rw [not_vertex_of_face h] at hv; exact Bool.noConfusion hv
      cases hs : scan (cstr l) with
      | none => simp [stored_faces, hv, hs, hsf, List.countP_cons, ih]
      | some t => simp [stored_faces, hv, hs, hsf, List.countP_cons, ih]
    · by_cases hsf : is_stored_face_line l = true
      · simp [stored_faces, hv, hsf, List.countP_cons, ih]
      · simp [stored_faces, hv, hsf, List.countP_cons, ih]

theorem face_of_cell (count : Nat) (buff : List Char) (p : Nat) (tok : List Char)
    (htok : (strtok_all (cstr buff).tail)[p]? = some tok) (hp : p < first_scan buff) :
    ∃ cells, (face_of count buff).polygon = some cells ∧
      (face_of count buff).colums = first_scan buff ∧
      cells[p]? = some (stored_index count tok) := by
  refine ⟨_, rfl, rfl, ?_⟩
  rw [write_indices_get]
  have hlen : p < (strtok_all (cstr buff).tail).length := by
    by_contra hge
    rw [List.getElem?_eq_none (by omega)] at htok
    exact Option.noConfusion htok
  rw [if_pos ⟨Nat.zero_le _, by omega, by simpa using hp⟩]
  simp [htok]

theorem stored_index_negative (n k : Nat) (ds rest : List Char)
    (hds : is_numeral ds = true)
    (hrest : ∀ c, rest.head? = some c → isdigit c = false)
    (hk : digits_value ds = k) (hk1 : 1 ≤ k) (hkn : k ≤ n) (hn : n < 2147483648) :
    stored_index (n + 1) ('-' :: (ds ++ rest)) = n + 1 - k := by
  simp only [is_numeral, Bool.and_eq_true] at hds
  unfold stored_index
  simp only [atoi_negative_token ds rest hds.2 hrest (by omega), hk]
  rw [if_pos (by omega)]
  omega

/-- C4 (amended). Negative face index: take a face line of the file preceded by
exactly `n` vertex lines from which `scan` reads three numbers, `n` below
`2^31`, and a token `-k` with `1 ≤ k ≤ n` at a position `p` below the count of
the line's first scan (so the face has a cell `p`).  After `parser` on the
all-zero object, on a run that stays inside its buffers (`fault = false`), the
face of that line, in the slot numbered by the face lines
before it that got a face, holds `n + 1 - k` in cell `p`, whatever lines follow;
and with three vertex lines before it `f -1 -2 -3` is stored as `[3, 2, 1]`. -/
theorem negative_index_by_example {α : Type} [Zero α] (fopen : String → Option (List Char))
    (scan : List Char → Option (α × α × α)) (name : String) (text : List Char)
    (hopen : fopen name = some text)
    (before following : List (List Char)) (l : List Char)
    (hlines : getlines text = before ++ l :: following)
    (hface : l.take 2 = ['f', ' '])
    (n : Nat)
    (hn : before.countP
      (fun b => decide (b.take 2 = ['v', ' ']) && (scan (cstr b)).isSome) = n)
    (hrange : n < 2147483648)
    (p k : Nat) (ds rest : List Char)
    (htok : (strtok_all (cstr l).tail)[p]? = some ('-' :: (ds ++ rest)))
    (hds : is_numeral ds = true)
    (hrest : ∀ c, rest.head? = some c → isdigit c = false)
    (hk : digits_value ds = k) (hk1 : 1 ≤ k) (hkn : k ≤ n)
    (hp : p < first_scan l)
    (hfault : (parser fopen scan (some name) (some empty_object)).fault = false) :
    (∃ e face cells, (parser fopen scan (some name) (some empty_object)).obj = some e ∧
      face_slot e.polygon_array (before.countP is_stored_face_line) = some face ∧
      face.polygon = some cells ∧ cells[p]? = some (n + 1 - k)) ∧
    (∃ e, (parser (fun _ => some "v 0 0 0\nv 1 0 0\nv 0 1 0\nf -1 -2 -3\nv 5 5 5\n".toList)
        sscanf_rat (some "a.obj") (some empty_object)).obj = some e ∧
      e.polygon_array = some [{ polygon := some [3, 2, 1], colums := 3 }]) := by
  have _ := hfault
  refine ⟨?_, ⟨_, rfl, by with_unfolding_all decide⟩⟩
  have hf : is_face_line l = true := (is_face_line_iff l).2 hface
  have hv : is_vertex_line l = false := not_vertex_of_face hf
  have hsf : is_stored_face_line l = true := by
    simp [is_stored_face_line, hf]; omega
  have hcount : 0 < (getlines text).countP is_face_line := by
    rw [hlines, List.countP_append, List.countP_cons]
    simp [hf]
  obtain ⟨e, faces, he, hpa, _, _, _, _, hst, _⟩ :=
    parser_face_list fopen scan name text hopen hcount
  have hsplit : stored_faces scan 1 (getlines text) =
      stored_faces scan 1 before ++
        (face_of (n + 1) l :: stored_faces scan (n + 1) following) := by
    rw [hlines, stored_faces_append, vertex_rows_length, hn]
    have e1 : stored_faces scan (1 + n) (l :: following) =
        face_of (1 + n) l :: stored_faces scan (1 + n) following := by
      simp [stored_faces, hv, hsf]
    rw [e1, Nat.add_comm 1 n]
  have hget : (stored_faces scan 1 (getlines text))[before.countP is_stored_face_line]? =
      some (face_of (n + 1) l) := by
    rw [hsplit, ← stored_faces_length scan before 1,
      List.getElem?_append_right (Nat.le_refl _), Nat.sub_self, List.getElem?_cons_zero]
  obtain ⟨cells, hc1, _, hc3⟩ := face_of_cell (n + 1) l p _ htok hp
  refine ⟨e, face_of (n + 1) l, cells, he, ?_, hc1, ?_⟩
  · rw [hpa]
    exact hst _ _ hget
  · rw [hc3, stored_index_negative n k ds rest hds hrest hk hk1 hkn hrange]

/-- Negative index on a file where two vertex lines precede the face line
`f 1 -2` and one follows it. -/
theorem negative_index_by_example_witness :
    getlines "v 0 0 0\nv 1 1 1\nf 1 -2\nv 2 2 2\n".toList =
      ["v 0 0 0\n".toList, "v 1 1 1\n".toList] ++ "f 1 -2\n".toList :: ["v 2 2 2\n".toList] ∧
    (parser (fun _ => some "v 0 0 0\nv 1 1 1\nf 1 -2\nv 2 2 2\n".toList)
        sscanf_rat (some "a.obj") (some empty_object)).fault = false ∧
    ∃ e face cells, (parser (fun _ => some "v 0 0 0\nv 1 1 1\nf 1 -2\nv 2 2 2\n".toList)
        sscanf_rat (some "a.obj") (some empty_object)).obj = some e ∧
      face_slot e.polygon_array
        (["v 0 0 0\n".toList, "v 1 1 1\n".toList].countP is_stored_face_line) = some face ∧
      face.polygon = some cells ∧ cells[1]? = some (2 + 1 - 2) :=
  have h : getlines "v 0 0 0\nv 1 1 1\nf 1 -2\nv 2 2 2\n".toList =
      ["v 0 0 0\n".toList, "v 1 1 1\n".toList] ++ "f 1 -2\n".toList :: ["v 2 2 2\n".toList] := by
    decide
  have hfault : (parser (fun _ => some "v 0 0 0\nv 1 1 1\nf 1 -2\nv 2 2 2\n".toList)
      sscanf_rat (some "a.obj") (some empty_object)).fault = false := by
    with_unfolding_all decide
  ⟨h, hfault,
    (negative_index_by_example (fun _ => some "v 0 0 0\nv 1 1 1\nf 1 -2\nv 2 2 2\n".toList)
      sscanf_rat "a.obj" _ rfl _ _ _ h (by decide) 2 (by with_unfolding_all decide) (by decide)
      1 2 "2".toList ['\n'] (by decide) (by decide) (by decide) (by decide) (by decide)
      (by decide) (by decide) hfault).1⟩

/-- C4 as stated fails on a face line whose first scan stops before the
negative token: in the file `v 0 0 0`, `f 0 -1` the face line is preceded by
exactly one well-formed vertex line and carries the token `-1`, yet the line
gets no face, so no cell holds the index 1. -/
theorem negative_index_by_example_counterexample :
    getlines "v 0 0 0\nf 0 -1\n".toList = ["v 0 0 0\n".toList] ++ ["f 0 -1\n".toList] ∧
    ["v 0 0 0\n".toList].countP
      (fun b => decide (b.take 2 = ['v', ' ']) && (sscanf_rat (cstr b)).isSome) = 1 ∧
    strtok_all (cstr "f 0 -1\n".toList).tail = ["0".toList, "-1\n".toList] ∧
    (parser (fun _ => some "v 0 0 0\nf 0 -1\n".toList) sscanf_rat (some "a.obj")
        (some empty_object)).obj.map (fun e => e.polygon_array) =
      some (some [{ polygon := none, colums := 0 }]) := by
  refine ⟨by decide, by with_unfolding_all decide, by decide, by with_unfolding_all decide⟩

/-! ## Status of the parse pass -/

theorem parse_line_status_bad {α : Type} (scan : List Char → Option (α × α × α))
    (st : parse_state α) (buff : List Char)
    (h : is_vertex_line buff = true ∧ scan (cstr buff) = none) :
    (parse_line scan st buff).status = status.ERROR := by
  simp [parse_line, h.1, parse_vertex, h.2]

theorem parse_line_status_keep {α : Type} (scan : List Char → Option (α × α × α))
    (st : parse_state α) (buff : List Char)
    (h : ¬ (is_vertex_line buff = true ∧ scan (cstr buff) = none)) :
    (parse_line scan st buff).status = st.status := by
  unfold parse_line
  by_cases hv : is_vertex_line buff = true
  · cases hs : scan (cstr buff) with
    | none => exact absurd ⟨hv, hs⟩ h
    | some t =>
      obtain ⟨x, y, z⟩ := t
      simp only [hv, parse_vertex, hs, if_true]
      split <;> rfl
  · by_cases hf : is_face_line buff = true
    · simp [hv, hf, (parse_face_vertex_part st buff).1]
    · simp [hv, hf]

theorem parse_fold_status {α : Type} (scan : List Char → Option (α × α × α))
    (lines : List (List Char)) (st : parse_state α) :
    (lines.foldl (parse_line scan) st).status = status.ERROR ↔
      st.status = status.ERROR ∨
      ∃ l ∈ lines, is_vertex_line l = true ∧ scan (cstr l) = none := by
  induction lines generalizing st with
  | nil => simp
  | cons l ls ih =>
    rw [List.foldl_cons, ih]
    by_cases hbad : is_vertex_line l = true ∧ scan (cstr l) = none
    · rw [parse_line_status_bad scan st l hbad]
      exact ⟨fun _ => Or.inr ⟨l, List.mem_cons_self l ls, hbad⟩, fun _ => Or.inl rfl⟩
    · rw [parse_line_status_keep scan st l hbad]
      constructor
      · rintro (h | ⟨a, ha, hb⟩)
        · exact Or.inl h
        · exact Or.inr ⟨a, List.mem_cons_of_mem l ha, hb⟩
      · rintro (h | ⟨a, ha, hb⟩)
        · exact Or.inl h
        · rcases List.mem_cons.1 ha with rfl | ha2
          · exact absurd hb hbad
          · exact Or.inr ⟨a, ha2, hb⟩

/-- C6. A malformed vertex is fatal: when some line of the file starts with `v`
and a space and `scan` cannot read three numbers from it, `parser` returns
`ERROR` on every run that stays inside its buffers (`fault = false`), whatever
the other lines are and whatever object it is called on; the line `v 1.0 2.0`
is such a line for `sscanf_rat`. -/
theorem malformed_vertex_is_fatal {α : Type} [Zero α] (fopen : String → Option (List Char))
    (scan : List Char → Option (α × α × α)) (name : String) (text : List Char)
    (d : data_object α) (hopen : fopen name = some text)
    (hbad : ∃ l ∈ getlines text, l.take 2 = ['v', ' '] ∧ scan (cstr l) = none)
    (hfault : (parser fopen scan (some name) (some d)).fault = false) :
    (parser fopen scan (some name) (some d)).ret = status.ERROR ∧
    sscanf_rat (cstr "v 1.0 2.0\n".toList) = none ∧
    sscanf_rat (cstr "v 1.0 2.0".toList) = none := by
  have _ := hfault
  refine ⟨?_, by with_unfolding_all decide, by with_unfolding_all decide⟩
  rw [parser_open fopen scan name text d hopen]
  obtain ⟨l, hl, hv, hs⟩ := hbad
  exact (parse_fold_status scan _ _).2 (Or.inr ⟨l, hl, (is_vertex_line_iff l).2 hv, hs⟩)

/-- A malformed vertex line between well-formed lines. -/
theorem malformed_vertex_is_fatal_witness :
    (∃ l ∈ getlines "v 0 0 0\nv 1.0 2.0\nv 1 1 1\nf 1 2\n".toList,
      l.take 2 = ['v', ' '] ∧ sscanf_rat (cstr l) = none) ∧
    (parser (fun _ => some "v 0 0 0\nv 1.0 2.0\nv 1 1 1\nf 1 2\n".toList) sscanf_rat
      (some "a.obj") (some empty_object)).fault = false ∧
    (parser (fun _ => some "v 0 0 0\nv 1.0 2.0\nv 1 1 1\nf 1 2\n".toList) sscanf_rat
      (some "a.obj") (some empty_object)).ret = status.ERROR :=
  have h : ∃ l ∈ getlines "v 0 0 0\nv 1.0 2.0\nv 1 1 1\nf 1 2\n".toList,
      l.take 2 = ['v', ' '] ∧ sscanf_rat (cstr l) = none :=
    ⟨"v 1.0 2.0\n".toList, by decide, by decide, by with_unfolding_all decide⟩
  have hfault : (parser (fun _ => some "v 0 0 0\nv 1.0 2.0\nv 1 1 1\nf 1 2\n".toList)
      sscanf_rat (some "a.obj") (some empty_object)).fault = false := by
    with_unfolding_all decide
  ⟨h, hfault,
    (malformed_vertex_is_fatal (fun _ => some "v 0 0 0\nv 1.0 2.0\nv 1 1 1\nf 1 2\n".toList)
      sscanf_rat "a.obj" _ empty_object rfl h hfault).1⟩

/-- C5. Bad arguments and unopenable files: `parser` returns `ERROR` for a null
`file_name`, for a null `data_obj`, and for a file that cannot be opened, and in
each case the object is exactly the one passed in. -/
theorem parser_rejects_bad_arguments {α : Type} [Zero α] (fopen : String → Option (List Char))
    (scan : List Char → Option (α × α × α)) :
    (∀ d : Option (data_object α),
      (parser fopen scan none d).ret = status.ERROR ∧ (parser fopen scan none d).obj = d) ∧
    (∀ file_name : Option String,
      (parser fopen scan file_name (none : Option (data_object α))).ret = status.ERROR ∧
      (parser fopen scan file_name (none : Option (data_object α))).obj = none) ∧
    (∀ (name : String) (d : data_object α), fopen name = none →
      (parser fopen scan (some name) (some d)).ret = status.ERROR ∧
      (parser fopen scan (some name) (some d)).obj = some d) := by
  refine ⟨?_, ?_, ?_⟩
  · intro d
    simp [parser]
  · intro file_name
    cases file_name <;> simp [parser]
  · intro name d h
    simp [parser, h]

/-- A file that cannot be opened, on an object with every field set. -/
theorem parser_rejects_bad_arguments_witness :
    (parser (fun _ => none) sscanf_rat (some "non_existent_file.txt")
      (some { vertex_count := 7
              vertex_array := { matrix := some [1, 2, 3], rows := 1, colums := 3 }
              polygon_count := 2
              edges_count := 0
              all_edges_count := 5
              polygon_array := some [{ polygon := some [1, 2], colums := 2 }] })).ret
      = status.ERROR ∧
    (parser (fun _ => none) sscanf_rat (some "non_existent_file.txt")
      (some { vertex_count := 7
              vertex_array := { matrix := some [1, 2, 3], rows := 1, colums := 3 }
              polygon_count := 2
              edges_count := 0
              all_edges_count := 5
              polygon_array := some [{ polygon := some [1, 2], colums := 2 }] })).obj
      = some { vertex_count := 7
               vertex_array := { matrix := some [1, 2, 3], rows := 1, colums := 3 }
               polygon_count := 2
               edges_count := 0
               all_edges_count := 5
               polygon_array := some [{ polygon := some [1, 2], colums := 2 }] } :=
  (parser_rejects_bad_arguments (fun _ => none) sscanf_rat).2.2 "non_existent_file.txt" _ rfl

/-! ## Runs that keep within their buffers -/

theorem write_indices_in_bounds (count : Nat) (toks : List (List Char)) (j : Nat)
    (cells : List Nat) (h : j + toks.length ≤ cells.length) :
    (write_indices count toks j cells).2 = false := by
  induction toks generalizing j cells with
  | nil => rfl
  | cons t ts ih =>
    simp only [List.length_cons] at h
    simp only [write_indices, Bool.or_eq_false_iff, decide_eq_false_iff_not, Nat.not_le]
    exact ⟨ih (j + 1) _ (by rw [List.length_set]; omega), by omega⟩

theorem parse_vertex_step {α : Type} (scan : List Char → Option (α × α × α))
    (st : parse_state α) (buff : List Char) (cells : List α)
    (hm : st.data_obj.vertex_array.matrix = some cells) :
    (∃ cells2, (parse_vertex scan st buff).data_obj.vertex_array.matrix = some cells2 ∧
      cells2.length = cells.length) ∧
    (parse_vertex scan st buff).i ≤ st.i + 3 ∧
    (st.fault = false → st.i + 3 ≤ cells.length → st.i + 3 ≤ 2147483647 →
      (parse_vertex scan st buff).fault = false) := by
  unfold parse_vertex
  cases hs : scan (cstr buff) with
  | none => exact ⟨⟨cells, hm, rfl⟩, by simp, fun h _ _ => h⟩
  | some t =>
    obtain ⟨x, y, z⟩ := t
    simp only [hm]
    refine ⟨⟨_, rfl, by simp⟩, by simp, ?_⟩
    intro h1 h2 h3
    simp only [h1, Bool.false_or, Bool.or_eq_false_iff, decide_eq_false_iff_not, Nat.not_lt]
    exact ⟨h2, h3⟩

theorem parse_face_stored_fault {α : Type} (st : parse_state α) (buff : List Char)
    (faces : List polygon_t) (hm : st.data_obj.polygon_array = some faces)
    (hedges : st.data_obj.edges_count = 0)
    (hslot : faces[st.m]? = some { polygon := none, colums := 0 })
    (hpos : 0 < first_scan buff)
    (hfault : st.fault = false) (hlen : (cstr buff).length ≤ 1024)
    (htoks : (strtok_all (cstr buff).tail).length = first_scan buff)
    (hint : st.m + 1 ≤ 2147483647) :
    (parse_face st buff).fault = false := by
  have hlt : st.m < faces.length := by
    by_contra hge
    rw [List.getElem?_eq_none (by omega)] at hslot
    exact Option.noConfusion hslot
  have hpos2 : first_scan buff > 0 := hpos
  have hw := write_indices_in_bounds st.count (strtok_all (cstr buff).tail) 0
    (List.replicate (first_scan buff) 0) (by simp [htoks])
  have h1 : ¬ (1024 < (cstr buff).length) := by omega
  have h2 : ¬ (2147483647 < st.m + 1) := by omega
  simp [parse_face, hm, hedges, face_slot, slot_pointer, hslot, create_polygon, served, set_face_slot,
    hpos2, hlt, hfault, hw, h1, h2]

theorem parse_face_skipped_fault {α : Type} (st : parse_state α) (buff : List Char)
    (faces : List polygon_t) (hm : st.data_obj.polygon_array = some faces)
    (hedges : st.data_obj.edges_count = 0)
    (hslot : faces[st.m]? = some { polygon := none, colums := 0 })
    (hzero : first_scan buff = 0)
    (hfault : st.fault = false) (hlen : (cstr buff).length ≤ 1024) :
    (parse_face st buff).fault = false := by
  have h1 : ¬ (1024 < (cstr buff).length) := by omega
  simp [parse_face, hm, hedges, face_slot, slot_pointer, hslot, create_polygon, served, set_face_slot,
    hzero, hfault, h1]

theorem parse_fold_no_fault {α : Type} (scan : List Char → Option (α × α × α))
    (lines : List (List Char)) (st : parse_state α) (cells : List α)
    (hfault : st.fault = false)
    (hm : st.data_obj.vertex_array.matrix = some cells)
    (hfit : st.i + 3 * lines.countP is_vertex_line ≤ cells.length)
    (hint : st.i + 3 * lines.countP is_vertex_line ≤ 2147483647)
    (hedges : st.data_obj.edges_count = 0)
    (hfaces : lines.countP is_face_line = 0 ∨
      ∃ faces, st.data_obj.polygon_array = some faces ∧
        (∀ k, st.m ≤ k → k < faces.length →
          faces[k]? = some { polygon := none, colums := 0 }) ∧
        st.m + lines.countP is_face_line ≤ faces.length ∧
        st.m + lines.countP is_face_line ≤ 2147483647)
    (htidy : ∀ l ∈ lines, is_face_line l = true →
      (cstr l).length ≤ 1024 ∧
      (first_scan l = 0 ∨ (strtok_all (cstr l).tail).length = first_scan l)) :
    (lines.foldl (parse_line scan) st).fault = false := by
  induction lines generalizing st cells with
  | nil => exact hfault
  | cons l ls ih =>
    rw [List.foldl_cons]
    have htidy2 : ∀ a ∈ ls, is_face_line a = true →
        (cstr a).length ≤ 1024 ∧
        (first_scan a = 0 ∨ (strtok_all (cstr a).tail).length = first_scan a) :=
      fun a ha h => htidy a (List.mem_cons_of_mem l ha) h
    by_cases hv : is_vertex_line l = true
    · have hf : is_face_line l = false := by
        cases h : is_face_line l
        · rfl
        · rw [not_vertex_of_face h] at hv; exact Bool.noConfusion hv
      have hst : parse_line scan st l = parse_vertex scan st l := by
        simp [parse_line, hv]
      have hcv : (l :: ls).countP is_vertex_line = ls.countP is_vertex_line + 1 := by
        simp [List.countP_cons, hv]
      have hcf : (l :: ls).countP is_face_line = ls.countP is_face_line := by
        simp [List.countP_cons, hf]
      rw [hcv] at hfit hint
      rw [hcf] at hfaces
      obtain ⟨⟨cells2, s1, s2⟩, s3, s4⟩ := parse_vertex_step scan st l cells hm
      obtain ⟨p1, p2, _, p4, _⟩ := parse_vertex_face_part scan st l
      rw [hst]
      apply ih (parse_vertex scan st l) cells2 (s4 hfault (by omega) (by omega)) s1
        (by rw [s2]; omega) (by omega) (by rw [p2]; exact hedges)
      · rw [p1, p4]; exact hfaces
      · exact htidy2
    · by_cases hf : is_face_line l = true
      · have hst : parse_line scan st l = parse_face st l := by
          simp [parse_line, hv, hf]
        have hcv : (l :: ls).countP is_vertex_line = ls.countP is_vertex_line := by
          simp [List.countP_cons, hv]
        have hcf : (l :: ls).countP is_face_line = ls.countP is_face_line + 1 := by
          simp [List.countP_cons, hf]
        rw [hcv] at hfit hint
        rw [hcf] at hfaces
        obtain ⟨faces, hpa, hfresh, hroom, hroom2⟩ : ∃ faces,
            st.data_obj.polygon_array = some faces ∧
            (∀ k, st.m ≤ k → k < faces.length →
              faces[k]? = some { polygon := none, colums := 0 }) ∧
            st.m + (ls.countP is_face_line + 1) ≤ faces.length ∧
            st.m + (ls.countP is_face_line + 1) ≤ 2147483647 := by
          rcases hfaces with h0 | h1
          · omega
          · exact h1
        have hlt : st.m < faces.length := by omega
        have hslot := hfresh st.m (Nat.le_refl _) hlt
        obtain ⟨_, _, r3, r4⟩ := parse_face_vertex_part st l
        obtain ⟨t1, t2⟩ := htidy l (List.mem_cons_self l ls) hf
        rw [hst]
        by_cases hpos : 0 < first_scan l
        · obtain ⟨q1, q2, _, q4⟩ := parse_face_stored st l faces hpa hedges hslot hpos
          have htk : (strtok_all (cstr l).tail).length = first_scan l := by
            rcases t2 with h0 | h1
            · omega
            · exact h1
          have hnf := parse_face_stored_fault st l faces hpa hedges hslot hpos hfault t1 htk
            (by omega)
          apply ih (parse_face st l) cells hnf (by rw [r4]; exact hm)
            (by rw [r3]; exact hfit) (by rw [r3]; exact hint) q2
          · refine Or.inr ⟨_, q4, ?_, ?_, ?_⟩
            · intro k hk1 hk2
              rw [q1] at hk1
              rw [List.length_set] at hk2
              rw [List.getElem?_set, if_neg (by omega)]
              exact hfresh k (by omega) hk2
            · rw [q1, List.length_set]; omega
            · rw [q1]; omega
          · exact htidy2
        · have hzero : first_scan l = 0 := by omega
          obtain ⟨q1, q2, _, q4⟩ := parse_face_skipped st l faces hpa hedges hslot hzero
          have hnf := parse_face_skipped_fault st l faces hpa hedges hslot hzero hfault t1
          apply ih (parse_face st l) cells hnf (by rw [r4]; exact hm)
            (by rw [r3]; exact hfit) (by rw [r3]; exact hint) q2
          · refine Or.inr ⟨_, q4, ?_, ?_, ?_⟩
            · intro k hk1 hk2
              rw [q1] at hk1
              rw [List.length_set] at hk2
              rw [List.getElem?_set]
              split_ifs
              · rfl
              · exact hfresh k hk1 hk2
            · rw [q1, List.length_set]; omega
            · rw [q1]; omega
          · exact htidy2
      · have hst : parse_line scan st l = st := by
          simp [parse_line, hv, hf]
        have hcv : (l :: ls).countP is_vertex_line = ls.countP is_vertex_line := by
          simp [List.countP_cons, hv]
        have hcf : (l :: ls).countP is_face_line = ls.countP is_face_line := by
          simp [List.countP_cons, hf]
        rw [hcv] at hfit hint
        rw [hcf] at hfaces
        rw [hst]
        exact ih st cells hfault hm hfit hint hedges hfaces htidy2

/-- On a file whose face lines fit the copy buffer `str` (at most 1024
characters) and whose tokens all convert to non-zero or whose first token does
not, and which has fewer vertex lines than `int` can index, `parser` on the
all-zero object ends with `fault = false`: no statement of the run leaves the
block it addresses. -/
theorem parser_keeps_within_buffers {α : Type} [Zero α]
    (fopen : String → Option (List Char)) (scan : List Char → Option (α × α × α))
    (name : String) (text : List Char) (hopen : fopen name = some text)
    (htidy : ∀ l ∈ getlines text, is_face_line l = true →
      (cstr l).length ≤ 1024 ∧
      (first_scan l = 0 ∨ (strtok_all (cstr l).tail).length = first_scan l))
    (hvertices : 3 * ((getlines text).countP is_vertex_line + 1) ≤ 2147483647)
    (hfaces : (getlines text).countP is_face_line ≤ 2147483647) :
    (parser fopen scan (some name) (some empty_object)).fault = false := by
  rw [parser_open fopen scan name text _ hopen]
  obtain ⟨p1, _, p3⟩ := prepared_faces (α := α) text
  have hmat : (prepared text (empty_object : data_object α)).vertex_array.matrix =
      some (List.replicate (((getlines text).countP is_vertex_line + 1) * 3) 0) := by
    have h := prepared_matrix text (empty_object : data_object α)
      (by simp only [empty_object]; omega)
    simpa [empty_object] using h
  refine parse_fold_no_fault scan (getlines text)
    { status := status.OK, count := 1, i := 3, m := 0,
      data_obj := prepared text (empty_object : data_object α), fault := false }
    (List.replicate (((getlines text).countP is_vertex_line + 1) * 3) 0) rfl hmat
    ?_ ?_ p1 ?_ htidy
  · show 3 + 3 * _ ≤ _
    rw [List.length_replicate]
    omega
  · show 3 + 3 * _ ≤ _
    omega
  · by_cases h0 : (getlines text).countP is_face_line = 0
    · exact Or.inl h0
    · refine Or.inr ⟨_, p3 (by omega), ?_, ?_, ?_⟩
      · intro k _ hk
        rw [List.length_replicate] at hk
        simp [List.getElem?_replicate, hk]
      · show 0 + _ ≤ _
        rw [List.length_replicate]
        omega
      · show 0 + _ ≤ _
        omega

/-! ## The loops of the transforms -/

theorem update_cell_get {α : Type} (f : α → α) (i j : Nat) (m : List α) :
    (update_cell f i m)[j]? = if j = i then (m[j]?).map f else m[j]? := by
  unfold update_cell
  cases h : m[i]? with
  | none =>
    by_cases hj : j = i
    · subst hj; simp [h]
    · simp [hj]
  | some v =>
    by_cases hj : j = i
    · subst hj
      have hlt : j < m.length := by
        by_contra hge
        rw [List.getElem?_eq_none (by omega)] at h
        exact Option.noConfusion h
      simp [h, List.getElem?_set, hlt]
    · have hij : i ≠ j := fun e => hj e.symm
      simp [List.getElem?_set, hij, hj]

theorem update_cell_length {α : Type} (f : α → α) (i : Nat) (m : List α) :
    (update_cell f i m).length = m.length := by
  unfold update_cell
  split <;> simp

theorem for_loop_length {α : Type} (step bound : Nat) (body : Nat → List α → List α)
    (hbody : ∀ i m, (body i m).length = m.length) (fuel i : Nat) (m : List α) :
    (for_loop step bound body fuel i m).length = m.length := by
  induction fuel generalizing i m with
  | zero => rfl
  | succ n ih =>
    unfold for_loop
    split_ifs
    · rw [ih, hbody]
    · rfl

theorem for_loop_cell_step3 {α : Type} (f : α → α) (bound fuel i j : Nat) (m : List α)
    (hfuel : bound ≤ i + 3 * fuel) :
    (for_loop 3 bound (update_cell f) fuel i m)[j]? =
      if i ≤ j ∧ j < bound ∧ (j - i) % 3 = 0 then (m[j]?).map f else m[j]? := by
  induction fuel generalizing i m with
  | zero =>
    have hno : ¬ (i ≤ j ∧ j < bound ∧ (j - i) % 3 = 0) := by omega
    simp [for_loop, hno]
  | succ n ih =>
    unfold for_loop
    by_cases hi : i < bound
    · rw [if_pos hi, ih (i + 3) _ (by omega), update_cell_get]
      by_cases hj : j = i
      · subst hj
        have h1 : ¬ (j + 3 ≤ j ∧ j < bound ∧ (j - (j + 3)) % 3 = 0) := by omega
        have h2 : j ≤ j ∧ j < bound ∧ (j - j) % 3 = 0 := by omega
        simp [h1, h2]
      · by_cases hc : i ≤ j ∧ j < bound ∧ (j - i) % 3 = 0
        · have h1 : i + 3 ≤ j ∧ j < bound ∧ (j - (i + 3)) % 3 = 0 := by omega
          simp [h1, hc, hj]
        · have h1 : ¬ (i + 3 ≤ j ∧ j < bound ∧ (j - (i + 3)) % 3 = 0) := by omega
          simp [h1, hc, hj]
    · have hno : ¬ (i ≤ j ∧ j < bound ∧ (j - i) % 3 = 0) := by omega
      simp [hi, hno]

theorem for_loop_cell_step1 {α : Type} (f : α → α) (bound fuel i j : Nat) (m : List α)
    (hfuel : bound ≤ i + fuel) :
    (for_loop 1 bound (update_cell f) fuel i m)[j]? =
      if i ≤ j ∧ j < bound then (m[j]?).map f else m[j]? := by
  induction fuel generalizing i m with
  | zero =>
    have hno : ¬ (i ≤ j ∧ j < bound) := by omega
    simp [for_loop, hno]
  | succ n ih =>
    unfold for_loop
    by_cases hi : i < bound
    · rw [if_pos hi, ih (i + 1) _ (by omega), update_cell_get]
      by_cases hj : j = i
      · subst hj
        have h1 : ¬ (j + 1 ≤ j ∧ j < bound) := by omega
        have h2 : j ≤ j ∧ j < bound := by omega
        simp [h1, h2]
      · by_cases hc : i ≤ j ∧ j < bound
        · have h1 : i + 1 ≤ j ∧ j < bound := by omega
          simp [h1, hc, hj]
        · have h1 : ¬ (i + 1 ≤ j ∧ j < bound) := by omega
          simp [h1, hc, hj]
    · have hno : ¬ (i ≤ j ∧ j < bound) := by omega
      simp [hi, hno]

/-- The translate loop of axis `a` (`a = 0, 1, 2` for `move_x`, `move_y`,
`move_z`): exactly the cells `3 r + a` of the rows `1 ≤ r ≤ vertex_count` are
updated. -/
theorem move_loop_get {α : Type} (f : α → α) (vc a j : Nat) (m : List α) (ha : a < 3) :
    (for_loop 3 ((vc + 1) * 3) (update_cell f) ((vc + 1) * 3) (3 + a) m)[j]? =
      if 1 ≤ j / 3 ∧ j / 3 ≤ vc ∧ j % 3 = a then (m[j]?).map f else m[j]? := by
  rw [for_loop_cell_step3 f _ _ _ _ _ (by omega)]
  by_cases hc : 1 ≤ j / 3 ∧ j / 3 ≤ vc ∧ j % 3 = a
  · have h1 : 3 + a ≤ j ∧ j < (vc + 1) * 3 ∧ (j - (3 + a)) % 3 = 0 := by omega
    simp [hc, h1]
  · have h1 : ¬ (3 + a ≤ j ∧ j < (vc + 1) * 3 ∧ (j - (3 + a)) % 3 = 0) := by omega
    simp only [if_neg hc, if_neg h1]

theorem move_x_cells {α : Type} [Add α] [Sub α] (d : data_object α) (new_value old_value : α)
    (cells : List α) (hm : d.vertex_array.matrix = some cells) :
    ∃ cells2, (move_x d new_value old_value).vertex_array.matrix = some cells2 ∧
      cells2.length = cells.length ∧
      ∀ j, cells2[j]? =
        if 1 ≤ j / 3 ∧ j / 3 ≤ d.vertex_count ∧ j % 3 = 0 then
          (cells[j]?).map (fun v => v + (new_value - old_value))
        else cells[j]? := by
  have heq : (move_x d new_value old_value).vertex_array.matrix =
      some (for_loop 3 ((d.vertex_count + 1) * 3)
        (update_cell (fun v => v + (new_value - old_value)))
        ((d.vertex_count + 1) * 3) 3 cells) := by
    simp only [move_x, hm, with_cells]
  refine ⟨_, heq, ?_, ?_⟩
  · exact for_loop_length _ _ _ (update_cell_length _) _ _ _
  · intro j
    exact move_loop_get _ d.vertex_count 0 j cells (by omega)

theorem move_y_cells {α : Type} [Add α] [Sub α] (d : data_object α) (new_value old_value : α)
    (cells : List α) (hm : d.vertex_array.matrix = some cells) :
    ∃ cells2, (move_y d new_value old_value).vertex_array.matrix = some cells2 ∧
      cells2.length = cells.length ∧
      ∀ j, cells2[j]? =
        if 1 ≤ j / 3 ∧ j / 3 ≤ d.vertex_count ∧ j % 3 = 1 then
          (cells[j]?).map (fun v => v + (new_value - old_value))
        else cells[j]? := by
  have heq : (move_y d new_value old_value).vertex_array.matrix =
      some (for_loop 3 ((d.vertex_count + 1) * 3)
        (update_cell (fun v => v + (new_value - old_value)))
        ((d.vertex_count + 1) * 3) 4 cells) := by
    simp only [move_y, hm, with_cells]
  refine ⟨_, heq, ?_, ?_⟩
  · exact for_loop_length _ _ _ (update_cell_length _) _ _ _
  · intro j
    exact move_loop_get _ d.vertex_count 1 j cells (by omega)

theorem move_z_cells {α : Type} [Add α] [Sub α] (d : data_object α) (new_value old_value : α)
    (cells : List α) (hm : d.vertex_array.matrix = some cells) :
    ∃ cells2, (move_z d new_value old_value).vertex_array.matrix = some cells2 ∧
      cells2.length = cells.length ∧
      ∀ j, cells2[j]? =
        if 1 ≤ j / 3 ∧ j / 3 ≤ d.vertex_count ∧ j % 3 = 2 then
          (cells[j]?).map (fun v => v + (new_value - old_value))
        else cells[j]? := by
  have heq : (move_z d new_value old_value).vertex_array.matrix =
      some (for_loop 3 ((d.vertex_count + 1) * 3)
        (update_cell (fun v => v + (new_value - old_value)))
        ((d.vertex_count + 1) * 3) 5 cells) := by
    simp only [move_z, hm, with_cells]
  refine ⟨_, heq, ?_, ?_⟩
  · exact for_loop_length _ _ _ (update_cell_length _) _ _ _
  · intro j
    exact move_loop_get _ d.vertex_count 2 j cells (by omega)

theorem translated_of_get {α : Type} [Add α] (a vc : Nat) (delta : α) (before after : List α)
    (ha : a < 3) (hsize : (vc + 1) * 3 ≤ before.length) (hlen : after.length = before.length)
    (hget : ∀ j, after[j]? =
      if 1 ≤ j / 3 ∧ j / 3 ≤ vc ∧ j % 3 = a then (before[j]?).map (fun v => v + delta)
      else before[j]?) :
    translated a vc delta before after := by
  refine ⟨hlen, ?_, ?_⟩
  · intro r h1 h2
    have hlt : 3 * r + a < before.length := by omega
    refine ⟨before[3 * r + a], List.getElem?_eq_getElem hlt, ?_⟩
    rw [hget, if_pos (by omega), List.getElem?_eq_getElem hlt]
    rfl
  · intro j hj
    rw [hget, if_neg]
    rintro ⟨h1, h2, h3⟩
    exact hj (j / 3) h1 h2 (by omega)

/-- C7. Translate postcondition and frame: on a mesh whose buffer holds the rows
`0..vertex_count`, `move_x`, `move_y` and `move_z` add `new - old` to the x, y,
z coordinate respectively of every row `1 ≤ r ≤ vertex_count` and leave every
other cell as it was (row 0, the two other coordinates of each row, any cell
beyond the rows); on the test object with row 1 = (1, 1, 1), moving with
(5, 1) gives the coordinate 5. -/
theorem translate_postcondition {α : Type} [Add α] [Sub α] (d : data_object α)
    (new_value old_value : α) (cells : List α)
    (hm : d.vertex_array.matrix = some cells)
    (hsize : (d.vertex_count + 1) * 3 ≤ cells.length) :
    (∃ after, (move_x d new_value old_value).vertex_array.matrix = some after ∧
      translated 0 d.vertex_count (new_value - old_value) cells after) ∧
    (∃ after, (move_y d new_value old_value).vertex_array.matrix = some after ∧
      translated 1 d.vertex_count (new_value - old_value) cells after) ∧
    (∃ after, (move_z d new_value old_value).vertex_array.matrix = some after ∧
      translated 2 d.vertex_count (new_value - old_value) cells after) ∧
    (move_x (initialize_data_object 1 : data_object ℚ) 5 1).vertex_array.matrix =
      some [0, 0, 0, 5, 1, 1] ∧
    (move_y (initialize_data_object 1 : data_object ℚ) 5 1).vertex_array.matrix =
      some [0, 0, 0, 1, 5, 1] ∧
    (move_z (initialize_data_object 1 : data_object ℚ) 5 1).vertex_array.matrix =
      some [0, 0, 0, 1, 1, 5] := by
  refine ⟨?_, ?_, ?_, by with_unfolding_all decide, by with_unfolding_all decide,
    by with_unfolding_all decide⟩
  · obtain ⟨after, h1, h2, h3⟩ := move_x_cells d new_value old_value cells hm
    exact ⟨after, h1, translated_of_get 0 _ _ _ _ (by omega) hsize h2 h3⟩
  · obtain ⟨after, h1, h2, h3⟩ := move_y_cells d new_value old_value cells hm
    exact ⟨after, h1, translated_of_get 1 _ _ _ _ (by omega) hsize h2 h3⟩
  · obtain ⟨after, h1, h2, h3⟩ := move_z_cells d new_value old_value cells hm
    exact ⟨after, h1, translated_of_get 2 _ _ _ _ (by omega) hsize h2 h3⟩

/-- Translation along y on the test object with two vertices. -/
theorem translate_postcondition_witness :
    (initialize_data_object 2 : data_object ℚ).vertex_array.matrix =
      some [0, 0, 0, 1, 1, 1, 2, 2, 2] ∧
    ((initialize_data_object 2 : data_object ℚ).vertex_count + 1) * 3 ≤
      [(0 : ℚ), 0, 0, 1, 1, 1, 2, 2, 2].length ∧
    ∃ after, (move_y (initialize_data_object 2 : data_object ℚ) 7 3).vertex_array.matrix =
        some after ∧
      translated 1 2 (7 - 3 : ℚ) [0, 0, 0, 1, 1, 1, 2, 2, 2] after :=
  have h1 : (initialize_data_object 2 : data_object ℚ).vertex_array.matrix =
      some [0, 0, 0, 1, 1, 1, 2, 2, 2] := by with_unfolding_all decide
  have h2 : ((initialize_data_object 2 : data_object ℚ).vertex_count + 1) * 3 ≤
      [(0 : ℚ), 0, 0, 1, 1, 1, 2, 2, 2].length := by decide
  ⟨h1, h2, (translate_postcondition (initialize_data_object 2 : data_object ℚ) 7 3
    [0, 0, 0, 1, 1, 1, 2, 2, 2] h1 h2).2.1⟩

theorem update_pair_length {α : Type} (p q : Nat) (f g : α → α → α) (i : Nat) (m : List α) :
    (update_pair p q f g i m).length = m.length := by
  unfold update_pair
  split <;> simp

theorem update_pair_get {α : Type} (p q : Nat) (f g : α → α → α) (i j : Nat) (m : List α)
    (a b : α) (ha : m[i + p]? = some a) (hb : m[i + q]? = some b) :
    (update_pair p q f g i m)[j]? =
      if j = i + q then some (g a b) else if j = i + p then some (f a b) else m[j]? := by
  have hp : i + p < m.length := by
    by_contra hge
    rw [List.getElem?_eq_none (by omega)] at ha
    exact Option.noConfusion ha
  have hq : i + q < m.length := by
    by_contra hge
    rw [List.getElem?_eq_none (by omega)] at hb
    exact Option.noConfusion hb
  simp only [update_pair, ha, hb, List.getElem?_set, List.length_set]
  by_cases h1 : j = i + q
  · subst h1; simp [hq]
  · have h1b : ¬ (i + q = j) := fun e => h1 e.symm
    by_cases h2 : j = i + p
    · subst h2
      have hqp : ¬ (q = p) := fun e => h1 (by rw [e])
      simp [h1, hp, hqp]
    · have h2b : ¬ (i + p = j) := fun e => h2 e.symm
      simp [h1, h2, h1b, h2b]

/-- The rotation loop over rows of three cells: the cells `p` and `q` of every
row below `bound` receive `f` and `g` of the row's previous cells `p` and `q`,
and nothing else changes. -/
theorem rotate_loop_spec {α : Type} (p q : Nat) (f g : α → α → α) (bound : Nat)
    (hp : p < 3) (hq : q < 3) (hpq : p ≠ q) (hb3 : bound % 3 = 0)
    (fuel i : Nat) (m : List α) (hi : i % 3 = 0) (hsize : bound ≤ m.length)
    (hfuel : bound ≤ i + 3 * fuel) :
    (∀ j, (j < i ∨ bound ≤ j ∨ (j % 3 ≠ p ∧ j % 3 ≠ q)) →
      (for_loop 3 bound (update_pair p q f g) fuel i m)[j]? = m[j]?) ∧
    (∀ r, i ≤ 3 * r → 3 * r < bound → ∀ a b,
      m[3 * r + p]? = some a → m[3 * r + q]? = some b →
      (for_loop 3 bound (update_pair p q f g) fuel i m)[3 * r + p]? = some (f a b) ∧
      (for_loop 3 bound (update_pair p q f g) fuel i m)[3 * r + q]? = some (g a b)) := by
  induction fuel generalizing i m with
  | zero =>
    refine ⟨fun j _ => rfl, ?_⟩
    intro r h1 h2
    omega
  | succ n ih =>
    unfold for_loop
    by_cases hlt : i < bound
    · rw [if_pos hlt]
      have hpl : i + p < m.length := by omega
      have hql : i + q < m.length := by omega
      have ha0 := List.getElem?_eq_getElem hpl
      have hb0 := List.getElem?_eq_getElem hql
      have hget := fun j => update_pair_get p q f g i j m _ _ ha0 hb0
      obtain ⟨ih1, ih2⟩ := ih (i + 3) (update_pair p q f g i m) (by omega)
        (by rw [update_pair_length]; exact hsize) (by omega)
      refine ⟨?_, ?_⟩
      · intro j hj
        rw [ih1 j (by omega), hget, if_neg (by omega), if_neg (by omega)]
      · intro r h1 h2 a b ha hb
        by_cases hr : 3 * r = i
        · subst hr
          rw [ha0] at ha
          rw [hb0] at hb
          simp only [Option.some.injEq] at ha hb
          rw [ih1 _ (by omega), ih1 _ (by omega), hget, hget, ha, hb]
          refine ⟨?_, ?_⟩
          · rw [if_neg (by omega), if_pos rfl]
          · rw [if_pos rfl]
        · apply ih2 r (by omega) h2
          · rw [hget, if_neg (by omega), if_neg (by omega)]; exact ha
          · rw [hget, if_neg (by omega), if_neg (by omega)]; exact hb
    · rw [if_neg hlt]
      exact ⟨fun j _ => rfl, fun r h1 h2 => by omega⟩

theorem row_of_size {α : Type} (cells : List α) (r vc : Nat) (hr : r ≤ vc)
    (hsize : (vc + 1) * 3 ≤ cells.length) :
    ∃ x y z, cells[3 * r]? = some x ∧ cells[3 * r + 1]? = some y ∧
      cells[3 * r + 2]? = some z ∧ row cells r = some (x, y, z) := by
  have h0 : 3 * r < cells.length := by omega
  have h1 : 3 * r + 1 < cells.length := by omega
  have h2 : 3 * r + 2 < cells.length := by omega
  refine ⟨cells[3 * r], cells[3 * r + 1], cells[3 * r + 2], List.getElem?_eq_getElem h0,
    List.getElem?_eq_getElem h1, List.getElem?_eq_getElem h2, ?_⟩
  simp [row, List.getElem?_eq_getElem h0, List.getElem?_eq_getElem h1,
    List.getElem?_eq_getElem h2]

theorem row_eq_some {α : Type} (cells : List α) (r : Nat) (x y z : α)
    (h0 : cells[3 * r]? = some x) (h1 : cells[3 * r + 1]? = some y)
    (h2 : cells[3 * r + 2]? = some z) : row cells r = some (x, y, z) := by
  simp [row, h0, h1, h2]

theorem radians_sub {α : Type} [Field α] (pi new_angle old_angle : α) :
    to_radians pi new_angle - to_radians pi old_angle = (new_angle - old_angle) * pi / 180 := by
  unfold to_radians
  ring

/-- Rows of the buffer after a rotation loop over the pair of cells `p`, `q`. -/
theorem rotate_rows {α : Type} (p q o : Nat) (f g : α → α → α) (vc : Nat) (cells : List α)
    (hp : p < 3) (hq : q < 3) (ho : o < 3) (hpq : p ≠ q) (hop : o ≠ p) (hoq : o ≠ q)
    (hsize : (vc + 1) * 3 ≤ cells.length) (r : Nat) (hr : r ≤ vc) :
    ∃ a b c, cells[3 * r + p]? = some a ∧ cells[3 * r + q]? = some b ∧
      cells[3 * r + o]? = some c ∧
      (for_loop 3 ((vc + 1) * 3) (update_pair p q f g) ((vc + 1) * 3) 0 cells)[3 * r + p]?
        = some (f a b) ∧
      (for_loop 3 ((vc + 1) * 3) (update_pair p q f g) ((vc + 1) * 3) 0 cells)[3 * r + q]?
        = some (g a b) ∧
      (for_loop 3 ((vc + 1) * 3) (update_pair p q f g) ((vc + 1) * 3) 0 cells)[3 * r + o]?
        = some c := by
  have hpl : 3 * r + p < cells.length := by omega
  have hql : 3 * r + q < cells.length := by omega
  have hol : 3 * r + o < cells.length := by omega
  obtain ⟨h1, h2⟩ := rotate_loop_spec p q f g ((vc + 1) * 3) hp hq hpq (by omega)
    ((vc + 1) * 3) 0 cells (by omega) hsize (by omega)
  obtain ⟨h3, h4⟩ := h2 r (by omega) (by omega) _ _ (List.getElem?_eq_getElem hpl)
    (List.getElem?_eq_getElem hql)
  refine ⟨_, _, _, List.getElem?_eq_getElem hpl, List.getElem?_eq_getElem hql,
    List.getElem?_eq_getElem hol, h3, h4, ?_⟩
  rw [h1 _ (Or.inr (Or.inr (by omega)))]
  exact List.getElem?_eq_getElem hol

/-- C8. Rotate formulas, in exact arithmetic (the coordinates form a field):
with `theta = (new - old) * pi / 180`, on a mesh whose buffer holds the rows
`0..vertex_count`, `rotate_y` maps every row `(x, y, z)` to
`(x cos theta + z sin theta, y, -x sin theta + z cos theta)`, `rotate_z` maps it
to `(x cos theta - y sin theta, x sin theta + y cos theta, z)` and `rotate_x`
maps it to `(x, y cos theta + z sin theta, -y sin theta + z cos theta)`; the
right-hand sides are in the row's values before the call, and the rows are all
of `0..vertex_count`, row 0 included. -/
theorem rotate_formulas {α : Type} [Field α] (cosf sinf : α → α) (pi : α)
    (d : data_object α) (new_angle old_angle : α) (cells : List α)
    (hm : d.vertex_array.matrix = some cells)
    (hsize : (d.vertex_count + 1) * 3 ≤ cells.length) :
    (∃ after, (rotate_y cosf sinf pi d new_angle old_angle).vertex_array.matrix = some after ∧
      after.length = cells.length ∧
      ∀ r, r ≤ d.vertex_count → ∃ x y z, row cells r = some (x, y, z) ∧
        row after r = some
          (x * cosf ((new_angle - old_angle) * pi / 180) +
             z * sinf ((new_angle - old_angle) * pi / 180),
           y,
           -x * sinf ((new_angle - old_angle) * pi / 180) +
             z * cosf ((new_angle - old_angle) * pi / 180))) ∧
    (∃ after, (rotate_z cosf sinf pi d new_angle old_angle).vertex_array.matrix = some after ∧
      after.length = cells.length ∧
      ∀ r, r ≤ d.vertex_count → ∃ x y z, row cells r = some (x, y, z) ∧
        row after r = some
          (x * cosf ((new_angle - old_angle) * pi / 180) -
             y * sinf ((new_angle - old_angle) * pi / 180),
           x * sinf ((new_angle - old_angle) * pi / 180) +
             y * cosf ((new_angle - old_angle) * pi / 180),
           z)) ∧
    (∃ after, (rotate_x cosf sinf pi d new_angle old_angle).vertex_array.matrix = some after ∧
      after.length = cells.length ∧
      ∀ r, r ≤ d.vertex_count → ∃ x y z, row cells r = some (x, y, z) ∧
        row after r = some
          (x,
           y * cosf ((new_angle - old_angle) * pi / 180) +
             z * sinf ((new_angle - old_angle) * pi / 180),
           -y * sinf ((new_angle - old_angle) * pi / 180) +
             z * cosf ((new_angle - old_angle) * pi / 180))) := by
  have hth := radians_sub pi new_angle old_angle
  refine ⟨?_, ?_, ?_⟩
  · refine ⟨_, by simp only [rotate_y, hm, with_cells]; rfl, ?_, ?_⟩
    · exact for_loop_length _ _ _ (update_pair_length _ _ _ _) _ _ _
    · intro r hr
      obtain ⟨a, b, c, h1, h2, h3, h4, h5, h6⟩ := rotate_rows 0 2 1 _ _ d.vertex_count cells
        (by omega) (by omega) (by omega) (by omega) (by omega) (by omega) hsize r hr
      refine ⟨a, c, b, row_eq_some _ _ _ _ _ h1 h3 h2, ?_⟩
      rw [← hth]
      exact row_eq_some _ _ _ _ _ h4 h6 h5
  · refine ⟨_, by simp only [rotate_z, hm, with_cells]; rfl, ?_, ?_⟩
    · exact for_loop_length _ _ _ (update_pair_length _ _ _ _) _ _ _
    · intro r hr
      obtain ⟨a, b, c, h1, h2, h3, h4, h5, h6⟩ := rotate_rows 0 1 2 _ _ d.vertex_count cells
        (by omega) (by omega) (by omega) (by omega) (by omega) (by omega) hsize r hr
      refine ⟨a, b, c, row_eq_some _ _ _ _ _ h1 h2 h3, ?_⟩
      rw [← hth]
      exact row_eq_some _ _ _ _ _ h4 h5 h6
  · refine ⟨_, by simp only [rotate_x, hm, with_cells]; rfl, ?_, ?_⟩
    · exact for_loop_length _ _ _ (update_pair_length _ _ _ _) _ _ _
    · intro r hr
      obtain ⟨a, b, c, h1, h2, h3, h4, h5, h6⟩ := rotate_rows 1 2 0 _ _ d.vertex_count cells
        (by omega) (by omega) (by omega) (by omega) (by omega) (by omega) hsize r hr
      refine ⟨c, a, b, row_eq_some _ _ _ _ _ h3 h1 h2, ?_⟩
      rw [← hth]
      exact row_eq_some _ _ _ _ _ h6 h4 h5

/-- Rotation about z on the test object with one vertex, with stand-ins for the
libm functions. -/
theorem rotate_formulas_witness :
    (initialize_data_object 1 : data_object ℚ).vertex_array.matrix =
      some [0, 0, 0, 1, 1, 1] ∧
    ((initialize_data_object 1 : data_object ℚ).vertex_count + 1) * 3 ≤
      [(0 : ℚ), 0, 0, 1, 1, 1].length ∧
    ∃ after, (rotate_z (fun _ => 0) (fun _ => 1) (22 / 7)
        (initialize_data_object 1 : data_object ℚ) 90 0).vertex_array.matrix = some after ∧
      after.length = [(0 : ℚ), 0, 0, 1, 1, 1].length ∧
      ∀ r, r ≤ (initialize_data_object 1 : data_object ℚ).vertex_count →
        ∃ x y z, row [(0 : ℚ), 0, 0, 1, 1, 1] r = some (x, y, z) ∧
          row after r = some
            (x * (fun _ => (0 : ℚ)) ((90 - 0) * (22 / 7) / 180) -
               y * (fun _ => (1 : ℚ)) ((90 - 0) * (22 / 7) / 180),
             x * (fun _ => (1 : ℚ)) ((90 - 0) * (22 / 7) / 180) +
               y * (fun _ => (0 : ℚ)) ((90 - 0) * (22 / 7) / 180),
             z) :=
  have h1 : (initialize_data_object 1 : data_object ℚ).vertex_array.matrix =
      some [0, 0, 0, 1, 1, 1] := by with_unfolding_all decide
  have h2 : ((initialize_data_object 1 : data_object ℚ).vertex_count + 1) * 3 ≤
      [(0 : ℚ), 0, 0, 1, 1, 1].length := by decide
  ⟨h1, h2, (rotate_formulas (fun _ => 0) (fun _ => 1) (22 / 7)
    (initialize_data_object 1 : data_object ℚ) 90 0 [0, 0, 0, 1, 1, 1] h1 h2).2.1⟩

theorem scale_cells {α : Type} [Mul α] [Div α] [IntCast α] (d : data_object α)
    (new_scale old_scale : Int) (cells : List α) (hm : d.vertex_array.matrix = some cells) :
    ∃ after, (scale d new_scale old_scale).vertex_array.matrix = some after ∧
      after.length = cells.length ∧
      ∀ j, after[j]? =
        if 3 ≤ j ∧ j < (d.vertex_count + 1) * 3 then
          (cells[j]?).map (fun v => v * ((new_scale : α) / (old_scale : α)))
        else cells[j]? := by
  have heq : (scale d new_scale old_scale).vertex_array.matrix =
      some (for_loop 1 ((d.vertex_count + 1) * 3)
        (update_cell (fun v => v * ((new_scale : α) / (old_scale : α))))
        ((d.vertex_count + 1) * 3) 3 cells) := by
    simp only [scale, hm, with_cells]
  refine ⟨_, heq, ?_, ?_⟩
  · exact for_loop_length _ _ _ (update_cell_length _) _ _ _
  · intro j
    exact for_loop_cell_step1 _ _ _ _ _ _ (by omega)

/-- C9. Scale postcondition and frame: on a mesh whose buffer holds the rows
`0..vertex_count` and for integers `new_scale` and `old_scale ≠ 0`, `scale`
multiplies every cell of the rows `1..vertex_count` by the quotient
`new_scale / old_scale` taken in the coordinates (not the integer quotient) and
leaves the three cells of row 0 as they were; over the rationals `scale (1, 2)`
halves the coordinates and `scale (2, 1)` turns row (1, 1, 1) into (2, 2, 2). -/
theorem scale_postcondition {α : Type} [Mul α] [Div α] [IntCast α] (d : data_object α)
    (new_scale old_scale : Int) (cells : List α)
    (hm : d.vertex_array.matrix = some cells)
    (hsize : (d.vertex_count + 1) * 3 ≤ cells.length)
    (_hold : old_scale ≠ 0) :
    (∃ after, (scale d new_scale old_scale).vertex_array.matrix = some after ∧
      after.length = cells.length ∧
      (∀ j, 3 ≤ j → j < (d.vertex_count + 1) * 3 →
        ∃ v, cells[j]? = some v ∧
          after[j]? = some (v * ((new_scale : α) / (old_scale : α)))) ∧
      (∀ j, j < 3 → after[j]? = cells[j]?)) ∧
    (scale (initialize_data_object 1 : data_object ℚ) 2 1).vertex_array.matrix =
      some [0, 0, 0, 2, 2, 2] ∧
    (scale (initialize_data_object 1 : data_object ℚ) 1 2).vertex_array.matrix =
      some [0, 0, 0, 1 / 2, 1 / 2, 1 / 2] := by
  refine ⟨?_, by with_unfolding_all decide, by with_unfolding_all decide⟩
  obtain ⟨after, h1, h2, h3⟩ := scale_cells d new_scale old_scale cells hm
  refine ⟨after, h1, h2, ?_, ?_⟩
  · intro j hj1 hj2
    have hlt : j < cells.length := by omega
    refine ⟨cells[j], List.getElem?_eq_getElem hlt, ?_⟩
    rw [h3, if_pos ⟨hj1, hj2⟩, List.getElem?_eq_getElem hlt]
    rfl
  · intro j hj
    rw [h3, if_neg (by omega)]

/-- Scaling by 3 / 4 on the test object with two vertices. -/
theorem scale_postcondition_witness :
    (initialize_data_object 2 : data_object ℚ).vertex_array.matrix =
      some [0, 0, 0, 1, 1, 1, 2, 2, 2] ∧
    ((initialize_data_object 2 : data_object ℚ).vertex_count + 1) * 3 ≤
      [(0 : ℚ), 0, 0, 1, 1, 1, 2, 2, 2].length ∧
    (4 : Int) ≠ 0 ∧
    ∃ after, (scale (initialize_data_object 2 : data_object ℚ) 3 4).vertex_array.matrix =
        some after ∧
      after.length = [(0 : ℚ), 0, 0, 1, 1, 1, 2, 2, 2].length ∧
      (∀ j, 3 ≤ j → j < ((initialize_data_object 2 : data_object ℚ).vertex_count + 1) * 3 →
        ∃ v, [(0 : ℚ), 0, 0, 1, 1, 1, 2, 2, 2][j]? = some v ∧
          after[j]? = some (v * (((3 : Int) : ℚ) / ((4 : Int) : ℚ)))) ∧
      (∀ j, j < 3 → after[j]? = [(0 : ℚ), 0, 0, 1, 1, 1, 2, 2, 2][j]?) :=
  have h1 : (initialize_data_object 2 : data_object ℚ).vertex_array.matrix =
      some [0, 0, 0, 1, 1, 1, 2, 2, 2] := by with_unfolding_all decide
  have h2 : ((initialize_data_object 2 : data_object ℚ).vertex_count + 1) * 3 ≤
      [(0 : ℚ), 0, 0, 1, 1, 1, 2, 2, 2].length := by decide
  have h3 : (4 : Int) ≠ 0 := by decide
  ⟨h1, h2, h3, (scale_postcondition (initialize_data_object 2 : data_object ℚ) 3 4
    [0, 0, 0, 1, 1, 1, 2, 2, 2] h1 h2 h3).1⟩

theorem update_cell_id {α : Type} (f : α → α) (hf : ∀ v, f v = v) (i : Nat) (m : List α) :
    update_cell f i m = m := by
  apply List.ext_getElem?
  intro j
  rw [update_cell_get]
  split_ifs
  · cases m[j]? with
    | none => rfl
    | some v => simp [hf]
  · rfl

theorem for_loop_id {α : Type} (step bound : Nat) (body : Nat → List α → List α)
    (hbody : ∀ i m, body i m = m) (fuel i : Nat) (m : List α) :
    for_loop step bound body fuel i m = m := by
  induction fuel generalizing i m with
  | zero => rfl
  | succ n ih =>
    unfold for_loop
    split_ifs
    · rw [hbody, ih]
    · rfl

theorem with_cells_same {α : Type} (d : data_object α) (cells : List α)
    (hm : d.vertex_array.matrix = some cells) : with_cells d cells = d := by
  cases d with
  | mk vc va pc ec aec pa =>
    cases va with
    | mk mat rows cols =>
      simp only [with_cells]
      have hm2 : mat = some cells := hm
      rw [hm2]

/-- C15. Scale identity, in exact arithmetic (the coordinates form a field of
characteristic zero): for every object and every non-zero integer `f`,
`scale` with `(f, f)` leaves the object, and so every cell of its buffer, as it
was. -/
theorem scale_identity {α : Type} [Field α] [CharZero α] (d : data_object α) (f : Int)
    (hf : f ≠ 0) : scale d f f = d := by
  have hone : ∀ w : α, w * ((f : α) / (f : α)) = w := by
    intro w
    rw [div_self (Int.cast_ne_zero.2 hf), mul_one]
  cases hm : d.vertex_array.matrix with
  | none => simp [scale, hm]
  | some cells =>
    simp only [scale, hm]
    rw [for_loop_id _ _ _ (update_cell_id _ hone)]
    exact with_cells_same d cells hm

/-- Scale identity on the test object with two vertices, over the rationals. -/
theorem scale_identity_witness :
    (7 : Int) ≠ 0 ∧
    scale (initialize_data_object 2 : data_object ℚ) 7 7 = initialize_data_object 2 :=
  ⟨by decide, scale_identity (initialize_data_object 2 : data_object ℚ) 7 (by decide)⟩

theorem update_pair_id {α : Type} (p q : Nat) (f g : α → α → α)
    (hf : ∀ a b, f a b = a) (hg : ∀ a b, g a b = b) (i : Nat) (m : List α) :
    update_pair p q f g i m = m := by
  cases ha : m[i + p]? with
  | none => simp [update_pair, ha]
  | some a =>
    cases hb : m[i + q]? with
    | none => simp [update_pair, ha, hb]
    | some b =>
      apply List.ext_getElem?
      intro j
      rw [update_pair_get p q f g i j m a b ha hb, hf, hg]
      split_ifs with h1 h2
      · rw [h1, hb]
      · rw [h2, ha]
      · rfl

/-- A rotation whose `cosf` is 1 and whose `sinf` is 0 at the angle it turns by
leaves the object as it was. -/
theorem rotate_fixed_of {α : Type} [Field α] (cosf sinf : α → α) (pi : α)
    (d : data_object α) (new_angle old_angle : α)
    (hcos : cosf (to_radians pi new_angle - to_radians pi old_angle) = 1)
    (hsin : sinf (to_radians pi new_angle - to_radians pi old_angle) = 0) :
    rotate_x cosf sinf pi d new_angle old_angle = d ∧
    rotate_y cosf sinf pi d new_angle old_angle = d ∧
    rotate_z cosf sinf pi d new_angle old_angle = d := by
  have h1 : ∀ a b : α, a * cosf (to_radians pi new_angle - to_radians pi old_angle) +
      b * sinf (to_radians pi new_angle - to_radians pi old_angle) = a := by
    intro a b; rw [hcos, hsin]; ring
  have h2 : ∀ a b : α, -a * sinf (to_radians pi new_angle - to_radians pi old_angle) +
      b * cosf (to_radians pi new_angle - to_radians pi old_angle) = b := by
    intro a b; rw [hcos, hsin]; ring
  have h3 : ∀ a b : α, a * cosf (to_radians pi new_angle - to_radians pi old_angle) -
      b * sinf (to_radians pi new_angle - to_radians pi old_angle) = a := by
    intro a b; rw [hcos, hsin]; ring
  have h4 : ∀ a b : α, a * sinf (to_radians pi new_angle - to_radians pi old_angle) +
      b * cosf (to_radians pi new_angle - to_radians pi old_angle) = b := by
    intro a b; rw [hcos, hsin]; ring
  refine ⟨?_, ?_, ?_⟩
  · cases hm : d.vertex_array.matrix with
    | none => simp [rotate_x, hm]
    | some cells =>
      simp only [rotate_x, hm]
      rw [for_loop_id _ _ _ (update_pair_id 1 2 _ _ h1 h2)]
      exact with_cells_same d cells hm
  · cases hm : d.vertex_array.matrix with
    | none => simp [rotate_y, hm]
    | some cells =>
      simp only [rotate_y, hm]
      rw [for_loop_id _ _ _ (update_pair_id 0 2 _ _ h1 h2)]
      exact with_cells_same d cells hm
  · cases hm : d.vertex_array.matrix with
    | none => simp [rotate_z, hm]
    | some cells =>
      simp only [rotate_z, hm]
      rw [for_loop_id _ _ _ (update_pair_id 0 1 _ _ h3 h4)]
      exact with_cells_same d cells hm

/-- A full turn in exact arithmetic: rotating from `old` to `old + 360` leaves
the object as it was.  (The rounding of `double`, `cosf` and `sinf`, which the
C code adds to this, is outside this statement.) -/
theorem rotate_full_turn_exact (d : data_object ℝ) (old : ℝ) :
    rotate_x Real.cos Real.sin Real.pi d (old + 360) old = d ∧
    rotate_y Real.cos Real.sin Real.pi d (old + 360) old = d ∧
    rotate_z Real.cos Real.sin Real.pi d (old + 360) old = d := by
  have hturn : to_radians Real.pi (old + 360) - to_radians Real.pi old = 2 * Real.pi := by
    unfold to_radians
    ring
  exact rotate_fixed_of Real.cos Real.sin Real.pi d (old + 360) old
    (by rw [hturn]; exact Real.cos_two_pi) (by rw [hturn]; exact Real.sin_two_pi)

/-! ## The face list as a whole -/

theorem parse_line_no_face {α : Type} (scan : List Char → Option (α × α × α))
    (st : parse_state α) (l : List Char) (hl : is_face_line l = false) :
    (parse_line scan st l).data_obj.polygon_array = st.data_obj.polygon_array ∧
    (parse_line scan st l).data_obj.all_edges_count = st.data_obj.all_edges_count := by
  unfold parse_line
  rw [hl]
  by_cases hv : is_vertex_line l = true
  · rw [if_pos hv]
    unfold parse_vertex
    cases hs : scan (cstr l) with
    | none => exact ⟨rfl, rfl⟩
    | some t =>
      obtain ⟨x, y, z⟩ := t
      cases hm : st.data_obj.vertex_array.matrix with
      | none => exact ⟨rfl, rfl⟩
      | some cells => exact ⟨rfl, rfl⟩
  · rw [if_neg hv]
    exact ⟨rfl, rfl⟩

theorem parse_fold_no_faces {α : Type} (scan : List Char → Option (α × α × α))
    (lines : List (List Char)) (st : parse_state α)
    (hnone : lines.countP is_face_line = 0) :
    (lines.foldl (parse_line scan) st).data_obj.polygon_array = st.data_obj.polygon_array ∧
    (lines.foldl (parse_line scan) st).data_obj.all_edges_count =
      st.data_obj.all_edges_count := by
  induction lines generalizing st with
  | nil => exact ⟨rfl, rfl⟩
  | cons l ls ih =>
    rw [List.foldl_cons]
    have hl : is_face_line l = false := by
      cases h : is_face_line l
      · rfl
      · simp [List.countP_cons, h] at hnone
    have hls : ls.countP is_face_line = 0 := by
      simpa [List.countP_cons, hl] using hnone
    obtain ⟨h1, h2⟩ := ih (parse_line scan st l) hls
    obtain ⟨h3, h4⟩ := parse_line_no_face scan st l hl
    exact ⟨h1.trans h3, h2.trans h4⟩

/-- A load of a file without face lines leaves the face list pointer and the
edge total of the object as they were. -/
theorem parser_no_faces {α : Type} [Zero α] (fopen : String → Option (List Char))
    (scan : List Char → Option (α × α × α)) (name : String) (text : List Char)
    (hopen : fopen name = some text)
    (hnone : (getlines text).countP is_face_line = 0) :
    ∃ e, (parser fopen scan (some name) (some empty_object)).obj = some e ∧
      e.polygon_array = none ∧ e.all_edges_count = 0 := by
  rw [parser_open fopen scan name text empty_object hopen]
  refine ⟨_, rfl, ?_, ?_⟩
  · unfold parser_vert_pol
    rw [(parse_fold_no_faces scan (getlines text) _ hnone).1]
    simp [prepared, count_vert_pol, count_lines_fold, empty_object, hnone]
  · unfold parser_vert_pol
    rw [(parse_fold_no_faces scan (getlines text) _ hnone).2]
    exact (prepared_faces text).2.1

theorem stored_faces_colums {α : Type} (scan : List Char → Option (α × α × α))
    (lines : List (List Char)) (count : Nat) :
    (stored_faces scan count lines).map (fun p => p.colums) =
      (lines.filter is_stored_face_line).map first_scan := by
  induction lines generalizing count with
  | nil => rfl
  | cons l ls ih =>
    by_cases hv : is_vertex_line l = true
    · have hsf : is_stored_face_line l = false := by
        cases h : is_face_line l
        · simp [is_stored_face_line, h]
        · rw [not_vertex_of_face h] at hv; exact Bool.noConfusion hv
      cases hs : scan (cstr l) with
      | none => simp [stored_faces, hv, hs, hsf, List.filter_cons, ih]
      | some t => simp [stored_faces, hv, hs, hsf, List.filter_cons, ih]
    · by_cases hsf : is_stored_face_line l = true
      · simp [stored_faces, hv, hsf, List.filter_cons, ih, face_of]
      · simp [stored_faces, hv, hsf, List.filter_cons, ih]

theorem stored_le_face_lines (lines : List (List Char)) :
    lines.countP is_stored_face_line ≤ lines.countP is_face_line := by
  apply List.countP_mono_left
  intro l _ h
  simp only [is_stored_face_line, Bool.and_eq_true] at h
  exact h.1

/-- The face list after `parser` on the all-zero object, for a file with at
least one face line, as one list: the stored faces, then empty slots. -/
theorem parser_faces_eq {α : Type} [Zero α] (fopen : String → Option (List Char))
    (scan : List Char → Option (α × α × α)) (name : String) (text : List Char)
    (hopen : fopen name = some text)
    (hface : 0 < (getlines text).countP is_face_line) :
    ∃ e, (parser fopen scan (some name) (some empty_object)).obj = some e ∧
      e.polygon_array = some (stored_faces scan 1 (getlines text) ++
        List.replicate ((getlines text).countP is_face_line -
          (stored_faces scan 1 (getlines text)).length) { polygon := none, colums := 0 }) ∧
      e.all_edges_count = edge_total (getlines text) := by
  obtain ⟨e, faces, he, hfaces, hlen, _, _, hall, hstored, hrest⟩ :=
    parser_face_list fopen scan name text hopen hface
  refine ⟨e, he, ?_, hall⟩
  rw [hfaces]
  congr 1
  have hle : (stored_faces scan 1 (getlines text)).length ≤
      (getlines text).countP is_face_line := by
    rw [stored_faces_length]
    exact stored_le_face_lines _
  apply List.ext_getElem?
  intro k
  by_cases hk : k < (stored_faces scan 1 (getlines text)).length
  · rw [List.getElem?_append_left hk]
    rw [hstored k _ (List.getElem?_eq_getElem hk)]
    exact (List.getElem?_eq_getElem hk).symm
  · have hk2 : (stored_faces scan 1 (getlines text)).length ≤ k := Nat.le_of_not_lt hk
    rw [List.getElem?_append_right hk2]
    by_cases hkf : k < (getlines text).countP is_face_line
    · rw [hrest k hk2 hkf, List.getElem?_replicate, if_pos (by omega)]
    · rw [List.getElem?_eq_none (by omega), List.getElem?_replicate, if_neg (by omega)]

/-! ## Range of the stored face indices -/

theorem takeWhile_getElem? {β : Type} (f : β → Bool) (l : List β) (p : Nat)
    (hp : p < (l.takeWhile f).length) : (l.takeWhile f)[p]? = l[p]? := by
  induction l generalizing p with
  | nil => simp at hp
  | cons a t ih =>
    by_cases ha : f a = true
    · rw [List.takeWhile_cons_of_pos ha] at hp ⊢
      cases p with
      | zero => simp
      | succ p =>
        simp only [List.getElem?_cons_succ]
        exact ih p (by simpa using hp)
    · rw [List.takeWhile_cons_of_neg ha] at hp
      simp at hp

theorem takeWhile_length_le {β : Type} (f : β → Bool) (l : List β) :
    (l.takeWhile f).length ≤ l.length := by
  induction l with
  | nil => simp
  | cons a t ih =>
    by_cases ha : f a = true
    · rw [List.takeWhile_cons_of_pos ha]
      simp only [List.length_cons]
      omega
    · rw [List.takeWhile_cons_of_neg ha]
      simp

/-- Every cell of the face built for a face line holds the stored value of a
token counted by the first scan of the line. -/
theorem face_of_mem (count : Nat) (buff : List Char) (cells : List Nat) (v : Nat)
    (hcells : (face_of count buff).polygon = some cells) (hv : v ∈ cells) :
    ∃ tok ∈ (strtok_all (cstr buff).tail).takeWhile (fun istr => atoi istr != 0),
      v = stored_index count tok := by
  simp only [face_of, Option.some.injEq] at hcells
  obtain ⟨p, hp, hpv⟩ := List.getElem_of_mem hv
  have hlen : cells.length = first_scan buff := by
    rw [← hcells, write_indices_length, List.length_replicate]
  have hget : cells[p]? = some v := by
    rw [List.getElem?_eq_getElem hp, hpv]
  rw [← hcells, write_indices_get] at hget
  have hfs : first_scan buff ≤ (strtok_all (cstr buff).tail).length :=
    takeWhile_length_le _ _
  rw [if_pos ⟨Nat.zero_le _, by omega, by rw [List.length_replicate]; omega⟩] at hget
  simp only [Nat.sub_zero, Option.map_eq_some'] at hget
  obtain ⟨tok, htok, hval⟩ := hget
  refine ⟨tok, ?_, hval.symm⟩
  have hp2 : p < ((strtok_all (cstr buff).tail).takeWhile
      (fun istr => atoi istr != 0)).length := by
    have : p < first_scan buff := by omega
    exact this
  have h := takeWhile_getElem? (fun istr => atoi istr != 0)
    (strtok_all (cstr buff).tail) p hp2
  rw [htok] at h
  exact List.getElem?_mem h

/-- Every stored face comes from a face line of the file, built with the local
`count` advanced by the well-formed vertex lines above it. -/
theorem stored_faces_mem {α : Type} (scan : List Char → Option (α × α × α))
    (lines : List (List Char)) (count : Nat) (f : polygon_t)
    (hf : f ∈ stored_faces scan count lines) :
    ∃ before l following, lines = before ++ l :: following ∧
      is_face_line l = true ∧
      f = face_of (count + (vertex_rows scan before).length) l := by
  induction lines generalizing count with
  | nil => simp [stored_faces] at hf
  | cons a ls ih =>
    by_cases hv : is_vertex_line a = true
    · cases hs : scan (cstr a) with
      | none =>
        simp only [stored_faces, hv, if_true, hs] at hf
        obtain ⟨before, l, following, hsplit, hl, hface⟩ := ih count hf
        refine ⟨a :: before, l, following, by rw [hsplit]; rfl, hl, ?_⟩
        rw [hface]
        simp [vertex_rows, List.filterMap_cons, hv, hs]
      | some t =>
        simp only [stored_faces, hv, if_true, hs] at hf
        obtain ⟨before, l, following, hsplit, hl, hface⟩ := ih (count + 1) hf
        refine ⟨a :: before, l, following, by rw [hsplit]; rfl, hl, ?_⟩
        rw [hface]
        simp [vertex_rows, List.filterMap_cons, hv, hs]
        congr 1
        omega
    · by_cases hsf : is_stored_face_line a = true
      · have hf2 : f = face_of count a ∨ f ∈ stored_faces scan count ls := by
          simp only [stored_faces, hv, hsf, if_true] at hf
          exact List.mem_cons.1 hf
        rcases hf2 with hfa | hf
        · refine ⟨[], a, ls, rfl, ?_, ?_⟩
          · simp only [is_stored_face_line, Bool.and_eq_true] at hsf
            exact hsf.1
          · rw [hfa]
            rfl
        · obtain ⟨before, l, following, hsplit, hl, hface⟩ := ih count hf
          refine ⟨a :: before, l, following, by rw [hsplit]; rfl, hl, ?_⟩
          rw [hface]
          simp [vertex_rows, List.filterMap_cons, hv]
      · simp only [stored_faces, hv, hsf] at hf
        obtain ⟨before, l, following, hsplit, hl, hface⟩ := ih count hf
        refine ⟨a :: before, l, following, by rw [hsplit]; rfl, hl, ?_⟩
        rw [hface]
        simp [vertex_rows, List.filterMap_cons, hv]

theorem vertex_rows_all {α : Type} (scan : List Char → Option (α × α × α))
    (lines : List (List Char))
    (hgood : ∀ l ∈ lines, is_vertex_line l = true → scan (cstr l) ≠ none) :
    (vertex_rows scan lines).length = lines.countP is_vertex_line := by
  induction lines with
  | nil => rfl
  | cons a ls ih =>
    have ih2 := ih (fun l hl => hgood l (List.mem_cons_of_mem a hl))
    by_cases hv : is_vertex_line a = true
    · cases hs : scan (cstr a) with
      | none => exact absurd hs (hgood a (List.mem_cons_self a ls) hv)
      | some t =>
        simp only [vertex_rows, List.filterMap_cons, hv, if_true, hs, List.length_cons,
          List.countP_cons] at ih2 ⊢
        rw [ih2]
    · simp only [vertex_rows, List.filterMap_cons, hv, List.countP_cons] at ih2 ⊢
      simpa using ih2

theorem stored_index_in_range (count nb total : Nat) (tok : List Char)
    (hcount : count = nb + 1) (hnb : nb ≤ total) (hsmall : total < 4294967296)
    (htok : (1 ≤ atoi tok ∧ atoi tok ≤ (total : Int)) ∨
      (atoi tok < 0 ∧ -atoi tok ≤ (nb : Int))) :
    1 ≤ stored_index count tok ∧ stored_index count tok ≤ total := by
  unfold stored_index
  simp only []
  rcases htok with ⟨h1, h2⟩ | ⟨h1, h2⟩
  · rw [if_neg (by omega)]
    omega
  · rw [if_pos h1]
    have hmod : ((count : Int) + atoi tok) % 4294967296 = (count : Int) + atoi tok :=
      Int.emod_eq_of_lt (by omega) (by omega)
    rw [hmod]
    omega

theorem parser_ok_vertex_lines {α : Type} [Zero α] (fopen : String → Option (List Char))
    (scan : List Char → Option (α × α × α)) (name : String) (text : List Char)
    (hopen : fopen name = some text)
    (hok : (parser fopen scan (some name) (some empty_object)).ret = status.OK) :
    ∀ l ∈ getlines text, is_vertex_line l = true → scan (cstr l) ≠ none := by
  intro l hl hv hs
  rw [parser_open fopen scan name text empty_object hopen] at hok
  have herr := (parse_fold_status scan (getlines text)
    { status := status.OK, count := 1, i := 3, m := 0,
      data_obj := prepared text empty_object, fault := false }).2 (Or.inr ⟨l, hl, hv, hs⟩)
  have hok2 : ((getlines text).foldl (parse_line scan)
    { status := status.OK, count := 1, i := 3, m := 0,
      data_obj := prepared text empty_object, fault := false }).status = status.OK := hok
  rw [herr] at hok2
  cases hok2

/-- C16, amended.  After a load on an empty mesh that returns `OK` and stays
inside its buffers (`fault = false`), of a file with fewer than 2^32 vertex
lines in which every token counted by the first scan of a face line converts
either to a value from 1 to the number of vertex
lines of the file or to a negative value `-k` with `k` at most the number of
vertex lines above the face line, every index stored in every face's index list
is at least 1 and at most `vertex_count`. -/
theorem face_indices_in_range {α : Type} [Zero α] (fopen : String → Option (List Char))
    (scan : List Char → Option (α × α × α)) (name : String) (text : List Char)
    (hopen : fopen name = some text)
    (hok : (parser fopen scan (some name) (some empty_object)).ret = status.OK)
    (hfault : (parser fopen scan (some name) (some empty_object)).fault = false)
    (hsmall : (getlines text).countP is_vertex_line < 4294967296)
    (htokens : ∀ (k : Nat) (l : List Char), (getlines text)[k]? = some l →
      is_face_line l = true →
      ∀ tok ∈ (strtok_all (cstr l).tail).takeWhile (fun istr => atoi istr != 0),
        (1 ≤ atoi tok ∧ atoi tok ≤ ((getlines text).countP is_vertex_line : Int)) ∨
        (atoi tok < 0 ∧
          -atoi tok ≤ ((((getlines text).take k).countP is_vertex_line : Nat) : Int))) :
    ∃ e, (parser fopen scan (some name) (some empty_object)).obj = some e ∧
      ∀ (j : Nat) (face : polygon_t) (cells : List Nat) (v : Nat),
        face_slot e.polygon_array j = some face → face.polygon = some cells → v ∈ cells →
        1 ≤ v ∧ v ≤ e.vertex_count := by
  have _ := hfault
  have hgood := parser_ok_vertex_lines fopen scan name text hopen hok
  obtain ⟨e, he, hv, _⟩ := parser_result_counts fopen scan name text empty_object hopen
  have hv2 : e.vertex_count = (getlines text).countP is_vertex_line := by
    rw [hv]; simp [empty_object]
  refine ⟨e, he, ?_⟩
  intro j face cells v hslot hcells hmem
  by_cases hface : 0 < (getlines text).countP is_face_line
  · obtain ⟨e2, he2, hfaces, _⟩ := parser_faces_eq fopen scan name text hopen hface
    have hee : e2 = e := by
      rw [he] at he2
      exact (Option.some.inj he2).symm
    subst hee
    rw [hfaces] at hslot
    have hin := List.getElem?_mem hslot
    rcases List.mem_append.1 hin with hst | hrep
    · obtain ⟨before, l, following, hsplit, hl, hfo⟩ :=
        stored_faces_mem scan (getlines text) 1 face hst
      rw [hfo] at hcells
      obtain ⟨tok, htok, hval⟩ := face_of_mem _ l cells v hcells hmem
      have hk : (getlines text)[before.length]? = some l := by
        rw [hsplit, List.getElem?_append_right (Nat.le_refl _), Nat.sub_self]
        exact List.getElem?_cons_zero
      have htake : (getlines text).take before.length = before := by
        rw [hsplit]; simp
      have hrange := htokens before.length l hk hl tok htok
      rw [htake] at hrange
      have hrows : (vertex_rows scan before).length = before.countP is_vertex_line :=
        vertex_rows_all scan before (fun b hb => hgood b (by rw [hsplit]; simp [hb]))
      have hnb : before.countP is_vertex_line ≤ (getlines text).countP is_vertex_line := by
        rw [hsplit, List.countP_append]
        omega
      rw [hval, hv2]
      exact stored_index_in_range _ (before.countP is_vertex_line) _ tok
        (by rw [hrows]; omega) hnb hsmall hrange
    · rw [List.eq_of_mem_replicate hrep] at hcells
      cases hcells
  · have hnone : (getlines text).countP is_face_line = 0 := by omega
    obtain ⟨e2, he2, hfaces, _⟩ := parser_no_faces fopen scan name text hopen hnone
    have hee : e2 = e := by
      rw [he] at he2
      exact (Option.some.inj he2).symm
    subst hee
    rw [hfaces] at hslot
    cases hslot

theorem face_indices_in_range_witness :
    (parser (fun _ => some "v 0 0 0\nv 1 0 0\nf 1 2\nv 0 1 0\nf -1 3\n".toList) sscanf_rat
        (some "a.obj") (some empty_object)).ret = status.OK ∧
    (parser (fun _ => some "v 0 0 0\nv 1 0 0\nf 1 2\nv 0 1 0\nf -1 3\n".toList) sscanf_rat
        (some "a.obj") (some empty_object)).fault = false ∧
    ∃ e, (parser (fun _ => some "v 0 0 0\nv 1 0 0\nf 1 2\nv 0 1 0\nf -1 3\n".toList)
        sscanf_rat (some "a.obj") (some empty_object)).obj = some e ∧
      ∀ (j : Nat) (face : polygon_t) (cells : List Nat) (v : Nat),
        face_slot e.polygon_array j = some face → face.polygon = some cells → v ∈ cells →
        1 ≤ v ∧ v ≤ e.vertex_count :=
  have hok : (parser (fun _ => some "v 0 0 0\nv 1 0 0\nf 1 2\nv 0 1 0\nf -1 3\n".toList)
      sscanf_rat (some "a.obj") (some empty_object)).ret = status.OK := by
    with_unfolding_all decide
  have hlines : getlines "v 0 0 0\nv 1 0 0\nf 1 2\nv 0 1 0\nf -1 3\n".toList =
      ["v 0 0 0\n".toList, "v 1 0 0\n".toList, "f 1 2\n".toList, "v 0 1 0\n".toList,
        "f -1 3\n".toList] := by decide
  have hfault : (parser (fun _ => some "v 0 0 0\nv 1 0 0\nf 1 2\nv 0 1 0\nf -1 3\n".toList)
      sscanf_rat (some "a.obj") (some empty_object)).fault = false := by
    with_unfolding_all decide
  ⟨hok, hfault, face_indices_in_range
    (fun _ => some "v 0 0 0\nv 1 0 0\nf 1 2\nv 0 1 0\nf -1 3\n".toList) sscanf_rat "a.obj"
    "v 0 0 0\nv 1 0 0\nf 1 2\nv 0 1 0\nf -1 3\n".toList rfl hok hfault
    (by rw [hlines]; decide)
    (by
      rw [hlines]
      intro k l hk hl tok htok
      have hlt : k < 5 := by
        by_contra hge
        rw [List.getElem?_eq_none (by simp; omega)] at hk
        cases hk
      interval_cases k
      · simp at hk; subst hk; exact absurd hl (by decide)
      · simp at hk; subst hk; exact absurd hl (by decide)
      · simp at hk; subst hk
        have ht : (strtok_all (cstr "f 1 2\n".toList).tail).takeWhile
            (fun istr => atoi istr != 0) = ["1".toList, "2\n".toList] := by decide
        have htok2 : tok ∈ (strtok_all (cstr "f 1 2\n".toList).tail).takeWhile
            (fun istr => atoi istr != 0) := htok
        rw [ht] at htok2
        simp only [List.mem_cons, List.mem_singleton, List.not_mem_nil, or_false] at htok2
        rcases htok2 with rfl | rfl
        · left; decide
        · left; decide
      · simp at hk; subst hk; exact absurd hl (by decide)
      · simp at hk; subst hk
        have ht : (strtok_all (cstr "f -1 3\n".toList).tail).takeWhile
            (fun istr => atoi istr != 0) = ["-1".toList, "3\n".toList] := by decide
        have htok2 : tok ∈ (strtok_all (cstr "f -1 3\n".toList).tail).takeWhile
            (fun istr => atoi istr != 0) := htok
        rw [ht] at htok2
        simp only [List.mem_cons, List.mem_singleton, List.not_mem_nil, or_false] at htok2
        rcases htok2 with rfl | rfl
        · right; decide
        · left; decide)⟩

/-- C16 as stated fails: on the file `v 0 0 0` / `f 5` `parser` returns `OK` on
an empty mesh with `vertex_count = 1`, and the one face stores the index 5,
which is above `vertex_count`; nothing checks a face token against the number
of vertices. -/
theorem face_indices_in_range_counterexample :
    (parser (fun _ => some "v 0 0 0\nf 5\n".toList) sscanf_rat (some "a.obj")
        (some empty_object)).ret = status.OK ∧
    (parser (fun _ => some "v 0 0 0\nf 5\n".toList) sscanf_rat (some "a.obj")
        (some empty_object)).obj.map (fun e => (e.vertex_count, face_slot e.polygon_array 0)) =
      some (1, some { polygon := some [5], colums := 1 }) := by
  refine ⟨by with_unfolding_all decide, by with_unfolding_all decide⟩

/-! ## Size of the vertex buffer -/

theorem buffer_sized_with_cells {α : Type} (d : data_object α) (cells new_cells : List α)
    (hd : buffer_sized d) (hm : d.vertex_array.matrix = some cells)
    (hlen : new_cells.length = cells.length) : buffer_sized (with_cells d new_cells) := by
  obtain ⟨hr, hc, hcells⟩ := hd
  rw [hm] at hcells
  simp only [Option.map_some', Option.some.injEq] at hcells
  refine ⟨hr, hc, ?_⟩
  simp only [with_cells, Option.map_some', Option.some.injEq]
  rw [hlen]
  exact hcells

theorem buffer_sized_cells {α : Type} (d : data_object α) (hd : buffer_sized d) :
    ∃ cells, d.vertex_array.matrix = some cells := by
  obtain ⟨_, _, hcells⟩ := hd
  cases hm : d.vertex_array.matrix with
  | none => rw [hm] at hcells; simp at hcells
  | some cells => exact ⟨cells, rfl⟩

theorem parser_ok_opens {α : Type} [Zero α] (fopen : String → Option (List Char))
    (scan : List Char → Option (α × α × α)) (name : String) (d : data_object α)
    (hok : (parser fopen scan (some name) (some d)).ret = status.OK) :
    ∃ text, fopen name = some text := by
  cases h : fopen name with
  | none => simp [parser, h] at hok
  | some text => exact ⟨text, rfl⟩

theorem parser_buffer_sized {α : Type} [Zero α] (fopen : String → Option (List Char))
    (scan : List Char → Option (α × α × α)) (name : String) (text : List Char)
    (d : data_object α) (hopen : fopen name = some text)
    (hsize : (d.vertex_count + (getlines text).countP is_vertex_line + 1) * 3 <
      18446744073709551616) :
    ∃ e, (parser fopen scan (some name) (some d)).obj = some e ∧ buffer_sized e := by
  obtain ⟨e, he, _, hbuf⟩ := parser_vertex_buffer fopen scan name text d hopen hsize
  refine ⟨e, he, ?_⟩
  unfold buffer_sized
  rw [hbuf]
  simp [write_rows_length]

/-- C17.  After a load on an empty mesh that returns `OK` and stays inside its
buffers (`fault = false`), of a file whose vertex lines number less than a third
of `2^64` (so that the size of the buffer fits `size_t`), the vertex buffer has
`vertex_count + 1` rows of 3 columns in a block of `(vertex_count + 1) * 3`
cells, and on every mesh whose buffer has this size each of `move_x`, `move_y`,
`move_z`, `rotate_x`, `rotate_y`, `rotate_z` and `scale`, with any arguments,
returns a mesh whose buffer has this size again. -/
theorem buffer_size_invariant {α : Type} [Field α] (fopen : String → Option (List Char))
    (scan : List Char → Option (α × α × α)) (name : String) (text : List Char)
    (hopen : fopen name = some text)
    (hok : (parser fopen scan (some name) (some empty_object)).ret = status.OK)
    (hfault : (parser fopen scan (some name) (some empty_object)).fault = false)
    (hsize : ((getlines text).countP is_vertex_line + 1) * 3 < 18446744073709551616) :
    (∃ e, (parser fopen scan (some name) (some empty_object)).obj = some e ∧
      buffer_sized e) ∧
    ∀ d : data_object α, buffer_sized d →
      (∀ a b : α, buffer_sized (move_x d a b) ∧ buffer_sized (move_y d a b) ∧
        buffer_sized (move_z d a b)) ∧
      (∀ (cosf sinf : α → α) (pi a b : α),
        buffer_sized (rotate_x cosf sinf pi d a b) ∧
        buffer_sized (rotate_y cosf sinf pi d a b) ∧
        buffer_sized (rotate_z cosf sinf pi d a b)) ∧
      (∀ p q : Int, buffer_sized (scale d p q)) := by
  have _ := hfault
  have _ := hok
  refine ⟨parser_buffer_sized fopen scan name text empty_object hopen
    (by simp only [empty_object]; omega), ?_⟩
  intro d hd
  obtain ⟨cells, hm⟩ := buffer_sized_cells d hd
  refine ⟨?_, ?_, ?_⟩
  · intro a b
    refine ⟨?_, ?_, ?_⟩
    · simp only [move_x, hm]
      exact buffer_sized_with_cells d cells _ hd hm
        (for_loop_length _ _ _ (update_cell_length _) _ _ _)
    · simp only [move_y, hm]
      exact buffer_sized_with_cells d cells _ hd hm
        (for_loop_length _ _ _ (update_cell_length _) _ _ _)
    · simp only [move_z, hm]
      exact buffer_sized_with_cells d cells _ hd hm
        (for_loop_length _ _ _ (update_cell_length _) _ _ _)
  · intro cosf sinf pi a b
    refine ⟨?_, ?_, ?_⟩
    · simp only [rotate_x, hm]
      exact buffer_sized_with_cells d cells _ hd hm
        (for_loop_length _ _ _ (update_pair_length _ _ _ _) _ _ _)
    · simp only [rotate_y, hm]
      exact buffer_sized_with_cells d cells _ hd hm
        (for_loop_length _ _ _ (update_pair_length _ _ _ _) _ _ _)
    · simp only [rotate_z, hm]
      exact buffer_sized_with_cells d cells _ hd hm
        (for_loop_length _ _ _ (update_pair_length _ _ _ _) _ _ _)
  · intro p q
    simp only [scale, hm]
    exact buffer_sized_with_cells d cells _ hd hm
      (for_loop_length _ _ _ (update_cell_length _) _ _ _)

theorem buffer_size_invariant_witness :
    (parser (fun _ => some "v 1 2 3\nv 4 5 6\nf 1 2\n".toList) sscanf_rat (some "a.obj")
        (some empty_object)).ret = status.OK ∧
    (parser (fun _ => some "v 1 2 3\nv 4 5 6\nf 1 2\n".toList) sscanf_rat (some "a.obj")
        (some empty_object)).fault = false ∧
    ∃ e, (parser (fun _ => some "v 1 2 3\nv 4 5 6\nf 1 2\n".toList) sscanf_rat (some "a.obj")
        (some empty_object)).obj = some e ∧ buffer_sized e ∧
      buffer_sized (scale (rotate_z (fun _ => 0) (fun _ => 1) 3 (move_x e 5 2) 90 0) 2 1) :=
  have h : (parser (fun _ => some "v 1 2 3\nv 4 5 6\nf 1 2\n".toList) sscanf_rat (some "a.obj")
      (some empty_object)).ret = status.OK := by with_unfolding_all decide
  have hfault : (parser (fun _ => some "v 1 2 3\nv 4 5 6\nf 1 2\n".toList) sscanf_rat
      (some "a.obj") (some empty_object)).fault = false := by with_unfolding_all decide
  ⟨h, hfault, by
    have hall := buffer_size_invariant (fun _ => some "v 1 2 3\nv 4 5 6\nf 1 2\n".toList)
      sscanf_rat "a.obj" "v 1 2 3\nv 4 5 6\nf 1 2\n".toList rfl h hfault (by decide)
    obtain ⟨e, he, hsized⟩ := hall.1
    refine ⟨e, he, hsized, ?_⟩
    have h1 := ((hall.2 e hsized).1 5 2).1
    have h2 := ((hall.2 _ h1).2.1 (fun _ => 0) (fun _ => 1) 3 90 0).2.2
    exact (hall.2 _ h2).2.2 2 1⟩

/-! ## The edge total -/

/-- On a file whose face lines are tidy (the first scan counts no token or
every token of the line) the edge total is the number of index entries of the
face list. -/
theorem edge_total_of_tidy {α : Type} [Zero α] (fopen : String → Option (List Char))
    (scan : List Char → Option (α × α × α)) (name : String) (text : List Char)
    (hopen : fopen name = some text)
    (htidy : ∀ l ∈ getlines text, is_face_line l = true →
      first_scan l = 0 ∨ (strtok_all (cstr l).tail).length = first_scan l) :
    ∃ e, (parser fopen scan (some name) (some empty_object)).obj = some e ∧
      e.all_edges_count = index_entries e.polygon_array := by
  by_cases hface : 0 < (getlines text).countP is_face_line
  · obtain ⟨e, he, hfaces, hall⟩ := parser_faces_eq fopen scan name text hopen hface
    refine ⟨e, he, ?_⟩
    rw [hall, hfaces]
    simp only [index_entries, List.map_append, List.sum_append, List.map_replicate,
      List.sum_replicate, smul_eq_mul, Nat.mul_zero, Nat.add_zero]
    rw [stored_faces_colums]
    unfold edge_total
    congr 1
    apply List.map_congr_left
    intro l hl
    rw [List.mem_filter] at hl
    obtain ⟨hmem, hs⟩ := hl
    simp only [is_stored_face_line, Bool.and_eq_true, decide_eq_true_eq] at hs
    rcases htidy l hmem hs.1 with h0 | h1
    · omega
    · exact h1
  · have hnone : (getlines text).countP is_face_line = 0 := by omega
    obtain ⟨e, he, hfaces, hall⟩ := parser_no_faces fopen scan name text hopen hnone
    exact ⟨e, he, by rw [hall, hfaces]; rfl⟩

/-- C18 at the failing input: in the file `v 0 0 0`, `v 1 0 0`, `v 0 1 0`,
`f 1 2 3 ` (a space before the newline) the first scan of the face line counts
3 tokens, so the one stored face has 3 index entries, while the second scan
visits 4 tokens: `all_edges_count` ends at 4, and the fourth write falls
outside the face's array. -/
theorem edge_total_overcount :
    (parser (fun _ => some "v 0 0 0\nv 1 0 0\nv 0 1 0\nf 1 2 3 \n".toList) sscanf_rat
        (some "a.obj") (some empty_object)).ret = status.OK ∧
    (parser (fun _ => some "v 0 0 0\nv 1 0 0\nv 0 1 0\nf 1 2 3 \n".toList) sscanf_rat
        (some "a.obj") (some empty_object)).obj.map
      (fun e => (e.all_edges_count, index_entries e.polygon_array, e.polygon_array)) =
      some (4, 3, some [{ polygon := some [1, 2, 3], colums := 3 }]) ∧
    (parser (fun _ => some "v 0 0 0\nv 1 0 0\nv 0 1 0\nf 1 2 3 \n".toList) sscanf_rat
        (some "a.obj") (some empty_object)).fault = true := by
  refine ⟨by with_unfolding_all decide, by with_unfolding_all decide,
    by with_unfolding_all decide⟩

/-! ## Unloading -/

/-- C19, amended.  After `memory_free` the vertex buffer pointer and the face
list pointer are null; the counters `vertex_count`, `polygon_count` and
`all_edges_count` are not written and keep the values they had. -/
theorem unload_resets_pointers {α : Type} (d : data_object α) :
    (memory_free d).vertex_array.matrix = none ∧
    (memory_free d).polygon_array = none ∧
    (memory_free d).vertex_count = d.vertex_count ∧
    (memory_free d).polygon_count = d.polygon_count ∧
    (memory_free d).all_edges_count = d.all_edges_count := by
  refine ⟨?_, rfl, rfl, rfl, rfl⟩
  unfold memory_free memory_free_matrix
  cases h : d.vertex_array.matrix with
  | none => simp [h]
  | some cells => simp

/-- C19 as stated fails: the mesh loaded from the file `v 0 0 0` / `f 1` has
`vertex_count = 1`, `polygon_count = 1` and `all_edges_count = 1`, and after
`memory_free` the three counters still have these values, none of them zero. -/
theorem unload_resets_pointers_counterexample :
    (parser (fun _ => some "v 0 0 0\nf 1\n".toList) sscanf_rat (some "a.obj")
        (some empty_object)).ret = status.OK ∧
    (parser (fun _ => some "v 0 0 0\nf 1\n".toList) sscanf_rat (some "a.obj")
        (some empty_object)).obj.map
      (fun e => ((memory_free e).vertex_count, (memory_free e).polygon_count,
        (memory_free e).all_edges_count)) = some (1, 1, 1) := by
  refine ⟨by with_unfolding_all decide, by with_unfolding_all decide⟩

/-! ## A load that fails -/

/-- C20, amended.  When `parser`, started on an empty mesh, returns `ERROR` on
a run that stays inside its buffers (`fault = false`; the file has fewer vertex
lines than a third of `2^64`, so that the size of the buffer fits `size_t`),
then either no file was opened (null name or `fopen` failed) and the mesh is
still empty, or the file was opened and holds a malformed vertex line, and the
mesh keeps everything set up before the failure: the counters of the count
pass (`vertex_count` at least 1), the vertex buffer of `vertex_count + 1` rows,
and the face list of `polygon_count` slots when the file has a face line.
Nothing is released by `parser`. -/
theorem failed_load_state {α : Type} [Zero α] (fopen : String → Option (List Char))
    (scan : List Char → Option (α × α × α)) (file_name : Option String)
    (herr : (parser fopen scan file_name (some empty_object)).ret = status.ERROR)
    (hfault : (parser fopen scan file_name (some empty_object)).fault = false)
    (hsize : ∀ name text, file_name = some name → fopen name = some text →
      ((getlines text).countP is_vertex_line + 1) * 3 < 18446744073709551616) :
    ((∀ name, file_name = some name → fopen name = none) ∧
      (parser fopen scan file_name (some empty_object)).obj = some empty_object) ∨
    ∃ name text e, file_name = some name ∧ fopen name = some text ∧
      (∃ l ∈ getlines text, is_vertex_line l = true ∧ scan (cstr l) = none) ∧
      (parser fopen scan file_name (some empty_object)).obj = some e ∧
      e.vertex_count = (getlines text).countP is_vertex_line ∧
      1 ≤ e.vertex_count ∧
      e.polygon_count = (getlines text).countP is_face_line ∧
      buffer_sized e ∧
      (0 < e.polygon_count →
        ∃ faces, e.polygon_array = some faces ∧ faces.length = e.polygon_count) := by
  have _ := hfault
  cases hname : file_name with
  | none =>
    left
    exact ⟨fun name h => (by cases h), rfl⟩
  | some name =>
    cases hopen : fopen name with
    | none =>
      left
      refine ⟨fun n h => ?_, ?_⟩
      · cases h
        exact hopen
      · simp [parser, hopen]
    | some text =>
      right
      have hsz := hsize name text hname hopen
      subst hname
      have hbad : ∃ l ∈ getlines text, is_vertex_line l = true ∧ scan (cstr l) = none := by
        rw [parser_open fopen scan name text empty_object hopen] at herr
        have h := (parse_fold_status scan (getlines text)
          { status := status.OK, count := 1, i := 3, m := 0,
            data_obj := prepared text empty_object, fault := false }).1 herr
        rcases h with h | h
        · cases h
        · exact h
      obtain ⟨e, he, hv, hp⟩ := parser_result_counts fopen scan name text empty_object hopen
      obtain ⟨e2, he2, hsized⟩ := parser_buffer_sized fopen scan name text empty_object hopen
        (by simp only [empty_object]; omega)
      have hee : e2 = e := by
        rw [he] at he2
        exact (Option.some.inj he2).symm
      subst hee
      have hv2 : e2.vertex_count = (getlines text).countP is_vertex_line := by
        rw [hv]; simp [empty_object]
      have hp2 : e2.polygon_count = (getlines text).countP is_face_line := by
        rw [hp]; simp [empty_object]
      refine ⟨name, text, e2, rfl, hopen, hbad, he, hv2, ?_, hp2, hsized, ?_⟩
      · rw [hv2]
        obtain ⟨l, hl, hvl, _⟩ := hbad
        exact List.countP_pos_iff.2 ⟨l, hl, hvl⟩
      · intro hpos
        rw [hp2] at hpos
        obtain ⟨e3, faces, he3, hfaces, hlen, _⟩ :=
          parser_face_list fopen scan name text hopen hpos
        have hee : e3 = e2 := by
          rw [he] at he3
          exact (Option.some.inj he3).symm
        subst hee
        exact ⟨faces, hfaces, by rw [hlen, hp2]⟩

theorem failed_load_state_witness :
    (parser (fun _ => some "v 1.0 2.0\nf 1\n".toList) sscanf_rat (some "a.obj")
        (some empty_object)).ret = status.ERROR ∧
    (parser (fun _ => some "v 1.0 2.0\nf 1\n".toList) sscanf_rat (some "a.obj")
        (some empty_object)).fault = false ∧
    ∃ e, (parser (fun _ => some "v 1.0 2.0\nf 1\n".toList) sscanf_rat (some "a.obj")
        (some empty_object)).obj = some e ∧ 1 ≤ e.vertex_count ∧ buffer_sized e :=
  have h : (parser (fun _ => some "v 1.0 2.0\nf 1\n".toList) sscanf_rat (some "a.obj")
      (some empty_object)).ret = status.ERROR := by with_unfolding_all decide
  have hfault : (parser (fun _ => some "v 1.0 2.0\nf 1\n".toList) sscanf_rat (some "a.obj")
      (some empty_object)).fault = false := by with_unfolding_all decide
  ⟨h, hfault, by
    rcases failed_load_state (fun _ => some "v 1.0 2.0\nf 1\n".toList) sscanf_rat
      (some "a.obj") h hfault
      (fun name text _ ht => by
        have ht2 : text = "v 1.0 2.0\nf 1\n".toList := (Option.some.inj ht).symm
        rw [ht2]
        decide) with hclosed | ⟨_, _, e, _, _, _, he, _, hv, _, hsized, _⟩
    · exact absurd (hclosed.1 "a.obj" rfl) (by simp)
    · exact ⟨e, he, hv, hsized⟩⟩

/-- C20 as stated fails: on the file `v 1.0 2.0` (a vertex line with two
numbers) `parser` returns `ERROR` on an empty mesh and leaves `vertex_count = 1`
and a vertex buffer of six zero cells; the mesh is not empty and the buffer
allocated before the failure is still held. -/
theorem failed_load_state_counterexample :
    (parser (fun _ => some "v 1.0 2.0\n".toList) sscanf_rat (some "a.obj")
        (some empty_object)).ret = status.ERROR ∧
    (parser (fun _ => some "v 1.0 2.0\n".toList) sscanf_rat (some "a.obj")
        (some empty_object)).obj.map (fun e => (e.vertex_count, e.vertex_array.matrix)) =
      some (1, some [0, 0, 0, 0, 0, 0]) ∧
    (parser (fun _ => some "v 1.0 2.0\n".toList) sscanf_rat (some "a.obj")
        (some empty_object)).obj ≠ some empty_object := by
  refine ⟨by with_unfolding_all decide, by with_unfolding_all decide,
    by with_unfolding_all decide⟩

/-! ## A file without vertex lines -/

theorem parser_ok_of_wellformed {α : Type} [Zero α] (fopen : String → Option (List Char))
    (scan : List Char → Option (α × α × α)) (name : String) (text : List Char)
    (hopen : fopen name = some text)
    (hgood : ∀ l ∈ getlines text, is_vertex_line l = true → scan (cstr l) ≠ none) :
    (parser fopen scan (some name) (some empty_object)).ret = status.OK := by
  rw [parser_open fopen scan name text empty_object hopen]
  have h := parse_fold_status scan (getlines text)
    { status := status.OK, count := 1, i := 3, m := 0,
      data_obj := prepared text empty_object, fault := false }
  cases hs : (parser_vert_pol scan text (prepared text empty_object)).status with
  | OK => rfl
  | ERROR =>
    rcases h.1 hs with h1 | ⟨l, hl, hv, hbad⟩
    · cases h1
    · exact absurd hbad (hgood l hl hv)

/-- C21, amended.  For every openable file that contains no vertex line, on a
run that stays inside its buffers (`fault = false`),
`parser` on an empty mesh returns `OK`, with `vertex_count = 0` and a vertex
buffer of one row of 3 columns (row 0), all zero: `create_matrix` is asked for
`vertex_count + 1` rows, which is never zero, so it does not reject the file. -/
theorem zero_vertex_file_loads {α : Type} [Zero α] (fopen : String → Option (List Char))
    (scan : List Char → Option (α × α × α)) (name : String) (text : List Char)
    (hopen : fopen name = some text)
    (hnone : (getlines text).countP is_vertex_line = 0)
    (hfault : (parser fopen scan (some name) (some empty_object)).fault = false) :
    (parser fopen scan (some name) (some empty_object)).ret = status.OK ∧
    ∃ e, (parser fopen scan (some name) (some empty_object)).obj = some e ∧
      e.vertex_count = 0 ∧
      e.vertex_array = { rows := 1, colums := 3, matrix := some [0, 0, 0] } := by
  have _ := hfault
  have hnov : ∀ l ∈ getlines text, is_vertex_line l = true → scan (cstr l) ≠ none := by
    intro l hl hv
    have hpos : 0 < (getlines text).countP is_vertex_line :=
      List.countP_pos_iff.2 ⟨l, hl, hv⟩
    omega
  refine ⟨parser_ok_of_wellformed fopen scan name text hopen hnov, ?_⟩
  obtain ⟨e, he, hv, hbuf⟩ := parser_vertex_buffer fopen scan name text empty_object hopen
    (by rw [hnone]; simp only [empty_object]; decide)
  have hv0 : e.vertex_count = 0 := by
    rw [hv, hnone]; rfl
  refine ⟨e, he, hv0, ?_⟩
  have hrows : vertex_rows scan (getlines text) = [] := by
    apply List.eq_nil_of_length_eq_zero
    have := vertex_rows_length_le scan (getlines text)
    omega
  rw [hbuf, hrows, hv0]
  rfl

theorem zero_vertex_file_loads_witness :
    (getlines "# no vertex\nvn 0 0 1\nf 1 2 3\n".toList).countP is_vertex_line = 0 ∧
    (parser (fun _ => some "# no vertex\nvn 0 0 1\nf 1 2 3\n".toList) sscanf_rat
        (some "a.obj") (some empty_object)).fault = false ∧
    (parser (fun _ => some "# no vertex\nvn 0 0 1\nf 1 2 3\n".toList) sscanf_rat
        (some "a.obj") (some empty_object)).ret = status.OK :=
  have hfault : (parser (fun _ => some "# no vertex\nvn 0 0 1\nf 1 2 3\n".toList) sscanf_rat
      (some "a.obj") (some empty_object)).fault = false := by with_unfolding_all decide
  ⟨by decide, hfault,
    (zero_vertex_file_loads (fun _ => some "# no vertex\nvn 0 0 1\nf 1 2 3\n".toList)
      sscanf_rat "a.obj" "# no vertex\nvn 0 0 1\nf 1 2 3\n".toList rfl (by decide)
      hfault).1⟩

/-- C21 as stated fails: the empty file, and the file holding only the line
`f 1`, can be opened and have no vertex line, and `parser` on an empty mesh
returns `OK` on both, with `vertex_count = 0`. -/
theorem zero_vertex_file_loads_counterexample :
    (getlines "".toList).countP is_vertex_line = 0 ∧
    (parser (fun _ => some "".toList) sscanf_rat (some "a.obj")
        (some empty_object)).ret = status.OK ∧
    (getlines "f 1\n".toList).countP is_vertex_line = 0 ∧
    (parser (fun _ => some "f 1\n".toList) sscanf_rat (some "a.obj")
        (some empty_object)).ret = status.OK ∧
    (parser (fun _ => some "f 1\n".toList) sscanf_rat (some "a.obj")
        (some empty_object)).obj.map (fun e => e.vertex_count) = some 0 := by
  refine ⟨by decide, by with_unfolding_all decide, by decide, by with_unfolding_all decide,
    by with_unfolding_all decide⟩

/-! ## Negative face indices, by the formula -/

/-- C22, amended.  Take a face line of the file preceded by exactly `n` vertex
lines from which `scan` reads three numbers, and a token that `atoi` converts to
`-k`, `k ≥ 1`, at a position `p` below the count of the line's first scan (so
the face has a cell `p`).  The local `count` is `n + 1` at that line, and after
`parser` on the all-zero object, on a run that stays inside its buffers
(`fault = false`), cell `p` of the face of that line holds
`count + (-k)` reduced to the 32 bits of the cell, which is `n + 1 - k` when
`k ≤ n + 1` and `n + 1 - k < 2^32`. -/
theorem negative_index_formula {α : Type} [Zero α] (fopen : String → Option (List Char))
    (scan : List Char → Option (α × α × α)) (name : String) (text : List Char)
    (hopen : fopen name = some text)
    (before following : List (List Char)) (l : List Char)
    (hlines : getlines text = before ++ l :: following)
    (hface : is_face_line l = true)
    (n : Nat) (hn : (vertex_rows scan before).length = n)
    (p k : Nat) (tok : List Char)
    (htok : (strtok_all (cstr l).tail)[p]? = some tok)
    (hp : p < first_scan l)
    (hneg : atoi tok = -(k : Int)) (hk1 : 1 ≤ k)
    (hfault : (parser fopen scan (some name) (some empty_object)).fault = false) :
    ∃ e face cells, (parser fopen scan (some name) (some empty_object)).obj = some e ∧
      face_slot e.polygon_array (before.countP is_stored_face_line) = some face ∧
      face.polygon = some cells ∧
      cells[p]? = some ((((n + 1 : Nat) : Int) + -(k : Int)) % 4294967296).toNat ∧
      (k ≤ n + 1 → n + 1 - k < 4294967296 → cells[p]? = some (n + 1 - k)) := by
  have _ := hfault
  have hv : is_vertex_line l = false := not_vertex_of_face hface
  have hsf : is_stored_face_line l = true := by
    simp [is_stored_face_line, hface]; omega
  have hcount : 0 < (getlines text).countP is_face_line := by
    rw [hlines, List.countP_append, List.countP_cons]
    simp [hface]
  obtain ⟨e, faces, he, hpa, _, _, _, _, hst, _⟩ :=
    parser_face_list fopen scan name text hopen hcount
  have hsplit : stored_faces scan 1 (getlines text) =
      stored_faces scan 1 before ++
        (face_of (n + 1) l :: stored_faces scan (n + 1) following) := by
    rw [hlines, stored_faces_append, hn]
    have e1 : stored_faces scan (1 + n) (l :: following) =
        face_of (1 + n) l :: stored_faces scan (1 + n) following := by
      simp [stored_faces, hv, hsf]
    rw [e1, Nat.add_comm 1 n]
  have hget : (stored_faces scan 1 (getlines text))[before.countP is_stored_face_line]? =
      some (face_of (n + 1) l) := by
    rw [hsplit, ← stored_faces_length scan before 1,
      List.getElem?_append_right (Nat.le_refl _), Nat.sub_self, List.getElem?_cons_zero]
  obtain ⟨cells, hc1, _, hc3⟩ := face_of_cell (n + 1) l p _ htok hp
  have hval : stored_index (n + 1) tok =
      ((((n + 1 : Nat) : Int) + -(k : Int)) % 4294967296).toNat := by
    unfold stored_index
    simp only [hneg]
    rw [if_pos (by omega)]
  refine ⟨e, face_of (n + 1) l, cells, he, ?_, hc1, ?_, ?_⟩
  · rw [hpa]
    exact hst _ _ hget
  · rw [hc3, hval]
  · intro hk hsmall
    rw [hc3, hval]
    have hmod : (((n + 1 : Nat) : Int) + -(k : Int)) % 4294967296 =
        ((n + 1 : Nat) : Int) + -(k : Int) :=
      Int.emod_eq_of_lt (by omega) (by omega)
    rw [hmod]
    congr 1
    omega

/-- The formula on a file where two vertex lines precede the face line `f 1 -2`
and one follows it: the token `-2` is stored as `2 + 1 - 2 = 1`. -/
theorem negative_index_formula_witness :
    getlines "v 0 0 0\nv 1 1 1\nf 1 -2\nv 2 2 2\n".toList =
      ["v 0 0 0\n".toList, "v 1 1 1\n".toList] ++ "f 1 -2\n".toList :: ["v 2 2 2\n".toList] ∧
    atoi "-2\n".toList = -((2 : Nat) : Int) ∧
    (parser (fun _ => some "v 0 0 0\nv 1 1 1\nf 1 -2\nv 2 2 2\n".toList)
        sscanf_rat (some "a.obj") (some empty_object)).fault = false ∧
    ∃ e face cells, (parser (fun _ => some "v 0 0 0\nv 1 1 1\nf 1 -2\nv 2 2 2\n".toList)
        sscanf_rat (some "a.obj") (some empty_object)).obj = some e ∧
      face_slot e.polygon_array
        (["v 0 0 0\n".toList, "v 1 1 1\n".toList].countP is_stored_face_line) = some face ∧
      face.polygon = some cells ∧ cells[1]? = some (2 + 1 - 2) :=
  have h : getlines "v 0 0 0\nv 1 1 1\nf 1 -2\nv 2 2 2\n".toList =
      ["v 0 0 0\n".toList, "v 1 1 1\n".toList] ++ "f 1 -2\n".toList :: ["v 2 2 2\n".toList] := by
    decide
  have ha : atoi "-2\n".toList = -((2 : Nat) : Int) := by decide
  have hfault : (parser (fun _ => some "v 0 0 0\nv 1 1 1\nf 1 -2\nv 2 2 2\n".toList)
      sscanf_rat (some "a.obj") (some empty_object)).fault = false := by
    with_unfolding_all decide
  ⟨h, ha, hfault, by
    obtain ⟨e, face, cells, he, hslot, hcells, _, hcell⟩ :=
      negative_index_formula (fun _ => some "v 0 0 0\nv 1 1 1\nf 1 -2\nv 2 2 2\n".toList)
        sscanf_rat "a.obj" _ rfl _ _ _ h (by decide) 2 (by with_unfolding_all decide)
        1 2 "-2\n".toList (by decide) (by decide) ha (by decide) hfault
    exact ⟨e, face, cells, he, hslot, hcells, hcell (by decide) (by decide)⟩⟩

/-- C22 as stated fails by one: in the file `v 0 0 0`, `v 1 0 0`, `v 0 1 0`,
`f -1` three vertex lines are read before the face line and the token `-1` is
stored as 3, not as `3 - 1 = 2`: the local `count` starts at 1, so it is one
more than the number of vertex lines read. -/
theorem negative_index_formula_counterexample :
    getlines "v 0 0 0\nv 1 0 0\nv 0 1 0\nf -1\n".toList =
      ["v 0 0 0\n".toList, "v 1 0 0\n".toList, "v 0 1 0\n".toList] ++ ["f -1\n".toList] ∧
    ["v 0 0 0\n".toList, "v 1 0 0\n".toList, "v 0 1 0\n".toList].countP is_vertex_line = 3 ∧
    strtok_all (cstr "f -1\n".toList).tail = ["-1\n".toList] ∧
    atoi "-1\n".toList = -1 ∧
    (parser (fun _ => some "v 0 0 0\nv 1 0 0\nv 0 1 0\nf -1\n".toList) sscanf_rat
        (some "a.obj") (some empty_object)).obj.map (fun e => e.polygon_array) =
      some (some [{ polygon := some [3], colums := 1 }]) ∧
    (3 : Nat) ≠ 3 - 1 := by
  refine ⟨by decide, by decide, by decide, by decide, by with_unfolding_all decide,
    by decide⟩

/-! ## What the transforms leave alone -/

theorem same_topology_refl {α : Type} (d : data_object α) : same_topology d d :=
  ⟨rfl, rfl, rfl, rfl, rfl, rfl, rfl⟩

theorem same_topology_with_cells {α : Type} (d : data_object α) (cells : List α) :
    same_topology d (with_cells d cells) :=
  ⟨rfl, rfl, rfl, rfl, rfl, rfl, rfl⟩

/-- C23.  On a mesh whose vertex buffer is not null and holds its
`(vertex_count + 1) * 3` cells, each of `move_x`, `move_y`, `move_z`,
`rotate_x`, `rotate_y`, `rotate_z` and `scale`, with any arguments, returns an
object with the same `vertex_count`, `polygon_count`, `edges_count`,
`all_edges_count` and face list (the whole `polygon_array`, so every face's
length and index list), and the same `rows` and `colums` of the vertex buffer:
only the cells of the vertex buffer can differ, and their number is kept. -/
theorem transforms_keep_topology {α : Type} [Add α] [Sub α] [Mul α] [Div α] [Neg α]
    [OfNat α 180] [IntCast α] (d : data_object α) (cosf sinf : α → α) (pi a b : α)
    (p q : Int) (cells : List α) (hm : d.vertex_array.matrix = some cells)
    (hsize : (d.vertex_count + 1) * 3 ≤ cells.length) :
    ∀ e ∈ [move_x d a b, move_y d a b, move_z d a b, rotate_x cosf sinf pi d a b,
        rotate_y cosf sinf pi d a b, rotate_z cosf sinf pi d a b, scale d p q],
      same_topology d e ∧
      ∃ after, e.vertex_array.matrix = some after ∧ after.length = cells.length := by
  have _ := hsize
  intro e he
  simp only [List.mem_cons, List.mem_singleton, List.not_mem_nil, or_false] at he
  rcases he with h | h | h | h | h | h | h <;> rw [h] <;>
    simp only [move_x, move_y, move_z, rotate_x, rotate_y, rotate_z, scale, hm]
  · exact ⟨same_topology_with_cells d _, _, rfl,
      for_loop_length _ _ _ (update_cell_length _) _ _ _⟩
  · exact ⟨same_topology_with_cells d _, _, rfl,
      for_loop_length _ _ _ (update_cell_length _) _ _ _⟩
  · exact ⟨same_topology_with_cells d _, _, rfl,
      for_loop_length _ _ _ (update_cell_length _) _ _ _⟩
  · exact ⟨same_topology_with_cells d _, _, rfl,
      for_loop_length _ _ _ (update_pair_length _ _ _ _) _ _ _⟩
  · exact ⟨same_topology_with_cells d _, _, rfl,
      for_loop_length _ _ _ (update_pair_length _ _ _ _) _ _ _⟩
  · exact ⟨same_topology_with_cells d _, _, rfl,
      for_loop_length _ _ _ (update_pair_length _ _ _ _) _ _ _⟩
  · exact ⟨same_topology_with_cells d _, _, rfl,
      for_loop_length _ _ _ (update_cell_length _) _ _ _⟩

/-- The seven transforms on the test object with two vertices. -/
theorem transforms_keep_topology_witness :
    (initialize_data_object 2 : data_object ℚ).vertex_array.matrix =
      some [0, 0, 0, 1, 1, 1, 2, 2, 2] ∧
    ((initialize_data_object 2 : data_object ℚ).vertex_count + 1) * 3 ≤
      [(0 : ℚ), 0, 0, 1, 1, 1, 2, 2, 2].length ∧
    same_topology (initialize_data_object 2 : data_object ℚ)
      (rotate_z (fun _ => 0) (fun _ => 1) (22 / 7) (initialize_data_object 2) 90 0) ∧
    same_topology (initialize_data_object 2 : data_object ℚ)
      (scale (initialize_data_object 2) 3 1) :=
  have hm : (initialize_data_object 2 : data_object ℚ).vertex_array.matrix =
      some [0, 0, 0, 1, 1, 1, 2, 2, 2] := by with_unfolding_all decide
  have hs : ((initialize_data_object 2 : data_object ℚ).vertex_count + 1) * 3 ≤
      [(0 : ℚ), 0, 0, 1, 1, 1, 2, 2, 2].length := by decide
  ⟨hm, hs,
    (transforms_keep_topology (initialize_data_object 2 : data_object ℚ) (fun _ => 0)
      (fun _ => 1) (22 / 7) 90 0 3 1 _ hm hs _ (by simp)).1,
    (transforms_keep_topology (initialize_data_object 2 : data_object ℚ) (fun _ => 0)
      (fun _ => 1) (22 / 7) 90 0 3 1 _ hm hs _ (by simp)).1⟩

/-! ## Translation of a mesh without buffer -/

/-- C24.  When the vertex buffer pointer of the mesh is null, `move_x`, `move_y`
and `move_z` return the mesh as it was, whatever the values `new_value` and
`old_value`. -/
theorem translate_empty_noop {α : Type} [Add α] [Sub α] (d : data_object α)
    (new_value old_value : α) (hnull : d.vertex_array.matrix = none) :
    move_x d new_value old_value = d ∧ move_y d new_value old_value = d ∧
    move_z d new_value old_value = d := by
  simp only [move_x, move_y, move_z, hnull]
  exact ⟨trivial, trivial, trivial⟩

theorem translate_empty_noop_witness :
    (empty_object : data_object ℚ).vertex_array.matrix = none ∧
    move_x (empty_object : data_object ℚ) 5 2 = empty_object ∧
    move_y (empty_object : data_object ℚ) 5 2 = empty_object ∧
    move_z (empty_object : data_object ℚ) 5 2 = empty_object :=
  ⟨rfl, translate_empty_noop (empty_object : data_object ℚ) 5 2 rfl⟩

/-! ## The allocation helpers -/

/-- What the allocation helpers do, for every answer of the allocator:
`create_matrix` returns `ERROR` exactly when `rows = 0` or `colums = 0`, and
`create_polygon` on a non-null face returns `ERROR` exactly when `col = 0`.  On
`ERROR` the buffer pointer of the target is null (its other fields are as
before).  On `OK` the target holds the dimensions asked for; its buffer is null
when `calloc` returned `NULL`, and otherwise holds `rows * colums` reduced
modulo `2^64` (respectively `col`) cells, all zero, which is `rows * colums`
cells when the product is below `2^64`. -/
theorem allocation_helpers_general {α : Type} [Zero α] (calloc : Nat → Nat → Bool)
    (rows colums col : Nat) (m : matrix_t α) (p : polygon_t) :
    ((create_matrix calloc rows colums m).1 = status.ERROR ↔ rows = 0 ∨ colums = 0) ∧
    ((create_matrix calloc rows colums m).1 = status.ERROR →
      (create_matrix calloc rows colums m).2 = { m with matrix := none }) ∧
    ((create_matrix calloc rows colums m).1 = status.OK →
      (create_matrix calloc rows colums m).2.rows = rows ∧
      (create_matrix calloc rows colums m).2.colums = colums ∧
      (calloc (rows * colums % 18446744073709551616) 8 = false →
        (create_matrix calloc rows colums m).2.matrix = none) ∧
      (calloc (rows * colums % 18446744073709551616) 8 = true →
        (create_matrix calloc rows colums m).2.matrix =
          some (List.replicate (rows * colums % 18446744073709551616) 0)) ∧
      (calloc (rows * colums % 18446744073709551616) 8 = true →
        rows * colums < 18446744073709551616 →
        (create_matrix calloc rows colums m).2.matrix =
          some (List.replicate (rows * colums) 0))) ∧
    ((create_polygon calloc col (some p)).1 = status.ERROR ↔ col = 0) ∧
    ((create_polygon calloc col (some p)).1 = status.ERROR →
      (create_polygon calloc col (some p)).2 = some { p with polygon := none }) ∧
    ((create_polygon calloc col (some p)).1 = status.OK →
      (calloc col 4 = false →
        (create_polygon calloc col (some p)).2 = some { colums := col, polygon := none }) ∧
      (calloc col 4 = true →
        (create_polygon calloc col (some p)).2 =
          some { colums := col, polygon := some (List.replicate col 0) })) := by
  refine ⟨?_, ?_, ?_, ?_, ?_, ?_⟩
  · unfold create_matrix
    by_cases h : rows > 0 ∧ colums > 0
    · rw [if_pos h]
      constructor
      · intro he; cases he
      · intro hz; omega
    · rw [if_neg h]
      constructor
      · intro _; omega
      · intro _; rfl
  · unfold create_matrix
    by_cases h : rows > 0 ∧ colums > 0
    · rw [if_pos h]
      intro he; cases he
    · rw [if_neg h]
      intro _; rfl
  · unfold create_matrix
    by_cases h : rows > 0 ∧ colums > 0
    · rw [if_pos h]
      intro _
      refine ⟨rfl, rfl, ?_, ?_, ?_⟩
      · intro hc
        simp only [hc, Bool.false_eq_true, if_false]
      · intro hc
        simp only [hc, if_true]
      · intro hc hlt
        rw [Nat.mod_eq_of_lt hlt] at hc
        simp only [hc, if_true, Nat.mod_eq_of_lt hlt]
    · rw [if_neg h]
      intro he; cases he
  · unfold create_polygon
    by_cases h : col > 0
    · simp only [if_pos h]
      constructor
      · intro he; cases he
      · intro hz; omega
    · simp only [if_neg h]
      constructor
      · intro _; omega
      · intro _; trivial
  · unfold create_polygon
    by_cases h : col > 0
    · simp only [if_pos h]
      intro he; cases he
    · simp only [if_neg h]
      intro _; trivial
  · unfold create_polygon
    by_cases h : col > 0
    · simp only [if_pos h]
      intro _
      constructor
      · intro hc
        simp only [hc, Bool.false_eq_true, if_false]
      · intro hc
        simp only [hc, if_true]
    · simp only [if_neg h]
      intro he; cases he

theorem allocation_helpers_general_at :
    (create_matrix served 0 3 ({ matrix := some [1], rows := 1, colums := 1 } : matrix_t ℚ)).2 =
      { matrix := none, rows := 1, colums := 1 } ∧
    (create_matrix served 2 3 ({ matrix := none, rows := 0, colums := 0 } : matrix_t ℚ)).2.matrix =
      some (List.replicate (2 * 3) 0) ∧
    (create_polygon served 0 (some { polygon := some [7], colums := 1 })).2 =
      some { polygon := none, colums := 1 } ∧
    (create_polygon served 2 (some { polygon := none, colums := 0 })).2 =
      some { polygon := some [0, 0], colums := 2 } :=
  ⟨(allocation_helpers_general served 0 3 0
      ({ matrix := some [1], rows := 1, colums := 1 } : matrix_t ℚ)
      { polygon := some [7], colums := 1 }).2.1 rfl,
    ((allocation_helpers_general served 2 3 2
      ({ matrix := none, rows := 0, colums := 0 } : matrix_t ℚ)
      { polygon := none, colums := 0 }).2.2.1 rfl).2.2.2.2 rfl (by decide),
    (allocation_helpers_general served 0 3 0
      ({ matrix := some [1], rows := 1, colums := 1 } : matrix_t ℚ)
      { polygon := some [7], colums := 1 }).2.2.2.2.1 rfl,
    ((allocation_helpers_general served 2 3 2
      ({ matrix := none, rows := 0, colums := 0 } : matrix_t ℚ)
      { polygon := none, colums := 0 }).2.2.2.2.2 rfl).2 rfl⟩

theorem set_same {β : Type} (l : List β) (m : Nat) (x : β) (h : l[m]? = some x) :
    l.set m x = l := by
  apply List.ext_getElem?
  intro k
  rw [List.getElem?_set]
  by_cases hk : m = k
  · subst hk
    have hlt : m < l.length := by
      by_contra hge
      rw [List.getElem?_eq_none (by omega)] at h
      cases h
    rw [if_pos rfl, if_pos hlt, h]
  · rw [if_neg hk]

/-- A face line whose first scan counts no token, met with `edges_count` at zero
and an empty current slot, leaves the state of the parse pass as it was (but for
the record of a copy into `str` that does not fit). -/
theorem parse_line_skipped {α : Type} (scan : List Char → Option (α × α × α))
    (st : parse_state α) (l : List Char) (faces : List polygon_t)
    (hface : is_face_line l = true) (hzero : first_scan l = 0)
    (hm : st.data_obj.polygon_array = some faces)
    (hedges : st.data_obj.edges_count = 0)
    (hslot : faces[st.m]? = some { polygon := none, colums := 0 }) :
    (parse_line scan st l).status = st.status ∧ (parse_line scan st l).m = st.m ∧
    (parse_line scan st l).count = st.count ∧ (parse_line scan st l).i = st.i ∧
    (parse_line scan st l).data_obj = st.data_obj := by
  have hv : is_vertex_line l = false := not_vertex_of_face hface
  obtain ⟨sts, count, i, m, ⟨vc, va, pc, ec, aec, pa⟩, fault⟩ := st
  simp only at hm hedges hslot
  subst hm hedges
  simp [parse_line, hv, hface, parse_face, face_slot, slot_pointer, hslot, create_polygon, served,
    set_face_slot, hzero, set_same faces m _ hslot]

/-- The stored faces are those of the face lines with a non-empty first scan, in
file order. -/
theorem stored_faces_filter {α : Type} (scan : List Char → Option (α × α × α))
    (lines : List (List Char)) (count j : Nat) (l : List Char)
    (hj : (lines.filter is_stored_face_line)[j]? = some l) :
    ∃ c, (stored_faces scan count lines)[j]? = some (face_of c l) := by
  induction lines generalizing count j with
  | nil => simp at hj
  | cons a ls ih =>
    by_cases hv : is_vertex_line a = true
    · have hsf : is_stored_face_line a = false := by
        cases h : is_face_line a
        · simp [is_stored_face_line, h]
        · rw [not_vertex_of_face h] at hv; exact Bool.noConfusion hv
      rw [List.filter_cons, hsf] at hj
      cases hs : scan (cstr a) with
      | none =>
        simp only [stored_faces, hv, if_true, hs]
        exact ih count j hj
      | some t =>
        simp only [stored_faces, hv, if_true, hs]
        exact ih (count + 1) j hj
    · by_cases hsf : is_stored_face_line a = true
      · rw [List.filter_cons, hsf] at hj
        simp only [stored_faces, hv, hsf, if_true]
        cases j with
        | zero =>
          simp only [if_true, List.getElem?_cons_zero, Option.some.injEq] at hj
          subst hj
          exact ⟨count, by simp⟩
        | succ j =>
          simp only [if_true, List.getElem?_cons_succ] at hj
          obtain ⟨c, hc⟩ := ih count j hj
          exact ⟨c, by simpa using hc⟩
      · have hsf2 : is_stored_face_line a = false := by
          cases h : is_stored_face_line a
          · rfl
          · exact absurd h hsf
        rw [List.filter_cons, hsf2] at hj
        simp only [stored_faces, hv, hsf2]
        exact ih count j hj

theorem edge_total_no_faces (lines : List (List Char))
    (hnone : lines.countP is_face_line = 0) : lines.filter is_stored_face_line = [] := by
  rw [List.filter_eq_nil_iff]
  intro l hl hs
  simp only [is_stored_face_line, Bool.and_eq_true] at hs
  have hpos : 0 < lines.countP is_face_line := List.countP_pos_iff.2 ⟨l, hl, hs.1⟩
  omega

/-- The cells of the face built for a face line: the stored values of the tokens
counted by the first scan, in their order. -/
theorem face_of_eq (count : Nat) (buff : List Char) :
    face_of count buff =
      { colums := first_scan buff
        polygon := some (((strtok_all (cstr buff).tail).takeWhile
          (fun istr => atoi istr != 0)).map (stored_index count)) } := by
  unfold face_of
  congr 2
  apply List.ext_getElem?
  intro p
  rw [write_indices_get]
  have hfs : first_scan buff ≤ (strtok_all (cstr buff).tail).length :=
    takeWhile_length_le _ _
  by_cases hp : p < first_scan buff
  · rw [if_pos ⟨Nat.zero_le _, by omega, by rw [List.length_replicate]; exact hp⟩]
    rw [List.getElem?_map, takeWhile_getElem? _ _ p hp]
    rfl
  · rw [if_neg (by rw [List.length_replicate]; omega)]
    rw [List.getElem?_eq_none (by rw [List.length_replicate]; omega)]
    rw [List.getElem?_eq_none]
    rw [List.length_map]
    exact Nat.le_of_not_lt hp

/-- The face of a face line with a non-empty first scan, after `parser` on the
all-zero object: it stands in the slot numbered by the face lines above it that
got a face, built with the local `count` of that line. -/
theorem parser_face_at {α : Type} [Zero α] (fopen : String → Option (List Char))
    (scan : List Char → Option (α × α × α)) (name : String) (text : List Char)
    (hopen : fopen name = some text)
    (before following : List (List Char)) (l : List Char)
    (hlines : getlines text = before ++ l :: following)
    (hsf : is_stored_face_line l = true) :
    ∃ e, (parser fopen scan (some name) (some empty_object)).obj = some e ∧
      face_slot e.polygon_array (before.countP is_stored_face_line) =
        some (face_of (1 + (vertex_rows scan before).length) l) := by
  have hface : is_face_line l = true := by
    simp only [is_stored_face_line, Bool.and_eq_true] at hsf
    exact hsf.1
  have hv : is_vertex_line l = false := not_vertex_of_face hface
  have hcount : 0 < (getlines text).countP is_face_line := by
    rw [hlines, List.countP_append, List.countP_cons]
    simp [hface]
  obtain ⟨e, faces, he, hpa, _, _, _, _, hst, _⟩ :=
    parser_face_list fopen scan name text hopen hcount
  have hsplit : stored_faces scan 1 (getlines text) =
      stored_faces scan 1 before ++
        (face_of (1 + (vertex_rows scan before).length) l ::
          stored_faces scan (1 + (vertex_rows scan before).length) following) := by
    rw [hlines, stored_faces_append]
    simp [stored_faces, hv, hsf]
  have hget : (stored_faces scan 1 (getlines text))[before.countP is_stored_face_line]? =
      some (face_of (1 + (vertex_rows scan before).length) l) := by
    rw [hsplit, ← stored_faces_length scan before 1,
      List.getElem?_append_right (Nat.le_refl _), Nat.sub_self, List.getElem?_cons_zero]
  refine ⟨e, he, ?_⟩
  rw [hpa]
  exact hst _ _ hget

/-- C26.  A face line whose first scan counts no token, met in a state with
`edges_count = 0` and an empty current face slot, leaves `status`, `count`, the
cursors `i` and `m` and the whole object as they were: no face storage, no
change of `all_edges_count`, no slot consumed.  Hence after `parser` on an
empty mesh, on a run that stays inside its buffers (`fault = false`), the load
fails only on a malformed vertex line, `all_edges_count` counts only the tokens
of the face lines with a non-empty first scan, each of these lines has its
face in the slot numbered by the lines of this kind above it, holding the
values stored for the tokens its first scan counts, and the slots from their
number up to `polygon_count` are empty (null index list, length 0). -/
theorem empty_face_lines_skipped {α : Type} [Zero α] (fopen : String → Option (List Char))
    (scan : List Char → Option (α × α × α)) (name : String) (text : List Char)
    (hopen : fopen name = some text)
    (hfault : (parser fopen scan (some name) (some empty_object)).fault = false) :
    (∀ (st : parse_state α) (l : List Char) (faces : List polygon_t),
      is_face_line l = true → first_scan l = 0 →
      st.data_obj.polygon_array = some faces → st.data_obj.edges_count = 0 →
      faces[st.m]? = some { polygon := none, colums := 0 } →
      (parse_line scan st l).status = st.status ∧ (parse_line scan st l).m = st.m ∧
      (parse_line scan st l).count = st.count ∧ (parse_line scan st l).i = st.i ∧
      (parse_line scan st l).data_obj = st.data_obj) ∧
    ∃ e, (parser fopen scan (some name) (some empty_object)).obj = some e ∧
      ((parser fopen scan (some name) (some empty_object)).ret = status.ERROR ↔
        ∃ l ∈ getlines text, is_vertex_line l = true ∧ scan (cstr l) = none) ∧
      e.polygon_count = (getlines text).countP is_face_line ∧
      e.all_edges_count =
        (((getlines text).filter (fun l => is_face_line l && decide (0 < first_scan l))).map
          (fun l => (strtok_all (cstr l).tail).length)).sum ∧
      (∀ (before following : List (List Char)) (l : List Char),
        getlines text = before ++ l :: following →
        is_face_line l = true → 0 < first_scan l →
        face_slot e.polygon_array
            (before.countP (fun b => is_face_line b && decide (0 < first_scan b))) =
          some { colums := first_scan l
                 polygon := some (((strtok_all (cstr l).tail).takeWhile
                   (fun istr => atoi istr != 0)).map
                     (stored_index (1 + (vertex_rows scan before).length))) }) ∧
      (∀ j : Nat,
        (getlines text).countP (fun l => is_face_line l && decide (0 < first_scan l)) ≤ j →
        j < e.polygon_count →
        face_slot e.polygon_array j = some { polygon := none, colums := 0 }) := by
  have _ := hfault
  refine ⟨fun st l faces hface hzero hm hedges hslot =>
    parse_line_skipped scan st l faces hface hzero hm hedges hslot, ?_⟩
  have hfilter : (fun l => is_face_line l && decide (0 < first_scan l)) =
      is_stored_face_line := by
    funext l
    rfl
  rw [hfilter]
  have hret : (parser fopen scan (some name) (some empty_object)).ret = status.ERROR ↔
      ∃ l ∈ getlines text, is_vertex_line l = true ∧ scan (cstr l) = none := by
    rw [parser_open fopen scan name text empty_object hopen]
    have h := parse_fold_status scan (getlines text)
      { status := status.OK, count := 1, i := 3, m := 0,
        data_obj := prepared text empty_object, fault := false }
    constructor
    · intro herr
      rcases h.1 herr with h1 | h1
      · cases h1
      · exact h1
    · intro hbad
      exact h.2 (Or.inr hbad)
  obtain ⟨e0, he0, _, hpc⟩ :=
    parser_result_counts fopen scan name text (empty_object : data_object α) hopen
  have hpc0 : e0.polygon_count = (getlines text).countP is_face_line := by
    rw [hpc]; simp [empty_object]
  by_cases hface : 0 < (getlines text).countP is_face_line
  · obtain ⟨e, he, hfaces, hall⟩ := parser_faces_eq fopen scan name text hopen hface
    have hee : e0 = e := by
      rw [he] at he0
      exact (Option.some.inj he0).symm
    subst hee
    refine ⟨e0, he, hret, hpc0, hall, ?_, ?_⟩
    · intro before following l hlines hfl hpos
      have hsf : is_stored_face_line l = true := by
        simp [is_stored_face_line, hfl, hpos]
      obtain ⟨e1, he1, hslot⟩ :=
        parser_face_at fopen scan name text hopen before following l hlines hsf
      have hee : e1 = e0 := by
        rw [he] at he1
        exact (Option.some.inj he1).symm
      subst hee
      rw [hslot, face_of_eq]
    · intro j hj hjf
      rw [hfaces]
      simp only [face_slot]
      have hlen : (stored_faces scan 1 (getlines text)).length =
          (getlines text).countP is_stored_face_line := stored_faces_length _ _ _
      rw [List.getElem?_append_right (by omega), List.getElem?_replicate, if_pos]
      rw [hpc0] at hjf
      omega
  · have hnone : (getlines text).countP is_face_line = 0 := by omega
    obtain ⟨e, he, hfaces, hall⟩ := parser_no_faces fopen scan name text hopen hnone
    have hee : e0 = e := by
      rw [he] at he0
      exact (Option.some.inj he0).symm
    subst hee
    have hempty := edge_total_no_faces (getlines text) hnone
    refine ⟨e0, he, hret, hpc0, ?_, ?_, ?_⟩
    · rw [hall, hempty]
      rfl
    · intro before following l hlines hfl _
      have hpos : 0 < (getlines text).countP is_face_line := by
        rw [hlines, List.countP_append, List.countP_cons]
        simp [hfl]
      omega
    · intro j _ hjf
      rw [hpc0, hnone] at hjf
      omega

/-- The file `v 0 0 0`, `f 0 1 2`, `f 1`, `f ` (a face line with nothing after
the space), `f 1 1`: the first scans of the second and fourth line count no
token, and the two faces stored are in slots 0 and 1 of four. -/
theorem empty_face_lines_skipped_witness :
    first_scan "f 0 1 2\n".toList = 0 ∧ first_scan "f \n".toList = 0 ∧
    (parser (fun _ => some "v 0 0 0\nf 0 1 2\nf 1\nf \nf 1 1\n".toList) sscanf_rat
        (some "a.obj") (some empty_object)).ret = status.OK ∧
    (parser (fun _ => some "v 0 0 0\nf 0 1 2\nf 1\nf \nf 1 1\n".toList) sscanf_rat
        (some "a.obj") (some empty_object)).fault = false ∧
    ∃ e, (parser (fun _ => some "v 0 0 0\nf 0 1 2\nf 1\nf \nf 1 1\n".toList) sscanf_rat
        (some "a.obj") (some empty_object)).obj = some e ∧
      e.polygon_count = 4 ∧
      face_slot e.polygon_array 2 = some { polygon := none, colums := 0 } ∧
      face_slot e.polygon_array 3 = some { polygon := none, colums := 0 } := by
  have hfault : (parser (fun _ => some "v 0 0 0\nf 0 1 2\nf 1\nf \nf 1 1\n".toList) sscanf_rat
      (some "a.obj") (some empty_object)).fault = false := by with_unfolding_all decide
  obtain ⟨_, e, he, _, hpc, _, _, hrest⟩ :=
    empty_face_lines_skipped (fun _ => some "v 0 0 0\nf 0 1 2\nf 1\nf \nf 1 1\n".toList)
      sscanf_rat "a.obj" "v 0 0 0\nf 0 1 2\nf 1\nf \nf 1 1\n".toList rfl hfault
  have hF : (getlines "v 0 0 0\nf 0 1 2\nf 1\nf \nf 1 1\n".toList).countP is_face_line = 4 := by
    decide
  have hk : (getlines "v 0 0 0\nf 0 1 2\nf 1\nf \nf 1 1\n".toList).countP
      (fun l => is_face_line l && decide (0 < first_scan l)) = 2 := by decide
  rw [hF] at hpc
  refine ⟨by decide, by decide, by with_unfolding_all decide, hfault, e, he, hpc,
    hrest 2 (by rw [hk]) (by rw [hpc]; decide), hrest 3 (by rw [hk]; decide)
      (by rw [hpc]; decide)⟩

/-! ## Writes of the second scan -/

/-- C27 at the failing inputs.  On the face line `f 1 2 3 ` (a space before the
newline) the first scan counts 3 tokens and the second scan visits 4; on
`f 1 0 2` the first scan counts 1 token and the second scan visits 3.  In both
cases the second scan writes past the cells of the face (the flag of
`write_indices`), and a load of a file with such a line returns `OK` after a
write outside the face's array. -/
theorem face_write_overrun :
    first_scan "f 1 2 3 \n".toList = 3 ∧
    (strtok_all (cstr "f 1 2 3 \n".toList).tail).length = 4 ∧
    (write_indices 1 (strtok_all (cstr "f 1 2 3 \n".toList).tail) 0
      (List.replicate (first_scan "f 1 2 3 \n".toList) 0)).2 = true ∧
    first_scan "f 1 0 2\n".toList = 1 ∧
    (strtok_all (cstr "f 1 0 2\n".toList).tail).length = 3 ∧
    (write_indices 1 (strtok_all (cstr "f 1 0 2\n".toList).tail) 0
      (List.replicate (first_scan "f 1 0 2\n".toList) 0)).2 = true ∧
    (parser (fun _ => some "v 0 0 0\nv 1 0 0\nf 1 0 2\n".toList) sscanf_rat (some "a.obj")
        (some empty_object)).ret = status.OK ∧
    (parser (fun _ => some "v 0 0 0\nv 1 0 0\nf 1 0 2\n".toList) sscanf_rat (some "a.obj")
        (some empty_object)).fault = true ∧
    (parser (fun _ => some "v 0 0 0\nv 1 0 0\nf 1 0 2\n".toList) sscanf_rat (some "a.obj")
        (some empty_object)).obj.map (fun e => e.polygon_array) =
      some (some [{ polygon := some [1], colums := 1 }]) := by
  refine ⟨by decide, by decide, by decide, by decide, by decide, by decide,
    by with_unfolding_all decide, by with_unfolding_all decide, by with_unfolding_all decide⟩

/-! ## Row 0 of the vertex buffer -/

/-- One line of the parse pass, for any answers of the allocator, writes no
counter of vertices or faces and neither dimension of the vertex buffer, and
keeps the buffer null or of the same number of cells. -/
theorem parse_line_heap_frame {α : Type} (calloc : Nat → Nat → Bool)
    (scan : List Char → Option (α × α × α)) (st : parse_state α) (buff : List Char) :
    (parse_line_heap calloc scan st buff).data_obj.vertex_count = st.data_obj.vertex_count ∧
    (parse_line_heap calloc scan st buff).data_obj.polygon_count = st.data_obj.polygon_count ∧
    (parse_line_heap calloc scan st buff).data_obj.vertex_array.rows =
      st.data_obj.vertex_array.rows ∧
    (parse_line_heap calloc scan st buff).data_obj.vertex_array.colums =
      st.data_obj.vertex_array.colums ∧
    (parse_line_heap calloc scan st buff).data_obj.vertex_array.matrix.map List.length =
      st.data_obj.vertex_array.matrix.map List.length := by
  unfold parse_line_heap
  split_ifs
  · unfold parse_vertex
    split
    · split
      · rename_i cells hm
        simp [hm]
      · rename_i hm
        simp [hm]
    · simp
  · unfold parse_face_heap
    dsimp only
    split_ifs <;> simp
  · simp

theorem parse_fold_heap_frame {α : Type} (calloc : Nat → Nat → Bool)
    (scan : List Char → Option (α × α × α)) (lines : List (List Char)) (st : parse_state α) :
    (lines.foldl (parse_line_heap calloc scan) st).data_obj.vertex_count =
      st.data_obj.vertex_count ∧
    (lines.foldl (parse_line_heap calloc scan) st).data_obj.polygon_count =
      st.data_obj.polygon_count ∧
    (lines.foldl (parse_line_heap calloc scan) st).data_obj.vertex_array.rows =
      st.data_obj.vertex_array.rows ∧
    (lines.foldl (parse_line_heap calloc scan) st).data_obj.vertex_array.colums =
      st.data_obj.vertex_array.colums ∧
    (lines.foldl (parse_line_heap calloc scan) st).data_obj.vertex_array.matrix.map
        List.length =
      st.data_obj.vertex_array.matrix.map List.length := by
  induction lines generalizing st with
  | nil => simp
  | cons l ls ih =>
    rw [List.foldl_cons]
    obtain ⟨h1, h2, h3, h4, h5⟩ := ih (parse_line_heap calloc scan st l)
    obtain ⟨k1, k2, k3, k4, k5⟩ := parse_line_heap_frame calloc scan st l
    exact ⟨h1.trans k1, h2.trans k2, h3.trans k3, h4.trans k4, h5.trans k5⟩

/-- What `parser` leaves of the counters and of the vertex buffer on a file it
can open, for any answers of the allocator, when `(vertex_count + 1) * 3` fits
`size_t`. -/
theorem parser_heap_counts {α : Type} [Zero α] (calloc : Nat → Nat → Bool)
    (fopen : String → Option (List Char)) (scan : List Char → Option (α × α × α))
    (name : String) (text : List Char) (d : data_object α) (hopen : fopen name = some text)
    (hsize : (d.vertex_count + (getlines text).countP is_vertex_line + 1) * 3 <
      18446744073709551616) :
    ∃ e, (parser_heap calloc fopen scan (some name) (some d)).obj = some e ∧
      e.vertex_count = d.vertex_count + (getlines text).countP is_vertex_line ∧
      e.polygon_count = d.polygon_count + (getlines text).countP is_face_line ∧
      e.vertex_array.rows = d.vertex_count + (getlines text).countP is_vertex_line + 1 ∧
      e.vertex_array.colums = 3 ∧
      e.vertex_array.matrix.map List.length =
        if calloc ((d.vertex_count + (getlines text).countP is_vertex_line + 1) * 3) 8 then
          some ((d.vertex_count + (getlines text).countP is_vertex_line + 1) * 3)
        else none := by
  have hpos : d.vertex_count + (getlines text).countP is_vertex_line + 1 > 0 ∧ 3 > 0 := by
    omega
  by_cases hp : d.polygon_count + (getlines text).countP is_face_line > 0
  · simp only [parser_heap, hopen, create_matrix, count_vert_pol, count_lines_fold, if_pos hp,
      if_pos hpos, if_true, Nat.mod_eq_of_lt hsize, parser_vert_pol_heap]
    refine ⟨_, rfl, ?_, ?_, ?_, ?_, ?_⟩
    · rw [(parse_fold_heap_frame calloc scan _ _).1]
    · rw [(parse_fold_heap_frame calloc scan _ _).2.1]
    · rw [(parse_fold_heap_frame calloc scan _ _).2.2.1]
    · rw [(parse_fold_heap_frame calloc scan _ _).2.2.2.1]
    · rw [(parse_fold_heap_frame calloc scan _ _).2.2.2.2]
      split_ifs <;> simp
  · simp only [parser_heap, hopen, create_matrix, count_vert_pol, count_lines_fold, if_neg hp,
      if_pos hpos, if_true, Nat.mod_eq_of_lt hsize, parser_vert_pol_heap]
    refine ⟨_, rfl, ?_, ?_, ?_, ?_, ?_⟩
    · rw [(parse_fold_heap_frame calloc scan _ _).1]
    · rw [(parse_fold_heap_frame calloc scan _ _).2.1]
    · rw [(parse_fold_heap_frame calloc scan _ _).2.2.1]
    · rw [(parse_fold_heap_frame calloc scan _ _).2.2.2.1]
    · rw [(parse_fold_heap_frame calloc scan _ _).2.2.2.2]
      split_ifs <;> simp

/-- C29.  `parser` adds to the counters it finds, for any answers of the
allocator: on a load that stays inside its buffers (`fault = false`) of an
object entering with `vertex_count = a` and `polygon_count = b`, with counters
and buffer size in the range of `size_t`, a file with `n` vertex lines and `p`
face lines leaves `vertex_count = a + n`, `polygon_count = b + p` and a vertex
buffer recorded as `a + n + 1` rows of 3 columns, which holds `(a + n + 1) * 3`
cells when `calloc` returned a block and is null when it did not.  As
`memory_free` keeps the counters, a second load of the same file on the freed
object, when it stays inside its buffers too, ends with `vertex_count = a + 2 n`:
`2 n` rather than `n` on a handle that was zero at the start. -/
theorem load_adds_to_counters {α : Type} [Zero α] (calloc : Nat → Nat → Bool)
    (fopen : String → Option (List Char)) (scan : List Char → Option (α × α × α))
    (name : String) (text : List Char) (d : data_object α) (hopen : fopen name = some text)
    (hfault : (parser_heap calloc fopen scan (some name) (some d)).fault = false)
    (hsize : (d.vertex_count + 2 * (getlines text).countP is_vertex_line + 1) * 3 <
      18446744073709551616)
    (hfaces : d.polygon_count + 2 * (getlines text).countP is_face_line <
      18446744073709551616) :
    ∃ e1, (parser_heap calloc fopen scan (some name) (some d)).obj = some e1 ∧
      e1.vertex_count = d.vertex_count + (getlines text).countP is_vertex_line ∧
      e1.polygon_count = d.polygon_count + (getlines text).countP is_face_line ∧
      e1.vertex_array.rows = d.vertex_count + (getlines text).countP is_vertex_line + 1 ∧
      e1.vertex_array.colums = 3 ∧
      e1.vertex_array.matrix.map List.length =
        (if calloc ((d.vertex_count + (getlines text).countP is_vertex_line + 1) * 3) 8 then
          some ((d.vertex_count + (getlines text).countP is_vertex_line + 1) * 3)
        else none) ∧
      (memory_free e1).vertex_count =
        d.vertex_count + (getlines text).countP is_vertex_line ∧
      (memory_free e1).polygon_count =
        d.polygon_count + (getlines text).countP is_face_line ∧
      ((parser_heap calloc fopen scan (some name) (some (memory_free e1))).fault = false →
        ∃ e2, (parser_heap calloc fopen scan (some name) (some (memory_free e1))).obj =
            some e2 ∧
          e2.vertex_count = d.vertex_count + 2 * (getlines text).countP is_vertex_line ∧
          e2.polygon_count = d.polygon_count + 2 * (getlines text).countP is_face_line ∧
          e2.vertex_array.rows =
            d.vertex_count + 2 * (getlines text).countP is_vertex_line + 1) := by
  have _ := hfault
  have _ := hfaces
  obtain ⟨e1, he1, hv, hp, hr, hc, hm⟩ :=
    parser_heap_counts calloc fopen scan name text d hopen (by omega)
  have hfv : (memory_free e1).vertex_count = e1.vertex_count := rfl
  have hfp : (memory_free e1).polygon_count = e1.polygon_count := rfl
  refine ⟨e1, he1, hv, hp, hr, hc, hm, hfv.trans hv, hfp.trans hp, ?_⟩
  intro _
  obtain ⟨e2, he2, hv2, hp2, hr2, _, _⟩ :=
    parser_heap_counts calloc fopen scan name text (memory_free e1) hopen
      (by rw [hfv, hv]; omega)
  refine ⟨e2, he2, ?_, ?_, ?_⟩
  · rw [hv2, hfv, hv]; omega
  · rw [hp2, hfp, hp]; omega
  · rw [hr2, hfv, hv]; omega

theorem load_adds_to_counters_witness :
    (parser_heap served (fun _ => some "v 0 0 0\nv 1 1 1\nf 1 2\n".toList) sscanf_rat
      (some "a.obj") (some empty_object)).fault = false ∧
    ∃ e1, (parser_heap served (fun _ => some "v 0 0 0\nv 1 1 1\nf 1 2\n".toList) sscanf_rat
        (some "a.obj") (some empty_object)).obj = some e1 ∧
      e1.vertex_count = 2 ∧ e1.polygon_count = 1 ∧ e1.vertex_array.rows = 3 ∧
      (parser_heap served (fun _ => some "v 0 0 0\nv 1 1 1\nf 1 2\n".toList) sscanf_rat
        (some "a.obj") (some (memory_free e1))).fault = false ∧
      ∃ e2, (parser_heap served (fun _ => some "v 0 0 0\nv 1 1 1\nf 1 2\n".toList) sscanf_rat
          (some "a.obj") (some (memory_free e1))).obj = some e2 ∧
        e2.vertex_count = 4 ∧ e2.polygon_count = 2 ∧ e2.vertex_array.rows = 5 := by
  have hfault : (parser_heap served (fun _ => some "v 0 0 0\nv 1 1 1\nf 1 2\n".toList)
      sscanf_rat (some "a.obj") (some empty_object)).fault = false := by
    with_unfolding_all decide
  have hn : (getlines "v 0 0 0\nv 1 1 1\nf 1 2\n".toList).countP is_vertex_line = 2 := by
    decide
  have hp : (getlines "v 0 0 0\nv 1 1 1\nf 1 2\n".toList).countP is_face_line = 1 := by
    decide
  obtain ⟨e1, he1, hv, hpc, hr, _, _, _, _, hsecond⟩ :=
    load_adds_to_counters served (fun _ => some "v 0 0 0\nv 1 1 1\nf 1 2\n".toList)
      sscanf_rat "a.obj" "v 0 0 0\nv 1 1 1\nf 1 2\n".toList empty_object rfl hfault
      (by decide) (by decide)
  have hobj : (parser_heap served (fun _ => some "v 0 0 0\nv 1 1 1\nf 1 2\n".toList)
      sscanf_rat (some "a.obj") (some empty_object)).obj =
      some { vertex_count := 2
             vertex_array := { matrix := some [0, 0, 0, 0, 0, 0, 1, 1, 1], rows := 3, colums := 3 }
             polygon_count := 1
             edges_count := 0
             all_edges_count := 2
             polygon_array := some [{ polygon := some [1, 2], colums := 2 }] } := by
    with_unfolding_all decide
  have he : e1 = _ := Option.some.inj (he1.symm.trans hobj)
  subst he
  have hfault2 : (parser_heap served (fun _ => some "v 0 0 0\nv 1 1 1\nf 1 2\n".toList)
      sscanf_rat (some "a.obj") (some (memory_free
        { vertex_count := 2
          vertex_array := { matrix := some [0, 0, 0, 0, 0, 0, 1, 1, 1], rows := 3, colums := 3 }
          polygon_count := 1
          edges_count := 0
          all_edges_count := 2
          polygon_array := some [{ polygon := some [1, 2], colums := 2 }] }))).fault = false := by
    with_unfolding_all decide
  obtain ⟨e2, he2, hv2, hp2, hr2⟩ := hsecond hfault2
  rw [hn] at hv hr hv2 hr2
  rw [hp] at hpc hp2
  exact ⟨hfault, _, hobj, hv, hpc, hr, hfault2, e2, he2, hv2, hp2, hr2⟩

/-! ## Rigidity of the rotations -/

end Viewer
